import Mathlib

/-!
# DFU engine of the TG165 alternate bootloader

A shallow embedding of `src/alt_bootloader/usbdfu.c`: the session state
(`usbdfu_state` and the `prog` record), the status poll `usbdfu_getstatus`,
the status completion callback `usbdfu_getstatus_complete` with its deferred
flash write, and the control request handler `usbdfu_control_request`.

Machine integers are natural numbers; where the C arithmetic wraps
(`uint32_t` address computations) the reduction modulo `2 ^ 32` is explicit.
Calls into the flash and reset collaborators are recorded as a list of
`Effect` values in call order.
-/

namespace Tg165

/-! ## Constants -/

/-- Memory address at which writes are allowed to begin (`DISALLOW_WRITES_BEFORE`). -/
def DISALLOW_WRITES_BEFORE : Nat := 0x08053000

/-- Command opcode of a block-0 set-address command. -/
def CMD_SETADDR : Nat := 0x21

/-- Command opcode of a block-0 erase command. -/
def CMD_ERASE : Nat := 0x41

/-- The field `dfu_function.wTransferSize` of the DFU functional descriptor. -/
def wTransferSize : Nat := 1024

/-- Modelled from the spec: the status code `DFU_STATUS_OK` comes from the USB
library header `libopencm3/usb/dfu.h`, which is not among the sources; the
spec calls it the status code OK and the DFU class gives it the value 0. -/
def DFU_STATUS_OK : Nat := 0

/-- Modelled from the spec: request code of `DNLOAD` (library header, DFU class numbering). -/
def DFU_DNLOAD : Nat := 1

/-- Modelled from the spec: request code of `UPLOAD` (library header, DFU class numbering). -/
def DFU_UPLOAD : Nat := 2

/-- Modelled from the spec: request code of `GETSTATUS` (library header, DFU class numbering). -/
def DFU_GETSTATUS : Nat := 3

/-- Modelled from the spec: request code of `CLRSTATUS` (library header, DFU class numbering). -/
def DFU_CLRSTATUS : Nat := 4

/-- Modelled from the spec: request code of `GETSTATE` (library header, DFU class numbering). -/
def DFU_GETSTATE : Nat := 5

/-- Modelled from the spec: request code of `ABORT` (library header, DFU class numbering). -/
def DFU_ABORT : Nat := 6

/-! ## Data model -/

/-- Modelled from the spec: `enum dfu_state` is declared in the USB library
header, not in the sources. The spec's data model lists IDLE, DNLOAD_SYNC,
DNBUSY, DNLOAD_IDLE, MANIFEST_SYNC, MANIFEST and ERROR; the remaining
constructors are the other states of the DFU class, so that the numbering of
`dfu_state.code` is the one of the class. -/
inductive dfu_state where
  | STATE_APP_IDLE
  | STATE_APP_DETACH
  | STATE_DFU_IDLE
  | STATE_DFU_DNLOAD_SYNC
  | STATE_DFU_DNBUSY
  | STATE_DFU_DNLOAD_IDLE
  | STATE_DFU_MANIFEST_SYNC
  | STATE_DFU_MANIFEST
  | STATE_DFU_MANIFEST_WAIT_RESET
  | STATE_DFU_UPLOAD_IDLE
  | STATE_DFU_ERROR
  deriving DecidableEq

/-- Modelled from the spec: the integer value of a state, as stored into a
`uint8_t` of the response buffer (DFU class numbering of the enum). -/
def dfu_state.code : dfu_state → Nat
  | .STATE_APP_IDLE => 0
  | .STATE_APP_DETACH => 1
  | .STATE_DFU_IDLE => 2
  | .STATE_DFU_DNLOAD_SYNC => 3
  | .STATE_DFU_DNBUSY => 4
  | .STATE_DFU_DNLOAD_IDLE => 5
  | .STATE_DFU_MANIFEST_SYNC => 6
  | .STATE_DFU_MANIFEST => 7
  | .STATE_DFU_MANIFEST_WAIT_RESET => 8
  | .STATE_DFU_UPLOAD_IDLE => 9
  | .STATE_DFU_ERROR => 10

/-- The static `prog` record: the pending block (`buf`, 1024 bytes in the
source), its length `len` (`uint16_t`), the target address `addr`
(`uint32_t`) and the block number `blocknum` (`uint16_t`). -/
structure Prog where
  buf : List Nat
  len : Nat
  addr : Nat
  blocknum : Nat
  deriving DecidableEq

/-- The live state of the DFU engine: the two file-level statics of the source. -/
structure DfuSession where
  usbdfu_state : dfu_state
  prog : Prog
  deriving DecidableEq

/-- A call into the flash collaborator or the reset primitive. -/
inductive Effect where
  | flash_unlock
  | flash_lock
  | flash_erase_page (address : Nat)
  | flash_program_half_word (address : Nat) (data : Nat)
  | scb_reset_system
  deriving DecidableEq

/-- The fields of `struct usb_setup_data` (the setup packet of a control request). -/
structure usb_setup_data where
  bmRequestType : Nat
  bRequest : Nat
  wValue : Nat
  wIndex : Nat
  wLength : Nat
  deriving DecidableEq

/-- The values the completion-callback slot `*complete` takes in this engine. -/
inductive Completion where
  | usbdfu_getstatus_complete
  deriving DecidableEq

/-! ## Memory access -/

/-- Byte `i` of a buffer (`buf[i]`). With the 1024-byte buffer of the source
every read the engine makes is inside the buffer whenever `prog.len` is at
most 1024; outside of the list the model reads 0. -/
def load8 (buf : List Nat) (i : Nat) : Nat := buf.getD i 0

/-- The little-endian `uint16_t` read `*(uint16_t *)(buf + i)`. -/
def load16 (buf : List Nat) (i : Nat) : Nat :=
  load8 buf i ||| (load8 buf (i + 1) <<< 8)

/-- The little-endian `uint32_t` read `*(uint32_t *)(buf + i)`. -/
def load32 (buf : List Nat) (i : Nat) : Nat :=
  load8 buf i ||| (load8 buf (i + 1) <<< 8) ||| (load8 buf (i + 2) <<< 16)
    ||| (load8 buf (i + 3) <<< 24)

/-- The store `buf[i] = v` through a buffer pointer; `none` when the index is
outside of the buffer. -/
def store8 (buf : List Nat) (i v : Nat) : Option (List Nat) :=
  if i < buf.length then some (buf.set i v) else none

/-- The call `memcpy(dst, src, n)`; `none` when `n` bytes do not fit into the
destination or are not there in the source. -/
def memcpy (dst src : List Nat) (n : Nat) : Option (List Nat) :=
  if n ≤ dst.length ∧ n ≤ src.length then some (src.take n ++ dst.drop n) else none

/-! ## The status poll -/

/-- The function `usbdfu_getstatus`: from the state and the caller's
`bwPollTimeout` to the returned status code, the new state and the new
`bwPollTimeout`. -/
def usbdfu_getstatus (st : dfu_state) (bwPollTimeout : Nat) : Nat × dfu_state × Nat :=
  match st with
  | .STATE_DFU_DNLOAD_SYNC => (DFU_STATUS_OK, .STATE_DFU_DNBUSY, 100)
  | .STATE_DFU_MANIFEST_SYNC => (DFU_STATUS_OK, .STATE_DFU_MANIFEST, bwPollTimeout)
  | _ => (DFU_STATUS_OK, st, bwPollTimeout)

/-! ## The deferred flash write -/

/-- The base address `prog.addr + ((prog.blocknum - 2) * wTransferSize)`: the
product is computed in `int` and the sum wraps as a `uint32_t`. -/
def baseaddr (p : Prog) : Nat :=
  (((p.addr : Int) + ((p.blocknum : Int) - 2) * (wTransferSize : Int)) % (2 ^ 32 : Int)).toNat

/-- The body of `for (i = 0; i < prog.len; i += 2)` from offset `i` on. The
first argument bounds the number of iterations left; `len` of them are
always enough since `i` grows by 2 in each. -/
def program_loop (buf : List Nat) (len base : Nat) : Nat → Nat → List Effect
  | 0, _ => []
  | fuel + 1, i =>
    if i < len then
      (if (base + i) % 2 ^ 32 ≥ DISALLOW_WRITES_BEFORE then
        [Effect.flash_program_half_word ((base + i) % 2 ^ 32) (load16 buf i)]
      else [])
        ++ program_loop buf len base fuel (i + 2)
    else []

/-- The body of `case CMD_SETADDR:`. -/
def cmd_setaddr (p : Prog) : Prog :=
  { p with addr := load32 p.buf 1 }

/-- The body of `case CMD_ERASE:`, which has no `break` and falls through into
the body of `case CMD_SETADDR:`. -/
def cmd_erase (p : Prog) : Prog × List Effect :=
  (cmd_setaddr p,
    if load32 p.buf 1 ≥ DISALLOW_WRITES_BEFORE then
      [Effect.flash_erase_page (load32 p.buf 1)]
    else [])

/-- What lies between `flash_unlock()` and `flash_lock()` in the `DNBUSY` case. -/
def deferred_write (p : Prog) : Prog × List Effect :=
  if p.blocknum = 0 then
    if load8 p.buf 0 = CMD_ERASE then cmd_erase p
    else if load8 p.buf 0 = CMD_SETADDR then (cmd_setaddr p, [])
    else (p, [])
  else
    (p, program_loop p.buf p.len (baseaddr p) p.len 0)

/-- The status completion callback `usbdfu_getstatus_complete`: the new session
and the collaborator calls it makes, in order. -/
def usbdfu_getstatus_complete (s : DfuSession) : DfuSession × List Effect :=
  match s.usbdfu_state with
  | .STATE_DFU_DNBUSY =>
    ({ usbdfu_state := .STATE_DFU_DNLOAD_IDLE, prog := (deferred_write s.prog).1 },
      [Effect.flash_unlock] ++ (deferred_write s.prog).2 ++ [Effect.flash_lock])
  | .STATE_DFU_MANIFEST => (s, [Effect.scb_reset_system])
  | _ => (s, [])

/-! ## The control request handler -/

/-- What `usbdfu_control_request` leaves behind: its return value, the session,
the buffer `*buf` points to, the length pointer (`none` is `NULL`) and the
completion slot `*complete`. -/
structure ControlResult where
  ret : Nat
  session : DfuSession
  buf : List Nat
  len : Option Nat
  complete : Option Completion
  deriving DecidableEq

/-- The `case DFU_GETSTATUS:` block. A store outside of the buffer or through a
null length pointer has no defined result (`none`). -/
def getstatus_case (s : DfuSession) (buf : List Nat) (len : Option Nat) :
    Option ControlResult :=
  let r := usbdfu_getstatus s.usbdfu_state 0
  let st := r.2.1
  let bwPollTimeout := r.2.2
  (store8 buf 0 r.1).bind fun b0 =>
  (store8 b0 1 (bwPollTimeout &&& 0xFF)).bind fun b1 =>
  (store8 b1 2 ((bwPollTimeout >>> 8) &&& 0xFF)).bind fun b2 =>
  (store8 b2 3 ((bwPollTimeout >>> 16) &&& 0xFF)).bind fun b3 =>
  (store8 b3 4 (st.code % 256)).bind fun b4 =>
  (store8 b4 5 0).bind fun b5 =>
  len.bind fun _ =>
    some { ret := 1, session := { s with usbdfu_state := st }, buf := b5, len := some 6,
           complete := some Completion.usbdfu_getstatus_complete }

/-- The `case DFU_GETSTATE:` block. The statement `*buf[0] = usbdfu_state`
parses as `*(buf[0])`; `buf[0]` is the buffer pointer `*buf` itself, so the
store goes to byte 0 of the response buffer. -/
def getstate_case (s : DfuSession) (buf : List Nat) (len : Option Nat)
    (complete : Option Completion) : Option ControlResult :=
  (store8 buf 0 (s.usbdfu_state.code % 256)).bind fun b0 =>
  len.bind fun _ =>
    some { ret := 1, session := s, buf := b0, len := some 1, complete := complete }

/-- The `case DFU_DNLOAD:` block. -/
def dnload_case (s : DfuSession) (req : usb_setup_data) (buf : List Nat) (len : Option Nat)
    (complete : Option Completion) : Option ControlResult :=
  if len = none ∨ len = some 0 then
    some { ret := 1, session := { s with usbdfu_state := .STATE_DFU_MANIFEST_SYNC },
           buf := buf, len := len, complete := complete }
  else
    (memcpy s.prog.buf buf (len.getD 0)).bind fun pb =>
      some { ret := 1,
             session := { usbdfu_state := .STATE_DFU_DNLOAD_SYNC,
                          prog := { s.prog with blocknum := req.wValue, len := len.getD 0,
                                                buf := pb } },
             buf := buf, len := len, complete := complete }

/-- The handler `usbdfu_control_request`. The arguments `buf`, `len` and
`complete` are what the three pointers of the source point to on entry. -/
def usbdfu_control_request (s : DfuSession) (req : usb_setup_data) (buf : List Nat)
    (len : Option Nat) (complete : Option Completion) : Option ControlResult :=
  if req.bmRequestType &&& 0x7F ≠ 0x21 then
    some { ret := 0, session := s, buf := buf, len := len, complete := complete }
  else if req.bRequest = DFU_DNLOAD then dnload_case s req buf len complete
  else if req.bRequest = DFU_CLRSTATUS then
    some { ret := 1,
           session := if s.usbdfu_state = .STATE_DFU_ERROR
                      then { s with usbdfu_state := .STATE_DFU_IDLE } else s,
           buf := buf, len := len, complete := complete }
  else if req.bRequest = DFU_ABORT then
    some { ret := 1, session := { s with usbdfu_state := .STATE_DFU_IDLE },
           buf := buf, len := len, complete := complete }
  else if req.bRequest = DFU_UPLOAD then
    some { ret := 0, session := s, buf := buf, len := len, complete := complete }
  else if req.bRequest = DFU_GETSTATUS then getstatus_case s buf len
  else if req.bRequest = DFU_GETSTATE then getstate_case s buf len complete
  else
    some { ret := 0, session := s, buf := buf, len := len, complete := complete }

/-! ## Sequences of requests and completions -/

/-- What the USB stack hands to the engine: a control request with the
contents of its buffer and length pointer, or the completion of a status
response. -/
inductive Event where
  | control (req : usb_setup_data) (buf : List Nat) (len : Option Nat)
  | status_complete
  deriving DecidableEq

/-- One event: the new session and the collaborator calls made. The request
handler itself calls no collaborator. -/
def step (s : DfuSession) : Event → Option (DfuSession × List Effect)
  | .control req buf len =>
    (usbdfu_control_request s req buf len none).map fun r => (r.session, [])
  | .status_complete => some (usbdfu_getstatus_complete s)

/-- The session and the trace of collaborator calls after a sequence of
events. The run ends at a system reset, which does not return, and at an
event without a defined result. -/
def run (s : DfuSession) : List Event → DfuSession × List Effect
  | [] => (s, [])
  | e :: es =>
    match step s e with
    | none => (s, [])
    | some (s', fx) =>
      if Effect.scb_reset_system ∈ fx then (s', fx)
      else ((run s' es).1, fx ++ (run s' es).2)

/-! ## Predicates on calls and requests -/

/-- The flash-write gate on one collaborator call: an erase or program call
targets an address at or above `DISALLOW_WRITES_BEFORE`. -/
def Effect.gated : Effect → Prop
  | .flash_erase_page a => DISALLOW_WRITES_BEFORE ≤ a
  | .flash_program_half_word a _ => DISALLOW_WRITES_BEFORE ≤ a
  | _ => True

/-- A request of the DFU class (`(bmRequestType & 0x7F) == 0x21`) with request code `b`. -/
def class_request (b : Nat) (req : usb_setup_data) : Prop :=
  req.bmRequestType &&& 0x7F = 0x21 ∧ req.bRequest = b

/-! ## Specification-side descriptions -/

/-- The program calls the spec describes for a data block of length `len` at
base address `base`: one for each even offset below `len` whose address
`base + i` (modulo `2 ^ 32`) is at or above the boundary, in increasing order,
with the little-endian half-word at that offset of the pending buffer. -/
def gated_half_words (buf : List Nat) (len base : Nat) : List Effect :=
  ((List.range len).filter
      (fun i => i % 2 = 0 ∧ DISALLOW_WRITES_BEFORE ≤ (base + i) % 2 ^ 32)).map
    (fun i => Effect.flash_program_half_word ((base + i) % 2 ^ 32)
      (load8 buf i ||| (load8 buf (i + 1) <<< 8)))

/-! ## A whole download: its request sequence and its expected calls -/

/-- The three events of one transfer: a DNLOAD request with block number `blk`
and the given payload, the GETSTATUS poll that follows it (answered into the
buffer `ctl`), and the completion of the status response. -/
def transfer (blk : Nat) (payload ctl : List Nat) : List Event :=
  [Event.control ⟨0x21, DFU_DNLOAD, blk, 0, payload.length⟩ payload (some payload.length),
   Event.control ⟨0xA1, DFU_GETSTATUS, 0, 0, 6⟩ ctl (some 6),
   Event.status_complete]

/-- The session at boot: `usbdfu_state` is initialised to IDLE and the static
`prog` record is zero-initialised. -/
def boot : DfuSession :=
  { usbdfu_state := .STATE_DFU_IDLE,
    prog := { buf := List.replicate 1024 0, len := 0, addr := 0, blocknum := 0 } }

/-- A control buffer of 1024 bytes that starts with the given bytes. -/
def control_buffer (payload : List Nat) : List Nat :=
  payload ++ List.replicate (1024 - payload.length) 0

/-- A class DNLOAD request with block number `blk` for `n` bytes. -/
def dnload_request (blk n : Nat) : usb_setup_data :=
  { bmRequestType := 0x21, bRequest := DFU_DNLOAD, wValue := blk, wIndex := 0, wLength := n }

/-- A class GETSTATUS request. -/
def getstatus_request : usb_setup_data :=
  { bmRequestType := 0xA1, bRequest := DFU_GETSTATUS, wValue := 0, wIndex := 0, wLength := 6 }

/-- A class GETSTATE request. -/
def getstate_request : usb_setup_data :=
  { bmRequestType := 0xA1, bRequest := DFU_GETSTATE, wValue := 0, wIndex := 0, wLength := 1 }

/-- A busy session holding the four bytes 01 02 03 04 as block 2 for address 0x08053000. -/
def busy_data : DfuSession :=
  { usbdfu_state := .STATE_DFU_DNBUSY,
    prog := { buf := [1, 2, 3, 4] ++ List.replicate 1020 0, len := 4, addr := 0x08053000,
              blocknum := 2 } }

/-- A busy session holding the two bytes 01 02 as block 1 for address 0x08053400. -/
def busy_block_one : DfuSession :=
  { usbdfu_state := .STATE_DFU_DNBUSY,
    prog := { buf := [1, 2] ++ List.replicate 1022 0, len := 2, addr := 0x08053400,
              blocknum := 1 } }

/-- A busy session holding the command block "erase the page at 0x08053000". -/
def busy_erase : DfuSession :=
  { usbdfu_state := .STATE_DFU_DNBUSY,
    prog := { buf := [0x41, 0x00, 0x30, 0x05, 0x08] ++ List.replicate 1019 0, len := 5,
              addr := 0, blocknum := 0 } }

/-- The session after a DNLOAD request at boot: state DNLOAD_SYNC. -/
def synced : DfuSession :=
  { boot with usbdfu_state := .STATE_DFU_DNLOAD_SYNC }

/-- The events of a set-address command to 0x08053400 followed by the bytes
01 02 sent as block 1. -/
def block_one_events : List Event :=
  transfer 0 [0x21, 0x00, 0x34, 0x05, 0x08] [0, 0, 0, 0, 0, 0] ++
    transfer 1 [0x01, 0x02] [0, 0, 0, 0, 0, 0]

/-- A class CLRSTATUS request. -/
def clrstatus_request : usb_setup_data :=
  { bmRequestType := 0x21, bRequest := DFU_CLRSTATUS, wValue := 0, wIndex := 0, wLength := 0 }

/-- A class ABORT request. -/
def abort_request : usb_setup_data :=
  { bmRequestType := 0x21, bRequest := DFU_ABORT, wValue := 0, wIndex := 0, wLength := 0 }

/-- A class UPLOAD request. -/
def upload_request : usb_setup_data :=
  { bmRequestType := 0xA1, bRequest := DFU_UPLOAD, wValue := 0, wIndex := 0, wLength := 64 }

/-- A session in the ERROR state, the pending block as at boot. -/
def errored : DfuSession :=
  { boot with usbdfu_state := .STATE_DFU_ERROR }

/-- The calls of a trace that go to the flash collaborator (all but the system reset). -/
def flash_calls (fx : List Effect) : List Effect :=
  fx.filter fun e =>
    match e with
    | .scb_reset_system => false
    | _ => true

/-- The lock state of the flash after a trace of calls, from the lock state
before it: `flash_unlock` unlocks, `flash_lock` locks, no other call changes it. -/
def flash_locked : Bool → List Effect → Bool
  | locked, [] => locked
  | _, Effect.flash_unlock :: fx => flash_locked false fx
  | _, Effect.flash_lock :: fx => flash_locked true fx
  | locked, _ :: fx => flash_locked locked fx

/-! ## The console of the bootloader extractor -/

/-- The maximum packet size of the bulk endpoints (`MAX_PACKET_SIZE`). -/
def MAX_PACKET_SIZE : Nat := 64

/-- Modelled from the spec: the ring buffer of `ringbuf.h`, which is not among
the sources. The spec describes it as a fixed-capacity circular byte queue;
the model keeps the capacity and the unread bytes, oldest first. -/
structure ringbuf_t where
  capacity : Nat
  bytes : List Nat
  deriving DecidableEq

/-- Modelled from the spec: the capacity of the queue. -/
def ringbuf_capacity (rb : ringbuf_t) : Nat := rb.capacity

/-- Modelled from the spec: the used-count of the queue. -/
def ringbuf_bytes_used (rb : ringbuf_t) : Nat := rb.bytes.length

/-- Modelled from the spec: the free-count of the queue (`used + free == capacity`). -/
def ringbuf_bytes_free (rb : ringbuf_t) : Nat := rb.capacity - rb.bytes.length

/-- Modelled from the spec: the queue is full when nothing is free. -/
def ringbuf_is_full (rb : ringbuf_t) : Bool := ringbuf_bytes_free rb = 0

/-- Modelled from the spec: `ringbuf_memcpy_into(rb, src, count)` appends `count`
bytes at the write cursor. A circular buffer that is written beyond its free
space overwrites its oldest unread bytes, which is why the spec has the
producers wait; the model drops those bytes from the head. -/
def ringbuf_memcpy_into (rb : ringbuf_t) (src : List Nat) (count : Nat) : ringbuf_t :=
  let all := rb.bytes ++ src.take count
  { rb with bytes := all.drop (all.length - rb.capacity) }

/-- Modelled from the spec: `ringbuf_memcpy_from(dst, rb, count)` removes up to
`count` bytes from the head of the queue and returns them. -/
def ringbuf_memcpy_from (rb : ringbuf_t) (count : Nat) : List Nat × ringbuf_t :=
  (rb.bytes.take count, { rb with bytes := rb.bytes.drop count })

/-- A call into the GPIO or reset collaborator. -/
inductive HwCall where
  | gpio_port_read (port : Nat)
  | scb_reset_system
  deriving DecidableEq

/-- The state of the extractor's console: the ring buffer `console_buffer`, the
data packets handed to the bulk IN endpoint so far (oldest first), the log of
GPIO and reset calls, and `host`: for each coming call of `usbd_poll`, whether
that call finds the IN endpoint ready and invokes `cdcacm_tx_ready_cb`. -/
structure Extractor where
  console_buffer : ringbuf_t
  packets : List (List Nat)
  calls : List HwCall
  host : List Bool
  deriving DecidableEq

/-- A routine of the extractor: from the state to its return value and the new
state; `none` when the routine is still waiting for the host at the end of
`host`, or never returns. -/
abbrev Console := StateT Extractor Option

/-- The callback `cdcacm_tx_ready_cb`. The nullary endpoint read changes nothing
in the model; the packet written to endpoint 0x82 is appended to `packets`. -/
def cdcacm_tx_ready_cb (w : Extractor) : Extractor :=
  let to_transmit := ringbuf_bytes_used w.console_buffer
  if to_transmit = 0 then w
  else
    let to_transmit := if to_transmit > MAX_PACKET_SIZE then MAX_PACKET_SIZE else to_transmit
    { w with console_buffer := (ringbuf_memcpy_from w.console_buffer to_transmit).2,
             packets := w.packets ++ [(ringbuf_memcpy_from w.console_buffer to_transmit).1] }

/-- Modelled from the spec: `usbd_poll`, the non-blocking pump of the USB
collaborator, which invokes the registered callbacks. One call takes the head
of `host` and invokes `cdcacm_tx_ready_cb` if it says so; commands that arrive
while a console write is waiting are not modelled. -/
def usbd_poll : Console Unit := fun w =>
  match w.host with
  | [] => none
  | ready :: rest =>
    some ((), if ready then cdcacm_tx_ready_cb { w with host := rest }
              else { w with host := rest })

/-- The loop `while (blocked(&console_buffer)) usbd_poll(usbdev);`. The first
argument bounds the number of rounds; each round takes one entry of `host`,
so `host.length` rounds are all there can be. -/
def poll_while (blocked : ringbuf_t → Bool) : Nat → Console Unit
  | 0 => fun w => if blocked w.console_buffer then none else some ((), w)
  | fuel + 1 => fun w =>
    if blocked w.console_buffer then (usbd_poll w).bind fun r => poll_while blocked fuel r.2
    else some ((), w)

/-- The call `ringbuf_memcpy_into(&console_buffer, src, count)`. -/
def console_memcpy_into (src : List Nat) (count : Nat) : Console Unit :=
  modify fun w => { w with console_buffer := ringbuf_memcpy_into w.console_buffer src count }

/-- The function `console_putc`. -/
def console_putc (c : Nat) : Console Unit := do
  let w ← get
  poll_while ringbuf_is_full w.host.length
  console_memcpy_into [c] 1

/-- The notice `"OVERRUN!\r\n"`. -/
def OVERRUN : List Nat := [0x4F, 0x56, 0x45, 0x52, 0x52, 0x55, 0x4E, 0x21, 0x0D, 0x0A]

/-- The function `console_puts` with a bound on the depth of its recursion. A
string is given by its characters before the terminating NUL, so `strlen` is
the length of the list. -/
def console_puts_depth : Nat → List Nat → Console Unit
  | 0, _ => fun _ => none
  | depth + 1, str => fun w =>
    let len := str.length
    if len > ringbuf_capacity w.console_buffer then console_puts_depth depth OVERRUN w
    else
      (do poll_while (fun rb => ringbuf_bytes_free rb < len) w.host.length
          console_memcpy_into str len) w

/-- The function `console_puts`. The nested call has the fixed ten-byte notice
as its argument, so a third level is entered only when every level enters
the next one (capacity below 10) and the recursion never ends: depth 2 gives
the result whenever there is one. -/
def console_puts (str : List Nat) : Console Unit := console_puts_depth 2 str

/-! ## Hex output -/

/-- The characters of a string literal of the source, as character codes. -/
def chars (s : String) : List Nat := s.toList.map Char.toNat

/-- The macro `HEX_CHAR`: a nybble as an ASCII hex character. -/
def HEX_CHAR (x : Nat) : Nat := if x + 0x30 > 0x39 then x + 0x37 else x + 0x30

/-- The function `dump_byte`; its parameter is a `uint8_t`. -/
def dump_byte (b : Nat) : Console Unit := do
  let b := b % 256
  console_putc (HEX_CHAR ((b >>> 4) &&& 0xf))
  console_putc (HEX_CHAR (b &&& 0xf))

/-- The function `dump_word`; its parameter is a `uint16_t`. -/
def dump_word (w : Nat) : Console Unit := do
  let w := w % 65536
  dump_byte (w >>> 8)
  dump_byte (w &&& 0xFF)

/-- The function `dump_long`; its parameter is declared `uint16_t` in the source. -/
def dump_long (l : Nat) : Console Unit := do
  let l := l % 65536
  dump_word (l >>> 16)
  dump_word (l &&& 0xFFFF)

/-- The loop `for (int i = 0; i < 16; i++)` of `dump_line` from index `i` on,
with the running `uint8_t` checksum, which it returns. The first argument
bounds the number of rounds left. Memory is a function from addresses to
bytes. -/
def dump_line_loop (mem : Nat → Nat) (line_addr : Nat) : Nat → Nat → Nat → Console Nat
  | 0, _, checksum => pure checksum
  | fuel + 1, i, checksum =>
    if i < 16 then do
      let byte := mem (line_addr + i) % 256
      dump_byte byte
      dump_line_loop mem line_addr fuel (i + 1) ((checksum + byte) % 256)
    else pure checksum

/-- The function `dump_line`. The two casts to `uint32_t` and the subtraction
wrap modulo `2 ^ 32`; `~checksum + 1` is computed in `int` and converted to the
`uint8_t` parameter of `dump_byte`. -/
def dump_line (mem : Nat → Nat) (addr base : Nat) : Console Nat := do
  let checksum := 0x10
  let line_addr := addr
  let tmp := (((line_addr % 2 ^ 32 : Nat) : Int) - ((base % 2 ^ 32 : Nat) : Int)) % (2 ^ 32 : Int)
  let tmp := tmp.toNat
  console_puts (chars ":10")
  dump_word (tmp % 65536)
  let checksum := (checksum + (tmp >>> 8)) % 256
  let checksum := (checksum + (tmp &&& 0xFF)) % 256
  console_puts (chars "00")
  let checksum ← dump_line_loop mem line_addr 16 0 checksum
  dump_byte (((-(checksum : Int) - 1 + 1) % 256).toNat)
  console_puts (chars "\r\n")
  pure line_addr

/-- The loop `for (i = 0; i < 16; i++)` of `dump_page` from index `i` on. -/
def dump_page_loop (mem : Nat → Nat) (addr base : Nat) : Nat → Nat → Console Unit
  | 0, _ => pure ()
  | fuel + 1, i =>
    if i < 16 then do
      let _ ← dump_line mem (addr + i * 16) base
      dump_page_loop mem addr base fuel (i + 1)
    else pure ()

/-- The function `dump_page`. -/
def dump_page (mem : Nat → Nat) (addr base : Nat) : Console Nat := do
  dump_page_loop mem addr base 16 0
  pure addr

/-- The loop `for(addr = 0x08000000; addr < 0x08010000; addr += 256)` of
`dump_bootloader` from `addr` on; `addr` is a `uintptr_t`. -/
def dump_bootloader_loop (mem : Nat → Nat) : Nat → Nat → Console Unit
  | 0, _ => pure ()
  | fuel + 1, addr =>
    if addr < 0x08010000 then do
      let _ ← dump_page mem addr 0x08000000
      dump_bootloader_loop mem fuel ((addr + 256) % 2 ^ 32)
    else pure ()

/-- The function `dump_bootloader`; the loop makes 256 rounds. -/
def dump_bootloader (mem : Nat → Nat) : Console Unit := do
  dump_bootloader_loop mem 256 0x08000000
  console_puts (chars ":00000001FF\r\n")

/-- The function `unknown_command`. -/
def unknown_command (c : Nat) : Console Unit := do
  console_puts (chars "Unknown command (0x")
  dump_byte c
  console_puts (chars ")!\r\n")

/-! ## GPIO readback, help and command dispatch -/

/-- Modelled from the spec: the identifier of GPIO port A (a constant of the
library header; the register base of the port on this controller family). -/
def GPIOA : Nat := 0x40010800

/-- Modelled from the spec: the identifier of GPIO port B. -/
def GPIOB : Nat := 0x40010C00

/-- Modelled from the spec: the identifier of GPIO port C. -/
def GPIOC : Nat := 0x40011000

/-- Modelled from the spec: the identifier of GPIO port D. -/
def GPIOD : Nat := 0x40011400

/-- Modelled from the spec: the identifier of GPIO port E. -/
def GPIOE : Nat := 0x40011800

/-- The array `gpioports` of `read_back_gpio`. -/
def gpioports : List Nat := [GPIOA, GPIOB, GPIOC, GPIOD, GPIOE]

/-- Modelled from the spec: the collaborator call `gpio_port_read(port)`, a
port-wide read that returns a `uint16_t`. The pins are a function `gpio` from
ports to values; the call is logged. -/
def gpio_port_read (gpio : Nat → Nat) (port : Nat) : Console Nat := fun w =>
  some (gpio port % 65536, { w with calls := w.calls ++ [HwCall.gpio_port_read port] })

/-- Modelled from the spec: the collaborator call `scb_reset_system()`, logged. -/
def scb_reset_system : Console Unit :=
  modify fun w => { w with calls := w.calls ++ [HwCall.scb_reset_system] }

/-- The loop `for(size_t i = 0; i < num_gpio; ++i)` of `read_back_gpio` from
index `i` on; `num_gpio` is the length of `gpioports`. -/
def read_back_gpio_loop (gpio : Nat → Nat) : Nat → Nat → Console Unit
  | 0, _ => pure ()
  | fuel + 1, i =>
    if i < gpioports.length then do
      console_putc ((0x41 + i) % 256)
      console_puts (chars ": ")
      let v ← gpio_port_read gpio (gpioports.getD i 0)
      dump_long v
      console_putc 0x20
      read_back_gpio_loop gpio fuel (i + 1)
    else pure ()

/-- The function `read_back_gpio`. -/
def read_back_gpio (gpio : Nat → Nat) : Console Unit := do
  console_puts (chars "Port ")
  read_back_gpio_loop gpio gpioports.length 0
  console_puts (chars "\r\n")

/-- The function `print_help`. -/
def print_help : Console Unit := do
  console_puts (chars "d: dump bootloader\r\n")
  console_puts (chars "r: reset device\r\n")
  console_puts (chars "g: read all GPIO\r\n")
  console_puts (chars "h: this help message\r\n")
  console_puts (chars "\r\n")

/-- The function `handle_command`. -/
def handle_command (mem gpio : Nat → Nat) (c : Nat) : Console Unit :=
  if c = 0x64 ∨ c = 0x44 then dump_bootloader mem
  else if c = 0x72 ∨ c = 0x52 then scb_reset_system
  else if c = 0x67 ∨ c = 0x47 then read_back_gpio gpio
  else if c = 0x68 ∨ c = 0x48 then print_help
  else if c = 0x0D then pure ()
  else unknown_command c

/-! ## Specification-side descriptions of the console -/

/-- Everything written to the console so far, in order: the bytes of the
packets handed to the host, then the bytes still queued. -/
def stream (w : Extractor) : List Nat := w.packets.flatten ++ w.console_buffer.bytes

/-- The room a routine can count on: the free bytes of the queue plus the
coming polls that find the host ready (each of which frees a byte or more
when the queue is not empty). -/
def budget (w : Extractor) : Nat :=
  ringbuf_bytes_free w.console_buffer + w.host.count true

/-- The queue holds no more than its capacity, and its capacity is at least 1
and at least `need`. -/
def console_ok (need : Nat) (w : Extractor) : Prop :=
  w.console_buffer.bytes.length ≤ w.console_buffer.capacity ∧
    1 ≤ w.console_buffer.capacity ∧ need ≤ w.console_buffer.capacity

/-- The routine `f` writes exactly `out` to the console, makes exactly the calls
`cs` and returns `v`: whenever it returns, the stream has grown by `out`, the
call log by `cs`, the capacity is unchanged, the queue is within its capacity
and at most `out.length` of the budget is used up; and it does return when
the budget covers `out.length`. -/
def Emits {α : Type} (need : Nat) (f : Console α) (v : α) (out : List Nat)
    (cs : List HwCall) : Prop :=
  ∀ w, console_ok need w →
    (∀ r, f.run w = some r →
      r.1 = v ∧ stream r.2 = stream w ++ out ∧ r.2.calls = w.calls ++ cs ∧
      r.2.console_buffer.capacity = w.console_buffer.capacity ∧
      console_ok need r.2 ∧ budget w ≤ budget r.2 + out.length) ∧
    (out.length ≤ budget w → ∃ r, f.run w = some r)

/-! ## Specification-side descriptions of the hex output -/

/-- The uppercase ASCII hex digit of a value below 16. -/
def hex_digit (d : Nat) : Nat := if d < 10 then 0x30 + d else 0x41 + (d - 10)

/-- The two hex digits of a byte, high nybble first. -/
def hex2 (b : Nat) : List Nat := [hex_digit (b / 16 % 16), hex_digit (b % 16)]

/-- The four hex digits of a 16-bit value, most significant first. -/
def hex4 (v : Nat) : List Nat := hex2 (v / 256 % 256) ++ hex2 (v % 256)

/-- The eight hex digits of a 32-bit value, most significant first. -/
def hex8 (v : Nat) : List Nat := hex4 (v / 65536 % 65536) ++ hex4 (v % 65536)

/-- The value of an ASCII hex digit (`0`-`9`, `A`-`F`). -/
def hex_value (c : Nat) : Option Nat :=
  if 0x30 ≤ c ∧ c ≤ 0x39 then some (c - 0x30)
  else if 0x41 ≤ c ∧ c ≤ 0x46 then some (c - 0x41 + 10)
  else none

/-- The bytes encoded by a sequence of hex-digit pairs. -/
def unhex : List Nat → Option (List Nat)
  | [] => some []
  | [_] => none
  | h :: l :: rest =>
    match hex_value h, hex_value l, unhex rest with
    | some a, some b, some t => some ((16 * a + b) :: t)
    | _, _, _ => none

/-- The offset of a line: `addr - base` modulo `2 ^ 32`. -/
def line_offset (addr base : Nat) : Nat := (addr % 2 ^ 32 + 2 ^ 32 - base % 2 ^ 32) % 2 ^ 32

/-- The sixteen bytes of memory at `addr`. -/
def payload (mem : Nat → Nat) (addr : Nat) : List Nat :=
  (List.range 16).map fun i => mem (addr + i) % 256

/-- The 8-bit two's complement of the sum of a list of bytes. -/
def checksum_of (bytes : List Nat) : Nat := (256 - bytes.sum % 256) % 256

/-- The 21 bytes of the Intel-HEX data record of the line at `addr`: length
0x10, address high byte, address low byte, type 0x00, the payload, the
checksum. -/
def data_record (mem : Nat → Nat) (addr base : Nat) : List Nat :=
  [0x10, line_offset addr base / 256 % 256, line_offset addr base % 256, 0x00] ++
    payload mem addr ++
    [checksum_of ([0x10, line_offset addr base / 256 % 256, line_offset addr base % 256, 0x00]
      ++ payload mem addr)]

/-- A record as it goes over the console: a colon, the hex-digit pairs of its
bytes, carriage return and line feed. -/
def hex_record (bytes : List Nat) : List Nat :=
  [0x3A] ++ bytes.flatMap hex2 ++ [0x0D, 0x0A]

/-- Line `k` of the dump as the spec words it: `:10`, the four hex digits of
`16 k`, `00`, the hex digits of the sixteen bytes at `0x08000000 + 16 k`, the
hex digits of the checksum, carriage return and line feed. -/
def intel_hex_line (mem : Nat → Nat) (k : Nat) : List Nat :=
  chars ":10" ++ hex4 (16 * k) ++ chars "00" ++
    (payload mem (0x08000000 + 16 * k)).flatMap hex2 ++
    hex2 (checksum_of ([0x10, 16 * k / 256 % 256, 16 * k % 256, 0x00] ++
      payload mem (0x08000000 + 16 * k))) ++
    chars "\r\n"

/-- The whole dump as the spec words it: the lines 0 to 4095, then the
end-of-file record. -/
def intel_hex_dump (mem : Nat → Nat) : List Nat :=
  (List.range 4096).flatMap (intel_hex_line mem) ++ chars ":00000001FF\r\n"

/-- The text of the GPIO snapshot for the five port values, as the spec words
it: `Port `, then for each port its letter, `: `, the value in hex digits and
a space, then carriage return and line feed. -/
def gpio_snapshot (a b c d e : Nat) : List Nat :=
  chars "Port " ++
    (chars "A: " ++ hex8 a ++ chars " ") ++ (chars "B: " ++ hex8 b ++ chars " ") ++
    (chars "C: " ++ hex8 c ++ chars " ") ++ (chars "D: " ++ hex8 d ++ chars " ") ++
    (chars "E: " ++ hex8 e ++ chars " ") ++ chars "\r\n"

/-- The help text of `print_help`. -/
def help_text : List Nat :=
  chars "d: dump bootloader\r\n" ++ chars "r: reset device\r\n" ++
    chars "g: read all GPIO\r\n" ++ chars "h: this help message\r\n" ++ chars "\r\n"

/-- The notice for an unknown command byte. -/
def unknown_text (c : Nat) : List Nat :=
  chars "Unknown command (0x" ++ hex2 c ++ chars ")!\r\n"

/-- The console output of a command byte, as the spec's dispatch table has it. -/
def command_output (mem gpio : Nat → Nat) (c : Nat) : List Nat :=
  if c = 0x64 ∨ c = 0x44 then intel_hex_dump mem
  else if c = 0x72 ∨ c = 0x52 then []
  else if c = 0x67 ∨ c = 0x47 then
    gpio_snapshot (gpio GPIOA % 65536) (gpio GPIOB % 65536) (gpio GPIOC % 65536)
      (gpio GPIOD % 65536) (gpio GPIOE % 65536)
  else if c = 0x68 ∨ c = 0x48 then help_text
  else if c = 0x0D then []
  else unknown_text c

/-- The GPIO and reset calls of a command byte, as the spec's dispatch table has it. -/
def command_calls (c : Nat) : List HwCall :=
  if c = 0x72 ∨ c = 0x52 then [HwCall.scb_reset_system]
  else if c = 0x67 ∨ c = 0x47 then
    [HwCall.gpio_port_read GPIOA, HwCall.gpio_port_read GPIOB, HwCall.gpio_port_read GPIOC,
     HwCall.gpio_port_read GPIOD, HwCall.gpio_port_read GPIOE]
  else []

/-! ## Interleavings of console writes and transmit-ready callbacks -/

/-- One step of an interleaving: a `console_putc` call, a `console_puts` call,
or an invocation of `cdcacm_tx_ready_cb` by the USB stack between two calls.
(Inside a waiting call the callbacks come from `usbd_poll`, as `host` says.) -/
inductive ConsoleOp where
  | putc (c : Nat)
  | puts (s : List Nat)
  | tx_ready
  deriving DecidableEq

/-- The routine of one step. -/
def run_op : ConsoleOp → Console Unit
  | .putc c => console_putc c
  | .puts s => console_puts s
  | .tx_ready => modify cdcacm_tx_ready_cb

/-- The routine of an interleaving. -/
def run_ops : List ConsoleOp → Console Unit
  | [] => pure ()
  | op :: ops => do
    run_op op
    run_ops ops

/-- The bytes one step writes to the console. -/
def op_bytes : ConsoleOp → List Nat
  | .putc c => [c]
  | .puts s => s
  | .tx_ready => []

/-- The bytes an interleaving writes to the console, in order. -/
def written (ops : List ConsoleOp) : List Nat := ops.flatMap op_bytes

/-! ## Concrete console states -/

/-- A console with an empty queue of capacity 4096, nothing sent yet and a host
that is not polled. -/
def console_idle : Extractor :=
  { console_buffer := { capacity := 4096, bytes := [] }, packets := [], calls := [], host := [] }

/-- A memory that reads 0xFF everywhere. -/
def erased_flash : Nat → Nat := fun _ => 0xFF

/-- A console with an empty queue wide enough for a whole dump, and a host that
is not polled. -/
def console_wide : Extractor :=
  { console_buffer := { capacity := 200000, bytes := [] }, packets := [], calls := [],
    host := [] }

/-- A console whose queue of capacity 16 holds 12 bytes, with a host that is
ready at the second poll. -/
def console_busy : Extractor :=
  { console_buffer := { capacity := 16, bytes := [1, 2, 3, 4, 5, 6, 7, 8, 9, 10, 11, 12] },
    packets := [], calls := [], host := [false, true] }

/-- Port values for the snapshot example: each port reads its own number. -/
def port_numbers : Nat → Nat := fun port =>
  if port = GPIOA then 0x000A else if port = GPIOB then 0x00B0 else if port = GPIOC then 0x0C00
  else if port = GPIOD then 0xD000 else 0xFFFF

/-- A string of 17 characters, one more than the capacity of `console_busy`. -/
def long_message : List Nat := chars "seventeen letters"

/-- An interleaving on `console_busy`: a character, a callback, a string, a
callback and another string. -/
def busy_ops : List ConsoleOp :=
  [ConsoleOp.putc 0x41, ConsoleOp.tx_ready, ConsoleOp.puts (chars "hello"),
   ConsoleOp.tx_ready, ConsoleOp.puts (chars "sixteen letters.")]

/-! ## The states the engine uses -/

/-- The six states the engine moves between: IDLE, DNLOAD_SYNC, DNBUSY,
DNLOAD_IDLE, MANIFEST_SYNC and MANIFEST. -/
def dfu_state.in_use : dfu_state → Bool
  | .STATE_DFU_IDLE => true
  | .STATE_DFU_DNLOAD_SYNC => true
  | .STATE_DFU_DNBUSY => true
  | .STATE_DFU_DNLOAD_IDLE => true
  | .STATE_DFU_MANIFEST_SYNC => true
  | .STATE_DFU_MANIFEST => true
  | _ => false

/-- The events of a set-address command to 0x08000000, inside the protected
region, followed by the bytes 01 02 03 04 sent as block 2. -/
def protected_events : List Event :=
  transfer 0 [0x21, 0x00, 0x00, 0x00, 0x08] [0, 0, 0, 0, 0, 0] ++
    transfer 2 [0x01, 0x02, 0x03, 0x04] [0, 0, 0, 0, 0, 0]

/-! ## The long-press monitor -/

/-- The constant `LONG_PRESS_DURATION`, the same in both builds. -/
def LONG_PRESS_DURATION : Nat := 0x10000

/-- The function `power_button_pressed`, the same text in both builds:
`!gpio_get(GPIOB, GPIO1)`. The argument is the value `gpio_get` returns for
the button pin, one sample of the button. -/
def power_button_pressed (gpio_get : Nat) : Bool := gpio_get == 0

/-- The function `handle_long_press` of `src/alt_bootloader/usbdfu.c`: from the
static counter `press_duration` (a `size_t`, 32 bits wide on the target) and
the sample of the button to the new counter and the collaborator calls made. -/
def alt_bootloader.handle_long_press (press_duration gpio_get : Nat) : Nat × List Effect :=
  if power_button_pressed gpio_get then
    let press_duration := (press_duration + 1) % 2 ^ 32
    if press_duration > LONG_PRESS_DURATION then (press_duration, [Effect.scb_reset_system])
    else (press_duration, [])
  else (0, [])

/-- The function `handle_long_press` of `src/bootloader_extractor/extractor.c`,
the same text as in the other build; its reset call is a call of the
extractor's collaborators. -/
def bootloader_extractor.handle_long_press (press_duration gpio_get : Nat) :
    Nat × List HwCall :=
  if power_button_pressed gpio_get then
    let press_duration := (press_duration + 1) % 2 ^ 32
    if press_duration > LONG_PRESS_DURATION then (press_duration, [HwCall.scb_reset_system])
    else (press_duration, [])
  else (0, [])

/-- The calls of `handle_long_press` made by the forever loop of `main`, one for
each sample of the button: the counter after each call and the collaborator
calls it makes. The system reset does not return, so the call that makes it
is the last one. -/
def long_press_calls {C : Type} [DecidableEq C] (handle_long_press : Nat → Nat → Nat × List C)
    (reset : C) (press_duration : Nat) : List Nat → List (Nat × List C)
  | [] => []
  | gpio_get :: rest =>
    if reset ∈ (handle_long_press press_duration gpio_get).2 then
      [handle_long_press press_duration gpio_get]
    else
      handle_long_press press_duration gpio_get ::
        long_press_calls handle_long_press reset (handle_long_press press_duration gpio_get).1 rest

/-- The number of consecutive asserted samples at the end of a sequence of samples. -/
def pressed_run (samples : List Nat) : Nat :=
  (samples.reverse.takeWhile power_button_pressed).length

/-- What the long-press claim says of a monitor `handle_long_press` with reset
call `reset`, fed the samples from a zero counter. The call for sample `k`
is made when no earlier call made the reset; after it the counter is the
number of consecutive asserted samples ending there; it makes the reset call
and nothing else, or no call; it makes the reset exactly when the sample is
asserted and the counter exceeds 0x10000, which is exactly when the sample is
the 65537th of a run of asserted samples. -/
def monitors_long_press {C : Type} [DecidableEq C]
    (handle_long_press : Nat → Nat → Nat × List C) (reset : C) : Prop :=
  ∀ (samples : List Nat) (k : Nat),
    (k < (long_press_calls handle_long_press reset 0 samples).length ↔
      k < samples.length ∧ ∀ j, j < k → pressed_run (samples.take (j + 1)) ≤ 0x10000) ∧
    ∀ r, (long_press_calls handle_long_press reset 0 samples)[k]? = some r →
      r.1 = pressed_run (samples.take (k + 1)) ∧
      (r.2 = [reset] ∨ r.2 = []) ∧
      (r.2 = [reset] ↔ power_button_pressed (samples.getD k 1) = true ∧ 0x10000 < r.1) ∧
      (r.2 = [reset] ↔ pressed_run (samples.take (k + 1)) = 0x10001)

/-- Four samples of the button pin: asserted twice, released, asserted again
(the pin is low while the button is pressed). -/
def bouncing_press : List Nat := [0, 0, 2, 0]

set_option maxRecDepth 100000

/-! ## The flash-write gate -/

theorem program_loop_gated (buf : List Nat) (len base : Nat) :
    ∀ (fuel i : Nat) (e : Effect), e ∈ program_loop buf len base fuel i → e.gated := by
  intro fuel
  induction fuel with
  | zero => intro i e he; simp [program_loop] at he
  | succ k ih =>
    intro i e he
    unfold program_loop at he
    split at he
    · rcases List.mem_append.mp he with h | h
      · split at h
        · rename_i hg
          simp only [List.mem_singleton] at h
          subst h
          exact hg
        · simp at h
      · exact ih _ _ h
    · simp at he

theorem deferred_write_gated (p : Prog) (e : Effect) (he : e ∈ (deferred_write p).2) :
    e.gated := by
  unfold deferred_write at he
  split at he
  · split at he
    · unfold cmd_erase at he
      dsimp only at he
      split at he
      · rename_i hg
        simp only [List.mem_singleton] at he
        subst he
        exact hg
      · simp at he
    · split at he <;> simp at he
  · exact program_loop_gated _ _ _ _ _ _ he

theorem getstatus_complete_gated (s : DfuSession) (e : Effect)
    (he : e ∈ (usbdfu_getstatus_complete s).2) : e.gated := by
  unfold usbdfu_getstatus_complete at he
  split at he
  · simp only [List.mem_append, List.mem_singleton] at he
    rcases he with (h | h) | h
    · subst h; trivial
    · exact deferred_write_gated _ _ h
    · subst h; trivial
  · simp only [List.mem_singleton] at he
    subst he; trivial
  · simp at he

theorem step_gated (s s' : DfuSession) (ev : Event) (fx : List Effect)
    (h : step s ev = some (s', fx)) (e : Effect) (he : e ∈ fx) : e.gated := by
  cases ev with
  | control req buf len =>
    simp only [step, Option.map_eq_some'] at h
    obtain ⟨r, _, hr⟩ := h
    have : fx = [] := (congrArg Prod.snd hr).symm
    subst this
    simp at he
  | status_complete =>
    simp only [step, Option.some.injEq] at h
    have : fx = (usbdfu_getstatus_complete s).2 := (congrArg Prod.snd h).symm
    subst this
    exact getstatus_complete_gated s e he

/-- Claim C1 (flash-write gate): from every session state and for every sequence
of control requests and status completions, every `flash_erase_page` and every
`flash_program_half_word` call of the resulting trace has an address at or
above `DISALLOW_WRITES_BEFORE`, the addresses being computed modulo `2 ^ 32`. -/
theorem flash_write_gate (s : DfuSession) (evs : List Event) :
    ∀ e ∈ (run s evs).2, e.gated := by
  induction evs generalizing s with
  | nil => intro e he; simp [run] at he
  | cons ev evs ih =>
    intro e he
    unfold run at he
    split at he
    · simp at he
    · rename_i s' fx hstep
      split at he
      · exact step_gated s s' ev fx hstep e he
      · rcases List.mem_append.mp he with h | h
        · exact step_gated s s' ev fx hstep e h
        · exact ih s' e h

/-! ## The control request handler -/

theorem store8_some (buf : List Nat) (i v : Nat) (h : i < buf.length) :
    store8 buf i v = some (buf.set i v) := by
  simp [store8, h]

theorem getstatus_case_eq (s : DfuSession) (buf : List Nat) (n : Nat) (h : 6 ≤ buf.length) :
    getstatus_case s buf (some n) =
      some { ret := 1,
             session := { s with usbdfu_state := (usbdfu_getstatus s.usbdfu_state 0).2.1 },
             buf := (((((buf.set 0 (usbdfu_getstatus s.usbdfu_state 0).1).set 1
                      ((usbdfu_getstatus s.usbdfu_state 0).2.2 &&& 0xFF)).set 2
                      (((usbdfu_getstatus s.usbdfu_state 0).2.2 >>> 8) &&& 0xFF)).set 3
                      (((usbdfu_getstatus s.usbdfu_state 0).2.2 >>> 16) &&& 0xFF)).set 4
                      ((usbdfu_getstatus s.usbdfu_state 0).2.1.code % 256)).set 5 0,
             len := some 6,
             complete := some Completion.usbdfu_getstatus_complete } := by
  unfold getstatus_case
  simp only []
  rw [store8_some _ _ _ (by omega)]
  simp only [Option.some_bind]
  rw [store8_some _ _ _ (by simp; omega)]
  simp only [Option.some_bind]
  rw [store8_some _ _ _ (by simp; omega)]
  simp only [Option.some_bind]
  rw [store8_some _ _ _ (by simp; omega)]
  simp only [Option.some_bind]
  rw [store8_some _ _ _ (by simp; omega)]
  simp only [Option.some_bind]
  rw [store8_some _ _ _ (by simp; omega)]
  simp only [Option.some_bind]

theorem control_getstatus (s : DfuSession) (req : usb_setup_data) (buf : List Nat)
    (len : Option Nat) (complete : Option Completion)
    (hreq : class_request DFU_GETSTATUS req) :
    usbdfu_control_request s req buf len complete = getstatus_case s buf len := by
  obtain ⟨h1, h2⟩ := hreq
  simp [usbdfu_control_request, h1, h2, DFU_GETSTATUS, DFU_DNLOAD, DFU_CLRSTATUS, DFU_ABORT,
    DFU_UPLOAD]

theorem control_getstate (s : DfuSession) (req : usb_setup_data) (buf : List Nat)
    (len : Option Nat) (complete : Option Completion)
    (hreq : class_request DFU_GETSTATE req) :
    usbdfu_control_request s req buf len complete = getstate_case s buf len complete := by
  obtain ⟨h1, h2⟩ := hreq
  simp [usbdfu_control_request, h1, h2, DFU_GETSTATUS, DFU_DNLOAD, DFU_CLRSTATUS, DFU_ABORT,
    DFU_UPLOAD, DFU_GETSTATE]

theorem control_dnload (s : DfuSession) (req : usb_setup_data) (buf : List Nat)
    (len : Option Nat) (complete : Option Completion)
    (hreq : class_request DFU_DNLOAD req) :
    usbdfu_control_request s req buf len complete = dnload_case s req buf len complete := by
  obtain ⟨h1, h2⟩ := hreq
  simp [usbdfu_control_request, h1, h2]

theorem dnload_case_data (s : DfuSession) (req : usb_setup_data) (buf : List Nat) (n : Nat)
    (complete : Option Completion) (hn : 0 < n) (hsrc : n ≤ buf.length)
    (hdst : n ≤ s.prog.buf.length) :
    dnload_case s req buf (some n) complete =
      some { ret := 1,
             session := { usbdfu_state := .STATE_DFU_DNLOAD_SYNC,
                          prog := { buf := buf.take n ++ s.prog.buf.drop n, len := n,
                                    addr := s.prog.addr, blocknum := req.wValue } },
             buf := buf, len := some n, complete := complete } := by
  have h0 : n ≠ 0 := by omega
  simp [dnload_case, memcpy, h0, hsrc, hdst]

theorem dnload_case_empty (s : DfuSession) (req : usb_setup_data) (buf : List Nat)
    (complete : Option Completion) :
    dnload_case s req buf (some 0) complete =
      some { ret := 1, session := { s with usbdfu_state := .STATE_DFU_MANIFEST_SYNC },
             buf := buf, len := some 0, complete := complete } := by
  simp [dnload_case]

theorem six_bytes (buf : List Nat) (h : 6 ≤ buf.length) :
    ∃ b0 b1 b2 b3 b4 b5 rest, buf = b0 :: b1 :: b2 :: b3 :: b4 :: b5 :: rest := by
  match buf, h with
  | b0 :: b1 :: b2 :: b3 :: b4 :: b5 :: rest, _ => exact ⟨b0, b1, b2, b3, b4, b5, rest, rfl⟩

theorem code_lt (st : dfu_state) : st.code < 256 := by
  cases st <;> decide

/-- Claim C8 (GETSTATUS response framing): a class GETSTATUS request is accepted
in every session state, reports length 6, registers the status completion
callback and fills the response buffer with the status code OK, the poll
timeout in three little-endian bytes, the state after the transition of the
poll (DNBUSY from DNLOAD_SYNC, MANIFEST from MANIFEST_SYNC, unchanged
otherwise) and a zero byte; the rest of the buffer and of the session is left
as it was. -/
theorem getstatus_response_framing (s : DfuSession) (req : usb_setup_data) (buf : List Nat)
    (n : Nat) (complete : Option Completion) (hreq : class_request DFU_GETSTATUS req)
    (hbuf : 6 ≤ buf.length) :
    ∃ r, usbdfu_control_request s req buf (some n) complete = some r ∧
      r.ret = 1 ∧ r.len = some 6 ∧
      r.complete = some Completion.usbdfu_getstatus_complete ∧
      r.session.usbdfu_state =
        (if s.usbdfu_state = .STATE_DFU_DNLOAD_SYNC then .STATE_DFU_DNBUSY
         else if s.usbdfu_state = .STATE_DFU_MANIFEST_SYNC then .STATE_DFU_MANIFEST
         else s.usbdfu_state) ∧
      r.session.prog = s.prog ∧
      load8 r.buf 0 = DFU_STATUS_OK ∧
      load8 r.buf 1 + 256 * load8 r.buf 2 + 65536 * load8 r.buf 3 =
        (usbdfu_getstatus s.usbdfu_state 0).2.2 ∧
      load8 r.buf 1 < 256 ∧ load8 r.buf 2 < 256 ∧ load8 r.buf 3 < 256 ∧
      load8 r.buf 4 = r.session.usbdfu_state.code ∧
      load8 r.buf 5 = 0 ∧
      r.buf.length = buf.length ∧ r.buf.drop 6 = buf.drop 6 := by
  obtain ⟨b0, b1, b2, b3, b4, b5, rest, rfl⟩ := six_bytes buf hbuf
  rw [control_getstatus s req _ _ _ hreq, getstatus_case_eq s _ n hbuf]
  refine ⟨_, rfl, ?_⟩
  cases hs : s.usbdfu_state <;>
    (simp [usbdfu_getstatus, load8, DFU_STATUS_OK, dfu_state.code]; try decide)

/-- Claim C10 (GETSTATE): a class GETSTATE request is accepted in every session
state, writes the value of the current state into the first byte of the
response buffer, reports a length of 1 and leaves the session (state, pending
block, target address) and the rest of the buffer unchanged. -/
theorem getstate_response (s : DfuSession) (req : usb_setup_data) (buf : List Nat) (n : Nat)
    (complete : Option Completion) (hreq : class_request DFU_GETSTATE req)
    (hbuf : 1 ≤ buf.length) :
    ∃ r, usbdfu_control_request s req buf (some n) complete = some r ∧
      r.ret = 1 ∧ load8 r.buf 0 = s.usbdfu_state.code ∧ r.len = some 1 ∧
      r.session = s ∧ r.buf.length = buf.length ∧ r.buf.drop 1 = buf.drop 1 ∧
      r.complete = complete := by
  match buf, hbuf with
  | b0 :: rest, _ =>
    rw [control_getstate s req _ _ _ hreq]
    have hc := code_lt s.usbdfu_state
    simp [getstate_case, store8, load8, Nat.mod_eq_of_lt hc]

/-- Claim C4 (DNLOAD postcondition): from every session state a class DNLOAD
request with a payload of `n > 0` bytes (that fit into the pending block) is
accepted, sets the block number to `wValue`, the length to `n`, the first `n`
bytes of the pending block to the payload and the state to DNLOAD_SYNC; with
a zero-length payload it is accepted, sets the state to MANIFEST_SYNC and
leaves the pending block, length and block number as they were. In both
cases the target address is unchanged and no collaborator call is made. -/
theorem dnload_postcondition (s : DfuSession) (req : usb_setup_data) (buf : List Nat)
    (complete : Option Completion) (hreq : class_request DFU_DNLOAD req) :
    (∀ n, 0 < n → n ≤ buf.length → n ≤ s.prog.buf.length →
      ∃ r, usbdfu_control_request s req buf (some n) complete = some r ∧
        r.ret = 1 ∧ r.session.prog.blocknum = req.wValue ∧ r.session.prog.len = n ∧
        r.session.prog.buf.take n = buf.take n ∧
        r.session.prog.buf.drop n = s.prog.buf.drop n ∧
        r.session.usbdfu_state = .STATE_DFU_DNLOAD_SYNC ∧
        r.session.prog.addr = s.prog.addr ∧
        step s (Event.control req buf (some n)) = some (r.session, [])) ∧
    (∃ r, usbdfu_control_request s req buf (some 0) complete = some r ∧
        r.ret = 1 ∧ r.session.usbdfu_state = .STATE_DFU_MANIFEST_SYNC ∧
        r.session.prog = s.prog ∧
        step s (Event.control req buf (some 0)) = some (r.session, [])) := by
  constructor
  · intro n hn hsrc hdst
    have h1 : (List.take n buf).length = n := by simp [hsrc]
    simp only [step, control_dnload s req _ _ _ hreq,
      dnload_case_data s req buf n _ hn hsrc hdst]
    refine ⟨_, rfl, rfl, rfl, rfl, ?_, ?_, rfl, rfl, rfl⟩
    · rw [List.take_append_of_le_length (by omega)]
      rw [List.take_take]
      simp
    · rw [List.drop_append_of_le_length (by omega)]
      simp [List.drop_eq_nil_of_le, h1]
  · simp only [step, control_dnload s req _ _ _ hreq, dnload_case_empty]
    exact ⟨_, rfl, rfl, rfl, rfl, rfl⟩

/-- Claim C3 (state-machine happy path): from IDLE a DNLOAD request with a
non-empty payload leaves DNLOAD_SYNC; a GETSTATUS request with its completion
callback leaves DNLOAD_IDLE; a DNLOAD request with zero-length payload leaves
MANIFEST_SYNC; a GETSTATUS request leaves MANIFEST; the completion of that
GETSTATUS calls the system reset and nothing else. -/
theorem happy_path (s : DfuSession) (dn gs dn0 gs2 : usb_setup_data)
    (payload ctl ctl0 ctl2 : List Nat) (n : Nat) (wlen wlen2 : Nat)
    (_hidle : s.usbdfu_state = .STATE_DFU_IDLE)
    (hdn : class_request DFU_DNLOAD dn) (hgs : class_request DFU_GETSTATUS gs)
    (hdn0 : class_request DFU_DNLOAD dn0) (hgs2 : class_request DFU_GETSTATUS gs2)
    (hn : 0 < n) (hsrc : n ≤ payload.length) (hdst : n ≤ s.prog.buf.length)
    (hctl : 6 ≤ ctl.length) (hctl2 : 6 ≤ ctl2.length) :
    ∃ r1 r2 r3 r4,
      usbdfu_control_request s dn payload (some n) none = some r1 ∧
      r1.ret = 1 ∧ r1.session.usbdfu_state = .STATE_DFU_DNLOAD_SYNC ∧
      usbdfu_control_request r1.session gs ctl (some wlen) none = some r2 ∧
      r2.ret = 1 ∧ r2.complete = some Completion.usbdfu_getstatus_complete ∧
      (usbdfu_getstatus_complete r2.session).1.usbdfu_state = .STATE_DFU_DNLOAD_IDLE ∧
      usbdfu_control_request (usbdfu_getstatus_complete r2.session).1 dn0 ctl0 (some 0) none
        = some r3 ∧
      r3.ret = 1 ∧ r3.session.usbdfu_state = .STATE_DFU_MANIFEST_SYNC ∧
      usbdfu_control_request r3.session gs2 ctl2 (some wlen2) none = some r4 ∧
      r4.ret = 1 ∧ r4.complete = some Completion.usbdfu_getstatus_complete ∧
      r4.session.usbdfu_state = .STATE_DFU_MANIFEST ∧
      (usbdfu_getstatus_complete r4.session).2 = [Effect.scb_reset_system] := by
  simp only [control_dnload _ _ _ _ _ hdn, dnload_case_data s dn payload n _ hn hsrc hdst,
    control_getstatus _ _ _ _ _ hgs, getstatus_case_eq _ _ _ hctl,
    control_dnload _ _ _ _ _ hdn0, dnload_case_empty,
    control_getstatus _ _ _ _ _ hgs2, getstatus_case_eq _ _ _ hctl2]
  refine ⟨_, _, _, _, rfl, rfl, rfl, rfl, rfl, rfl, rfl, rfl, rfl, rfl, rfl, rfl, rfl, rfl, rfl⟩

/-- Claim C7 (command block semantics): for a pending block with block number 0
the deferred write of the status completion, with `opcode` the buffer byte 0
and `arg` the little-endian 32-bit value of bytes 1 to 4, erases the page at
`arg` exactly when the opcode is CMD_ERASE and `arg` is at or above the
boundary, sets the target address to `arg` for CMD_ERASE and CMD_SETADDR, and
leaves it unchanged for every other opcode; no program call is made. -/
theorem command_block (s : DfuSession) (hbusy : s.usbdfu_state = .STATE_DFU_DNBUSY)
    (hblk : s.prog.blocknum = 0) :
    (load8 s.prog.buf 0 = CMD_ERASE →
      (usbdfu_getstatus_complete s).2 =
          [Effect.flash_unlock] ++
          (if DISALLOW_WRITES_BEFORE ≤ load32 s.prog.buf 1
            then [Effect.flash_erase_page (load32 s.prog.buf 1)] else []) ++
          [Effect.flash_lock] ∧
        (usbdfu_getstatus_complete s).1.prog.addr = load32 s.prog.buf 1) ∧
    (load8 s.prog.buf 0 = CMD_SETADDR →
      (usbdfu_getstatus_complete s).2 = [Effect.flash_unlock, Effect.flash_lock] ∧
        (usbdfu_getstatus_complete s).1.prog.addr = load32 s.prog.buf 1) ∧
    (load8 s.prog.buf 0 ≠ CMD_ERASE → load8 s.prog.buf 0 ≠ CMD_SETADDR →
      (usbdfu_getstatus_complete s).2 = [Effect.flash_unlock, Effect.flash_lock] ∧
        (usbdfu_getstatus_complete s).1.prog.addr = s.prog.addr) ∧
    (usbdfu_getstatus_complete s).1.usbdfu_state = .STATE_DFU_DNLOAD_IDLE ∧
    (usbdfu_getstatus_complete s).1.prog.buf = s.prog.buf ∧
    (usbdfu_getstatus_complete s).1.prog.len = s.prog.len ∧
    (usbdfu_getstatus_complete s).1.prog.blocknum = s.prog.blocknum := by
  refine ⟨?_, ?_, ?_, ?_, ?_, ?_, ?_⟩
  · intro h
    simp [usbdfu_getstatus_complete, hbusy, deferred_write, hblk, h, cmd_erase, cmd_setaddr]
  · intro h
    have h2 : ¬ (CMD_SETADDR = CMD_ERASE) := by decide
    simp [usbdfu_getstatus_complete, hbusy, deferred_write, hblk, h, h2, cmd_setaddr]
  · intro h1 h2
    simp [usbdfu_getstatus_complete, hbusy, deferred_write, hblk, h1, h2]
  · simp [usbdfu_getstatus_complete, hbusy]
  all_goals
    simp only [usbdfu_getstatus_complete, hbusy, deferred_write, hblk, if_true]
    split
    · first | rfl | exact hblk
    · split <;> first | rfl | exact hblk

/-! ## The deferred write of a data block -/

theorem program_loop_range (buf : List Nat) (len base : Nat) :
    ∀ (fuel i : Nat), len ≤ i + fuel → i % 2 = 0 →
      program_loop buf len base fuel i =
        ((List.range' i (len - i)).filter
            (fun i => i % 2 = 0 ∧ DISALLOW_WRITES_BEFORE ≤ (base + i) % 2 ^ 32)).map
          (fun i => Effect.flash_program_half_word ((base + i) % 2 ^ 32)
            (load8 buf i ||| (load8 buf (i + 1) <<< 8))) := by
  intro fuel
  induction fuel with
  | zero =>
    intro i hle _
    have : len - i = 0 := by omega
    simp [program_loop, this]
  | succ k ih =>
    intro i hle hev
    unfold program_loop
    by_cases hlt : i < len
    · rw [if_pos hlt, ih (i + 2) (by omega) (by omega)]
      obtain ⟨m, hm⟩ : ∃ m, len - i = m + 1 := ⟨len - i - 1, by omega⟩
      rw [hm, List.range'_succ]
      have hodd : ¬ ((i + 1) % 2 = 0) := by omega
      cases m with
      | zero =>
        have h0 : len - (i + 2) = 0 := by omega
        rw [h0]
        by_cases hg : DISALLOW_WRITES_BEFORE ≤ (base + i) % 2 ^ 32 <;>
          simp only [Nat.reducePow] at hg ⊢ <;> simp [hev, hg, load16]
      | succ j =>
        have hj : len - (i + 2) = j := by omega
        rw [hj, List.range'_succ]
        by_cases hg : DISALLOW_WRITES_BEFORE ≤ (base + i) % 2 ^ 32 <;>
          simp only [Nat.reducePow] at hg ⊢ <;> simp [hev, hg, hodd, load16]
    · have : len - i = 0 := by omega
      simp [hlt, this]

theorem program_loop_eq (buf : List Nat) (len base : Nat) :
    program_loop buf len base len 0 = gated_half_words buf len base := by
  rw [program_loop_range buf len base len 0 (by omega) (by omega), gated_half_words,
    List.range_eq_range']
  simp

theorem data_block_complete (s : DfuSession) (hbusy : s.usbdfu_state = .STATE_DFU_DNBUSY)
    (hblk : s.prog.blocknum ≠ 0) :
    usbdfu_getstatus_complete s =
      ({ usbdfu_state := .STATE_DFU_DNLOAD_IDLE, prog := s.prog },
        [Effect.flash_unlock] ++ gated_half_words s.prog.buf s.prog.len (baseaddr s.prog)
          ++ [Effect.flash_lock]) := by
  simp [usbdfu_getstatus_complete, hbusy, deferred_write, hblk, program_loop_eq]

/-- Claim C5 (deferred write of a data block): for a pending block with block
number at least 2, length `L` and target address `T`, the status completion
in the busy state makes, between unlock and lock, exactly one program call
for each even offset `i < L` whose address `base + i` (modulo `2 ^ 32`, with
`base = T + (blockNumber - 2) * 1024` modulo `2 ^ 32`) is at or above the
boundary, in increasing order of `i`, with that address and the value
`buf[i] | buf[i+1] << 8`; it makes no erase call, leaves the pending block and
the target address unchanged and ends in DNLOAD_IDLE. -/
theorem data_block_write (s : DfuSession) (hbusy : s.usbdfu_state = .STATE_DFU_DNBUSY)
    (hblk : 2 ≤ s.prog.blocknum) :
    usbdfu_getstatus_complete s =
      ({ usbdfu_state := .STATE_DFU_DNLOAD_IDLE, prog := s.prog },
        [Effect.flash_unlock] ++
        ((List.range s.prog.len).filter
            (fun i => i % 2 = 0 ∧ DISALLOW_WRITES_BEFORE ≤
              ((s.prog.addr + (s.prog.blocknum - 2) * 1024) % 2 ^ 32 + i) % 2 ^ 32)).map
          (fun i => Effect.flash_program_half_word
            (((s.prog.addr + (s.prog.blocknum - 2) * 1024) % 2 ^ 32 + i) % 2 ^ 32)
            (load8 s.prog.buf i ||| (load8 s.prog.buf (i + 1) <<< 8)))
        ++ [Effect.flash_lock]) := by
  have hb : baseaddr s.prog = (s.prog.addr + (s.prog.blocknum - 2) * 1024) % 2 ^ 32 := by
    unfold baseaddr wTransferSize
    omega
  rw [data_block_complete s hbusy (by omega), hb, gated_half_words]

/-- Claim C6, as stated, fails: after a set-address command to 0x08053400, a
block with block number 1 and payload 01 02 is programmed at 0x08053000. -/
theorem block_one_is_programmed :
    (run boot
      [Event.control (dnload_request 0 5) (control_buffer [0x21, 0x00, 0x34, 0x05, 0x08])
         (some 5),
       Event.control getstatus_request (control_buffer []) (some 6),
       Event.status_complete,
       Event.control (dnload_request 1 2) (control_buffer [0x01, 0x02]) (some 2),
       Event.control getstatus_request (control_buffer []) (some 6),
       Event.status_complete]).2 =
      [Effect.flash_unlock, Effect.flash_lock, Effect.flash_unlock,
       Effect.flash_program_half_word 0x08053000 0x0201, Effect.flash_lock] := by
  decide

/-- Claim C6, amended: only block number 0 is a command block; a pending block
with block number 1 is written like every other data block, with base address
`T - 1024` modulo `2 ^ 32`: between unlock and lock one program call for each
even offset `i < L` whose address is at or above the boundary, no erase call,
pending block and target address unchanged, final state DNLOAD_IDLE. -/
theorem block_one_write (s : DfuSession) (hbusy : s.usbdfu_state = .STATE_DFU_DNBUSY)
    (hblk : s.prog.blocknum = 1) :
    usbdfu_getstatus_complete s =
      ({ usbdfu_state := .STATE_DFU_DNLOAD_IDLE, prog := s.prog },
        [Effect.flash_unlock] ++
        ((List.range s.prog.len).filter
            (fun i => i % 2 = 0 ∧ DISALLOW_WRITES_BEFORE ≤
              ((s.prog.addr + (2 ^ 32 - 1024)) % 2 ^ 32 + i) % 2 ^ 32)).map
          (fun i => Effect.flash_program_half_word
            (((s.prog.addr + (2 ^ 32 - 1024)) % 2 ^ 32 + i) % 2 ^ 32)
            (load8 s.prog.buf i ||| (load8 s.prog.buf (i + 1) <<< 8)))
        ++ [Effect.flash_lock]) := by
  have hb : baseaddr s.prog = (s.prog.addr + (2 ^ 32 - 1024)) % 2 ^ 32 := by
    unfold baseaddr wTransferSize
    omega
  rw [data_block_complete s hbusy (by omega), hb, gated_half_words]

/-- Claim C9, as stated, fails: a second GETSTATUS poll before the completion of
the first finds the state DNBUSY and answers with state byte DNBUSY (4) and
poll timeout 0. -/
theorem busy_poll_reports_zero_timeout :
    ((usbdfu_control_request boot (dnload_request 2 2) (control_buffer [0x01, 0x02]) (some 2)
        none).bind
      fun r1 =>
        (usbdfu_control_request r1.session getstatus_request r1.buf (some 6) none).bind
      fun r2 =>
        (usbdfu_control_request r2.session getstatus_request r2.buf (some 6) none).map
      fun r3 => (r2.session.usbdfu_state, r2.buf.take 6, r3.session.usbdfu_state,
        r3.buf.take 6)) =
      some (dfu_state.STATE_DFU_DNBUSY, [0, 100, 0, 0, 4, 0],
        dfu_state.STATE_DFU_DNBUSY, [0, 0, 0, 0, 4, 0]) := by
  decide

/-- Claim C9, amended: the poll timeout of a GETSTATUS response is 100 exactly
when the poll found the state DNLOAD_SYNC (the response then reports DNBUSY)
and 0 for every other state found, DNBUSY included; so it is 100 if the
reported state is DNBUSY and the state found was not already DNBUSY, and 0 if
the reported state is anything but DNBUSY. -/
theorem poll_timeout_report (s : DfuSession) (req : usb_setup_data) (buf : List Nat)
    (n : Nat) (complete : Option Completion) (hreq : class_request DFU_GETSTATUS req)
    (hbuf : 6 ≤ buf.length) :
    ∃ r, usbdfu_control_request s req buf (some n) complete = some r ∧
      load8 r.buf 1 + 256 * load8 r.buf 2 + 65536 * load8 r.buf 3 =
        (if s.usbdfu_state = .STATE_DFU_DNLOAD_SYNC then 100 else 0) ∧
      (load8 r.buf 4 = dfu_state.STATE_DFU_DNBUSY.code →
        s.usbdfu_state ≠ .STATE_DFU_DNBUSY →
        load8 r.buf 1 + 256 * load8 r.buf 2 + 65536 * load8 r.buf 3 = 100) ∧
      (load8 r.buf 4 ≠ dfu_state.STATE_DFU_DNBUSY.code →
        load8 r.buf 1 + 256 * load8 r.buf 2 + 65536 * load8 r.buf 3 = 0) ∧
      (s.usbdfu_state = .STATE_DFU_DNBUSY →
        load8 r.buf 4 = dfu_state.STATE_DFU_DNBUSY.code ∧
        load8 r.buf 1 + 256 * load8 r.buf 2 + 65536 * load8 r.buf 3 = 0) := by
  obtain ⟨b0, b1, b2, b3, b4, b5, rest, rfl⟩ := six_bytes buf hbuf
  rw [control_getstatus s req _ _ _ hreq, getstatus_case_eq s _ n hbuf]
  refine ⟨_, rfl, ?_⟩
  cases hs : s.usbdfu_state <;>
    (simp [usbdfu_getstatus, load8, DFU_STATUS_OK, dfu_state.code]; try decide)

/-! ## A whole download -/

/-- Witness of C1: the program call of a block-1 download at 0x08053000 is in
the trace and passes the gate. -/
theorem flash_write_gate_witness :
    Effect.flash_program_half_word 0x08053000 0x0201 ∈
        (run boot block_one_events).2 ∧
      (Effect.flash_program_half_word 0x08053000 0x0201).gated :=
  ⟨by decide, flash_write_gate boot block_one_events
    (Effect.flash_program_half_word 0x08053000 0x0201) (by decide)⟩

/-- Witness of C3: the happy path from the boot session, with the two bytes
01 02 as block 2. -/
theorem happy_path_witness :
    boot.usbdfu_state = .STATE_DFU_IDLE ∧
    ∃ r1 r2 r3 r4,
      usbdfu_control_request boot (dnload_request 2 2) [1, 2] (some 2) none = some r1 ∧
      r1.ret = 1 ∧ r1.session.usbdfu_state = .STATE_DFU_DNLOAD_SYNC ∧
      usbdfu_control_request r1.session getstatus_request [0, 0, 0, 0, 0, 0] (some 6) none
        = some r2 ∧
      r2.ret = 1 ∧ r2.complete = some Completion.usbdfu_getstatus_complete ∧
      (usbdfu_getstatus_complete r2.session).1.usbdfu_state = .STATE_DFU_DNLOAD_IDLE ∧
      usbdfu_control_request (usbdfu_getstatus_complete r2.session).1 (dnload_request 0 0) []
        (some 0) none = some r3 ∧
      r3.ret = 1 ∧ r3.session.usbdfu_state = .STATE_DFU_MANIFEST_SYNC ∧
      usbdfu_control_request r3.session getstatus_request [0, 0, 0, 0, 0, 0] (some 6) none
        = some r4 ∧
      r4.ret = 1 ∧ r4.complete = some Completion.usbdfu_getstatus_complete ∧
      r4.session.usbdfu_state = .STATE_DFU_MANIFEST ∧
      (usbdfu_getstatus_complete r4.session).2 = [Effect.scb_reset_system] :=
  ⟨rfl, happy_path boot (dnload_request 2 2) getstatus_request (dnload_request 0 0)
    getstatus_request [1, 2] [0, 0, 0, 0, 0, 0] [] [0, 0, 0, 0, 0, 0] 2 6 6 rfl
    ⟨by decide, rfl⟩ ⟨by decide, rfl⟩ ⟨by decide, rfl⟩ ⟨by decide, rfl⟩
    (by decide) (by decide) (by decide) (by decide) (by decide)⟩

/-- Witness of C4: a DNLOAD request with the two bytes 01 02 as block 2 at boot. -/
theorem dnload_postcondition_witness :
    class_request DFU_DNLOAD (dnload_request 2 2) ∧
    ∃ r, usbdfu_control_request boot (dnload_request 2 2) [1, 2] (some 2) none = some r ∧
      r.ret = 1 ∧ r.session.prog.blocknum = (dnload_request 2 2).wValue ∧
      r.session.prog.len = 2 ∧
      r.session.prog.buf.take 2 = [1, 2].take 2 ∧
      r.session.prog.buf.drop 2 = boot.prog.buf.drop 2 ∧
      r.session.usbdfu_state = .STATE_DFU_DNLOAD_SYNC ∧
      r.session.prog.addr = boot.prog.addr ∧
      step boot (Event.control (dnload_request 2 2) [1, 2] (some 2)) = some (r.session, []) :=
  ⟨⟨by decide, rfl⟩,
    (dnload_postcondition boot (dnload_request 2 2) [1, 2] none ⟨by decide, rfl⟩).1 2
      (by decide) (by decide) (by decide)⟩

/-- Witness of C5: the four bytes 01 02 03 04 of block 2 at 0x08053000. -/
theorem data_block_write_witness :
    busy_data.usbdfu_state = .STATE_DFU_DNBUSY ∧ 2 ≤ busy_data.prog.blocknum ∧
    (usbdfu_getstatus_complete busy_data).2 =
      [Effect.flash_unlock, Effect.flash_program_half_word 0x08053000 0x0201,
       Effect.flash_program_half_word 0x08053002 0x0403, Effect.flash_lock] :=
  ⟨rfl, by decide,
    (congrArg Prod.snd (data_block_write busy_data rfl (by decide))).trans (by decide)⟩

/-- Witness of the amended C6: the two bytes 01 02 of block 1 with target
address 0x08053400 are programmed at 0x08053000. -/
theorem block_one_write_witness :
    busy_block_one.usbdfu_state = .STATE_DFU_DNBUSY ∧ busy_block_one.prog.blocknum = 1 ∧
    (usbdfu_getstatus_complete busy_block_one).2 =
      [Effect.flash_unlock, Effect.flash_program_half_word 0x08053000 0x0201,
       Effect.flash_lock] :=
  ⟨rfl, rfl, (congrArg Prod.snd (block_one_write busy_block_one rfl rfl)).trans (by decide)⟩

/-- Witness of C7: the erase command for the page at 0x08053000. -/
theorem command_block_witness :
    busy_erase.usbdfu_state = .STATE_DFU_DNBUSY ∧ busy_erase.prog.blocknum = 0 ∧
    load8 busy_erase.prog.buf 0 = CMD_ERASE ∧
    (usbdfu_getstatus_complete busy_erase).2 =
        [Effect.flash_unlock] ++
        (if DISALLOW_WRITES_BEFORE ≤ load32 busy_erase.prog.buf 1
          then [Effect.flash_erase_page (load32 busy_erase.prog.buf 1)] else []) ++
        [Effect.flash_lock] ∧
      (usbdfu_getstatus_complete busy_erase).1.prog.addr = load32 busy_erase.prog.buf 1 :=
  ⟨rfl, rfl, rfl, (command_block busy_erase rfl rfl).1 rfl⟩

/-- Witness of C8: the GETSTATUS poll of a session in DNLOAD_SYNC. -/
theorem getstatus_response_framing_witness :
    class_request DFU_GETSTATUS getstatus_request ∧
    ∃ r, usbdfu_control_request synced getstatus_request [9, 9, 9, 9, 9, 9, 9] (some 6) none
        = some r ∧
      r.ret = 1 ∧ r.len = some 6 ∧
      r.complete = some Completion.usbdfu_getstatus_complete ∧
      r.session.usbdfu_state =
        (if synced.usbdfu_state = .STATE_DFU_DNLOAD_SYNC then .STATE_DFU_DNBUSY
         else if synced.usbdfu_state = .STATE_DFU_MANIFEST_SYNC then .STATE_DFU_MANIFEST
         else synced.usbdfu_state) ∧
      r.session.prog = synced.prog ∧
      load8 r.buf 0 = DFU_STATUS_OK ∧
      load8 r.buf 1 + 256 * load8 r.buf 2 + 65536 * load8 r.buf 3 =
        (usbdfu_getstatus synced.usbdfu_state 0).2.2 ∧
      load8 r.buf 1 < 256 ∧ load8 r.buf 2 < 256 ∧ load8 r.buf 3 < 256 ∧
      load8 r.buf 4 = r.session.usbdfu_state.code ∧
      load8 r.buf 5 = 0 ∧
      r.buf.length = [9, 9, 9, 9, 9, 9, 9].length ∧
      r.buf.drop 6 = [9, 9, 9, 9, 9, 9, 9].drop 6 :=
  ⟨⟨by decide, rfl⟩,
    getstatus_response_framing synced getstatus_request [9, 9, 9, 9, 9, 9, 9] 6 none
      ⟨by decide, rfl⟩ (by decide)⟩

/-- Witness of the amended C9: the GETSTATUS poll of a session in DNLOAD_SYNC
reports the timeout 100. -/
theorem poll_timeout_report_witness :
    class_request DFU_GETSTATUS getstatus_request ∧
    ∃ r, usbdfu_control_request synced getstatus_request [9, 9, 9, 9, 9, 9, 9] (some 6) none
        = some r ∧
      load8 r.buf 1 + 256 * load8 r.buf 2 + 65536 * load8 r.buf 3 =
        (if synced.usbdfu_state = .STATE_DFU_DNLOAD_SYNC then 100 else 0) ∧
      (load8 r.buf 4 = dfu_state.STATE_DFU_DNBUSY.code →
        synced.usbdfu_state ≠ .STATE_DFU_DNBUSY →
        load8 r.buf 1 + 256 * load8 r.buf 2 + 65536 * load8 r.buf 3 = 100) ∧
      (load8 r.buf 4 ≠ dfu_state.STATE_DFU_DNBUSY.code →
        load8 r.buf 1 + 256 * load8 r.buf 2 + 65536 * load8 r.buf 3 = 0) ∧
      (synced.usbdfu_state = .STATE_DFU_DNBUSY →
        load8 r.buf 4 = dfu_state.STATE_DFU_DNBUSY.code ∧
        load8 r.buf 1 + 256 * load8 r.buf 2 + 65536 * load8 r.buf 3 = 0) :=
  ⟨⟨by decide, rfl⟩,
    poll_timeout_report synced getstatus_request [9, 9, 9, 9, 9, 9, 9] 6 none
      ⟨by decide, rfl⟩ (by decide)⟩

/-- Witness of C10: the GETSTATE request of a session in DNLOAD_SYNC. -/
theorem getstate_response_witness :
    class_request DFU_GETSTATE getstate_request ∧
    ∃ r, usbdfu_control_request synced getstate_request [9, 9, 9] (some 1) none = some r ∧
      r.ret = 1 ∧ load8 r.buf 0 = synced.usbdfu_state.code ∧ r.len = some 1 ∧
      r.session = synced ∧ r.buf.length = [9, 9, 9].length ∧
      r.buf.drop 1 = [9, 9, 9].drop 1 ∧ r.complete = none :=
  ⟨⟨by decide, rfl⟩,
    getstate_response synced getstate_request [9, 9, 9] 1 none ⟨by decide, rfl⟩ (by decide)⟩

/-! ## CLRSTATUS, ABORT, rejection and the ERROR state -/

theorem control_clrstatus (s : DfuSession) (req : usb_setup_data) (buf : List Nat)
    (len : Option Nat) (complete : Option Completion)
    (hreq : class_request DFU_CLRSTATUS req) :
    usbdfu_control_request s req buf len complete =
      some { ret := 1,
             session := if s.usbdfu_state = .STATE_DFU_ERROR
                        then { s with usbdfu_state := .STATE_DFU_IDLE } else s,
             buf := buf, len := len, complete := complete } := by
  obtain ⟨h1, h2⟩ := hreq
  simp [usbdfu_control_request, h1, h2, DFU_DNLOAD, DFU_CLRSTATUS]

theorem control_abort (s : DfuSession) (req : usb_setup_data) (buf : List Nat)
    (len : Option Nat) (complete : Option Completion)
    (hreq : class_request DFU_ABORT req) :
    usbdfu_control_request s req buf len complete =
      some { ret := 1, session := { s with usbdfu_state := .STATE_DFU_IDLE },
             buf := buf, len := len, complete := complete } := by
  obtain ⟨h1, h2⟩ := hreq
  simp [usbdfu_control_request, h1, h2, DFU_DNLOAD, DFU_CLRSTATUS, DFU_ABORT]

theorem control_upload (s : DfuSession) (req : usb_setup_data) (buf : List Nat)
    (len : Option Nat) (complete : Option Completion)
    (hreq : class_request DFU_UPLOAD req) :
    usbdfu_control_request s req buf len complete =
      some { ret := 0, session := s, buf := buf, len := len, complete := complete } := by
  obtain ⟨h1, h2⟩ := hreq
  simp [usbdfu_control_request, h1, h2, DFU_DNLOAD, DFU_CLRSTATUS, DFU_ABORT, DFU_UPLOAD]

theorem control_not_class (s : DfuSession) (req : usb_setup_data) (buf : List Nat)
    (len : Option Nat) (complete : Option Completion)
    (hreq : req.bmRequestType &&& 0x7F ≠ 0x21) :
    usbdfu_control_request s req buf len complete =
      some { ret := 0, session := s, buf := buf, len := len, complete := complete } := by
  simp [usbdfu_control_request, hreq]

theorem control_unknown (s : DfuSession) (req : usb_setup_data) (buf : List Nat)
    (len : Option Nat) (complete : Option Completion)
    (h1 : req.bRequest ≠ DFU_DNLOAD) (h2 : req.bRequest ≠ DFU_CLRSTATUS)
    (h3 : req.bRequest ≠ DFU_ABORT) (h4 : req.bRequest ≠ DFU_UPLOAD)
    (h5 : req.bRequest ≠ DFU_GETSTATUS) (h6 : req.bRequest ≠ DFU_GETSTATE) :
    usbdfu_control_request s req buf len complete =
      some { ret := 0, session := s, buf := buf, len := len, complete := complete } := by
  simp [usbdfu_control_request, h1, h2, h3, h4, h5, h6]

/-- Claim C11 (CLRSTATUS and ABORT): in every session state a class ABORT request
is accepted and leaves the state IDLE; a class CLRSTATUS request is accepted
and leaves the state IDLE if it was ERROR and unchanged otherwise. Neither
changes the pending block, the target address or the buffers, and neither
makes a collaborator call. -/
theorem clrstatus_abort (s : DfuSession) (req : usb_setup_data) (buf : List Nat)
    (len : Option Nat) (complete : Option Completion) :
    (class_request DFU_ABORT req →
      ∃ r, usbdfu_control_request s req buf len complete = some r ∧ r.ret = 1 ∧
        r.session.usbdfu_state = .STATE_DFU_IDLE ∧ r.session.prog = s.prog ∧
        r.buf = buf ∧ r.len = len ∧ r.complete = complete ∧
        step s (Event.control req buf len) = some (r.session, [])) ∧
    (class_request DFU_CLRSTATUS req →
      ∃ r, usbdfu_control_request s req buf len complete = some r ∧ r.ret = 1 ∧
        (s.usbdfu_state = .STATE_DFU_ERROR → r.session.usbdfu_state = .STATE_DFU_IDLE) ∧
        (s.usbdfu_state ≠ .STATE_DFU_ERROR → r.session.usbdfu_state = s.usbdfu_state) ∧
        r.session.prog = s.prog ∧ r.buf = buf ∧ r.len = len ∧ r.complete = complete ∧
        step s (Event.control req buf len) = some (r.session, [])) := by
  constructor
  · intro h
    simp only [step, control_abort s req _ _ _ h]
    exact ⟨_, rfl, rfl, rfl, rfl, rfl, rfl, rfl, rfl⟩
  · intro h
    simp only [step, control_clrstatus s req _ _ _ h]
    refine ⟨_, rfl, rfl, ?_, ?_, ?_, rfl, rfl, rfl, rfl⟩
    · intro he; simp [he]
    · intro he; simp [he]
    · by_cases he : s.usbdfu_state = .STATE_DFU_ERROR <;> simp [he]

/-- Witness of C11: ABORT in the DNLOAD_SYNC state and CLRSTATUS in the ERROR state. -/
theorem clrstatus_abort_witness :
    class_request DFU_ABORT abort_request ∧ class_request DFU_CLRSTATUS clrstatus_request ∧
    (∃ r, usbdfu_control_request synced abort_request (control_buffer []) (some 0) none
        = some r ∧ r.ret = 1 ∧
      r.session.usbdfu_state = .STATE_DFU_IDLE ∧ r.session.prog = synced.prog ∧
      r.buf = control_buffer [] ∧ r.len = some 0 ∧ r.complete = none ∧
      step synced (Event.control abort_request (control_buffer []) (some 0))
        = some (r.session, [])) ∧
    (∃ r, usbdfu_control_request errored clrstatus_request (control_buffer []) (some 0) none
        = some r ∧ r.ret = 1 ∧
      (errored.usbdfu_state = .STATE_DFU_ERROR → r.session.usbdfu_state = .STATE_DFU_IDLE) ∧
      (errored.usbdfu_state ≠ .STATE_DFU_ERROR →
        r.session.usbdfu_state = errored.usbdfu_state) ∧
      r.session.prog = errored.prog ∧ r.buf = control_buffer [] ∧ r.len = some 0 ∧
      r.complete = none ∧
      step errored (Event.control clrstatus_request (control_buffer []) (some 0))
        = some (r.session, [])) :=
  ⟨⟨by decide, rfl⟩, ⟨by decide, rfl⟩,
    (clrstatus_abort synced abort_request (control_buffer []) (some 0) none).1
      ⟨by decide, rfl⟩,
    (clrstatus_abort errored clrstatus_request (control_buffer []) (some 0) none).2
      ⟨by decide, rfl⟩⟩

theorem getstate_case_some (s : DfuSession) (buf : List Nat) (n : Nat)
    (complete : Option Completion) (h : 1 ≤ buf.length) :
    getstate_case s buf (some n) complete =
      some { ret := 1, session := s, buf := buf.set 0 (s.usbdfu_state.code % 256),
             len := some 1, complete := complete } := by
  simp [getstate_case, store8_some _ _ _ (show 0 < buf.length by omega)]

theorem control_ret (s : DfuSession) (req : usb_setup_data) (buf : List Nat)
    (len : Option Nat) (complete : Option Completion) (r : ControlResult)
    (h : usbdfu_control_request s req buf len complete = some r) :
    (r.ret = 0 ∨ r.ret = 1) ∧
      (r.ret = 0 → r.session = s ∧ r.buf = buf ∧ r.len = len ∧ r.complete = complete) := by
  unfold usbdfu_control_request at h
  split at h
  · cases h; simp
  split at h
  · unfold dnload_case at h
    split at h
    · cases h; simp
    · simp only [Option.bind_eq_some] at h
      obtain ⟨pb, _, h⟩ := h
      cases h; simp
  split at h
  · cases h; simp
  split at h
  · cases h; simp
  split at h
  · cases h; simp
  split at h
  · unfold getstatus_case at h
    simp only [Option.bind_eq_some] at h
    obtain ⟨_, _, _, _, _, _, _, _, _, _, _, _, _, _, h⟩ := h
    cases h; simp
  split at h
  · unfold getstate_case at h
    simp only [Option.bind_eq_some] at h
    obtain ⟨_, _, _, _, h⟩ := h
    cases h; simp
  · cases h; simp

/-- Claim C12 (protocol rejection): `usbdfu_control_request` returns 0 for every
request that is not of the DFU class, for every class UPLOAD request and for
every class request with an unknown request code, and returns 1 for every
class DNLOAD, CLRSTATUS, ABORT, GETSTATUS and GETSTATE request (whose payload
fits the pending block, respectively whose response fits the buffer). Every
rejected request leaves the session, the response buffer, the length and the
completion callback unchanged and makes no collaborator call. -/
theorem protocol_rejection (s : DfuSession) (req : usb_setup_data) (buf : List Nat)
    (len : Option Nat) (complete : Option Completion) :
    ((req.bmRequestType &&& 0x7F ≠ 0x21 ∨ class_request DFU_UPLOAD req ∨
        (req.bRequest ≠ DFU_DNLOAD ∧ req.bRequest ≠ DFU_CLRSTATUS ∧
          req.bRequest ≠ DFU_ABORT ∧ req.bRequest ≠ DFU_UPLOAD ∧
          req.bRequest ≠ DFU_GETSTATUS ∧ req.bRequest ≠ DFU_GETSTATE)) →
      usbdfu_control_request s req buf len complete =
          some { ret := 0, session := s, buf := buf, len := len, complete := complete } ∧
        step s (Event.control req buf len) = some (s, [])) ∧
    ((class_request DFU_CLRSTATUS req ∨ class_request DFU_ABORT req) →
      ∃ r, usbdfu_control_request s req buf len complete = some r ∧ r.ret = 1) ∧
    (class_request DFU_DNLOAD req →
      (len = none ∨ len = some 0 ∨
        ∃ n, len = some n ∧ n ≤ buf.length ∧ n ≤ s.prog.buf.length) →
      ∃ r, usbdfu_control_request s req buf len complete = some r ∧ r.ret = 1) ∧
    (class_request DFU_GETSTATUS req → len ≠ none → 6 ≤ buf.length →
      ∃ r, usbdfu_control_request s req buf len complete = some r ∧ r.ret = 1) ∧
    (class_request DFU_GETSTATE req → len ≠ none → 1 ≤ buf.length →
      ∃ r, usbdfu_control_request s req buf len complete = some r ∧ r.ret = 1) ∧
    (∀ r, usbdfu_control_request s req buf len complete = some r →
      (r.ret = 0 ∨ r.ret = 1) ∧
      (r.ret = 0 → r.session = s ∧ r.buf = buf ∧ r.len = len ∧ r.complete = complete)) ∧
    (∀ s' fx, step s (Event.control req buf len) = some (s', fx) → fx = []) := by
  refine ⟨?_, ?_, ?_, ?_, ?_, ?_, ?_⟩
  · rintro (h | h | ⟨h1, h2, h3, h4, h5, h6⟩)
    · simp [step, control_not_class s req _ _ _ h]
    · simp [step, control_upload s req _ _ _ h]
    · simp [step, control_unknown s req _ _ _ h1 h2 h3 h4 h5 h6]
  · rintro (h | h)
    · exact ⟨_, control_clrstatus s req _ _ _ h, rfl⟩
    · exact ⟨_, control_abort s req _ _ _ h, rfl⟩
  · intro h hl
    rw [control_dnload s req _ _ _ h]
    rcases hl with hl | hl | ⟨n, hl, hsrc, hdst⟩
    · subst hl
      exact ⟨⟨1, { s with usbdfu_state := .STATE_DFU_MANIFEST_SYNC }, buf, none, complete⟩,
        by simp [dnload_case], rfl⟩
    · subst hl
      exact ⟨_, dnload_case_empty s req buf complete, rfl⟩
    · subst hl
      rcases Nat.eq_zero_or_pos n with h0 | hpos
      · subst h0
        exact ⟨_, dnload_case_empty s req buf complete, rfl⟩
      · exact ⟨_, dnload_case_data s req buf n complete hpos hsrc hdst, rfl⟩
  · intro h hl hb
    obtain ⟨n, rfl⟩ := Option.ne_none_iff_exists'.mp hl
    exact ⟨_, (control_getstatus s req _ _ _ h).trans (getstatus_case_eq s buf n hb), rfl⟩
  · intro h hl hb
    obtain ⟨n, rfl⟩ := Option.ne_none_iff_exists'.mp hl
    exact ⟨_, (control_getstate s req _ _ _ h).trans (getstate_case_some s buf n complete hb),
      rfl⟩
  · intro r hr
    exact control_ret s req buf len complete r hr
  · intro s' fx h
    simp only [step, Option.map_eq_some'] at h
    obtain ⟨r, _, hr⟩ := h
    exact (congrArg Prod.snd hr).symm

/-- Witness of C12: an UPLOAD request is rejected and a GETSTATE request is accepted. -/
theorem protocol_rejection_witness :
    class_request DFU_UPLOAD upload_request ∧ class_request DFU_GETSTATE getstate_request ∧
    (usbdfu_control_request synced upload_request (control_buffer []) (some 64) none =
        some { ret := 0, session := synced, buf := control_buffer [], len := some 64,
               complete := none } ∧
      step synced (Event.control upload_request (control_buffer []) (some 64))
        = some (synced, [])) ∧
    (∃ r, usbdfu_control_request synced getstate_request (control_buffer []) (some 1) none
        = some r ∧ r.ret = 1) :=
  ⟨⟨by decide, rfl⟩, ⟨by decide, rfl⟩,
    (protocol_rejection synced upload_request (control_buffer []) (some 64) none).1
      (Or.inr (Or.inl ⟨by decide, rfl⟩)),
    (protocol_rejection synced getstate_request (control_buffer []) (some 1) none).2.2.2.2.1
      ⟨by decide, rfl⟩ (by decide) (by decide)⟩

/-- Claim C13, as stated, fails: in the ERROR state a class DNLOAD request with a
payload is accepted and leaves the state DNLOAD_SYNC, and one without payload
leaves the state MANIFEST_SYNC. -/
theorem dnload_leaves_error :
    errored.usbdfu_state = .STATE_DFU_ERROR ∧
    (usbdfu_control_request errored (dnload_request 2 2) (control_buffer [0x01, 0x02])
        (some 2) none).map (fun r => (r.ret, r.session.usbdfu_state))
      = some (1, dfu_state.STATE_DFU_DNLOAD_SYNC) ∧
    (usbdfu_control_request errored (dnload_request 0 0) (control_buffer [])
        (some 0) none).map (fun r => (r.ret, r.session.usbdfu_state))
      = some (1, dfu_state.STATE_DFU_MANIFEST_SYNC) := by
  decide

/-- Claim C13, amended: if the session state is ERROR, it is still ERROR after
every control request other than a class CLRSTATUS, ABORT or DNLOAD request
(GETSTATUS, GETSTATE, UPLOAD, unknown and non-class requests) and after every
status completion callback; a class DNLOAD request leaves ERROR for
DNLOAD_SYNC (with payload) or MANIFEST_SYNC (without). -/
theorem error_state_kept (s : DfuSession) (herr : s.usbdfu_state = .STATE_DFU_ERROR) :
    (∀ req buf len complete r, ¬ class_request DFU_CLRSTATUS req →
      ¬ class_request DFU_ABORT req → ¬ class_request DFU_DNLOAD req →
      usbdfu_control_request s req buf len complete = some r →
      r.session.usbdfu_state = .STATE_DFU_ERROR) ∧
    usbdfu_getstatus_complete s = (s, []) ∧
    (∀ req buf len complete r, class_request DFU_DNLOAD req →
      usbdfu_control_request s req buf len complete = some r →
      r.session.usbdfu_state = .STATE_DFU_DNLOAD_SYNC ∨
        r.session.usbdfu_state = .STATE_DFU_MANIFEST_SYNC) := by
  refine ⟨?_, ?_, ?_⟩
  · intro req buf len complete r h1 h2 h3 h
    unfold usbdfu_control_request at h
    split at h
    · cases h; exact herr
    rename_i hc
    have hc' : req.bmRequestType &&& 0x7F = 0x21 := by simpa using hc
    split at h
    · rename_i hb; exact absurd ⟨hc', hb⟩ h3
    split at h
    · rename_i hb; exact absurd ⟨hc', hb⟩ h1
    split at h
    · rename_i hb; exact absurd ⟨hc', hb⟩ h2
    split at h
    · cases h; exact herr
    split at h
    · unfold getstatus_case at h
      simp only [Option.bind_eq_some] at h
      obtain ⟨_, _, _, _, _, _, _, _, _, _, _, _, _, _, h⟩ := h
      cases h
      simp [usbdfu_getstatus, herr]
    split at h
    · unfold getstate_case at h
      simp only [Option.bind_eq_some] at h
      obtain ⟨_, _, _, _, h⟩ := h
      cases h; exact herr
    · cases h; exact herr
  · simp [usbdfu_getstatus_complete, herr]
  · intro req buf len complete r h1 h
    rw [control_dnload s req _ _ _ h1] at h
    unfold dnload_case at h
    split at h
    · cases h; exact Or.inr rfl
    · simp only [Option.bind_eq_some] at h
      obtain ⟨pb, _, h⟩ := h
      cases h; exact Or.inl rfl

/-- Witness of the amended C13: a GETSTATUS poll in the ERROR state. -/
theorem error_state_kept_witness :
    errored.usbdfu_state = .STATE_DFU_ERROR ∧
    usbdfu_control_request errored getstatus_request [9, 9, 9, 9, 9, 9, 9] (some 6) none =
      some { ret := 1, session := errored, buf := [0, 0, 0, 0, 10, 0, 9], len := some 6,
             complete := some Completion.usbdfu_getstatus_complete } ∧
    (∀ r, usbdfu_control_request errored getstatus_request [9, 9, 9, 9, 9, 9, 9] (some 6) none
        = some r → r.session.usbdfu_state = .STATE_DFU_ERROR) :=
  ⟨rfl, by decide, fun r =>
    (error_state_kept errored rfl).1 getstatus_request [9, 9, 9, 9, 9, 9, 9] (some 6) none r
      (fun h => absurd h.2 (by decide)) (fun h => absurd h.2 (by decide))
      (fun h => absurd h.2 (by decide))⟩

/-! ## The scope of the flash unlock -/

theorem program_loop_mutation (buf : List Nat) (len base : Nat) :
    ∀ (fuel i : Nat) (e : Effect), e ∈ program_loop buf len base fuel i →
      ∃ a v, e = Effect.flash_program_half_word a v := by
  intro fuel
  induction fuel with
  | zero => intro i e he; simp [program_loop] at he
  | succ k ih =>
    intro i e he
    unfold program_loop at he
    split at he
    · rcases List.mem_append.mp he with h | h
      · split at h
        · simp only [List.mem_singleton] at h
          exact ⟨_, _, h⟩
        · simp at h
      · exact ih _ _ h
    · simp at he

theorem deferred_write_mutation (p : Prog) (e : Effect) (he : e ∈ (deferred_write p).2) :
    (∃ a, e = Effect.flash_erase_page a) ∨ (∃ a v, e = Effect.flash_program_half_word a v) := by
  unfold deferred_write at he
  split at he
  · split at he
    · unfold cmd_erase at he
      dsimp only at he
      split at he
      · simp only [List.mem_singleton] at he
        exact Or.inl ⟨_, he⟩
      · simp at he
    · split at he <;> simp at he
  · exact Or.inr (program_loop_mutation _ _ _ _ _ _ he)

theorem flash_locked_append (fx1 fx2 : List Effect) :
    ∀ b, flash_locked b (fx1 ++ fx2) = flash_locked (flash_locked b fx1) fx2 := by
  induction fx1 with
  | nil => intro b; rfl
  | cons e fx ih =>
    intro b
    cases e <;> simp [flash_locked, ih]

theorem flash_locked_complete (s : DfuSession) :
    flash_locked true (usbdfu_getstatus_complete s).2 = true := by
  unfold usbdfu_getstatus_complete
  split
  · rw [flash_locked_append]
    rfl
  · rfl
  · rfl

theorem flash_locked_step (s s' : DfuSession) (ev : Event) (fx : List Effect)
    (h : step s ev = some (s', fx)) : flash_locked true fx = true := by
  cases ev with
  | control req buf len =>
    simp only [step, Option.map_eq_some'] at h
    obtain ⟨r, _, hr⟩ := h
    have : fx = [] := (congrArg Prod.snd hr).symm
    subst this
    rfl
  | status_complete =>
    simp only [step, Option.some.injEq] at h
    have : fx = (usbdfu_getstatus_complete s).2 := (congrArg Prod.snd h).symm
    subst this
    exact flash_locked_complete s

/-- Claim C14 (scoped flash unlock): the flash calls of one status completion are
none when the state is not DNBUSY, and otherwise `flash_unlock` first,
`flash_lock` last and only erase and program calls between the two; so after
every sequence of requests and completions, started with the flash locked,
the flash is locked. -/
theorem scoped_unlock (s : DfuSession) :
    (s.usbdfu_state ≠ .STATE_DFU_DNBUSY → flash_calls (usbdfu_getstatus_complete s).2 = []) ∧
    (s.usbdfu_state = .STATE_DFU_DNBUSY →
      ∃ mid, (usbdfu_getstatus_complete s).2 =
          [Effect.flash_unlock] ++ mid ++ [Effect.flash_lock] ∧
        ∀ e ∈ mid, (∃ a, e = Effect.flash_erase_page a) ∨
          (∃ a v, e = Effect.flash_program_half_word a v)) ∧
    (∀ evs, flash_locked true (run s evs).2 = true) := by
  refine ⟨?_, ?_, ?_⟩
  · intro h
    unfold usbdfu_getstatus_complete
    split
    · rename_i hs; exact absurd hs h
    · rfl
    · rfl
  · intro h
    refine ⟨(deferred_write s.prog).2, ?_, fun e he => deferred_write_mutation _ e he⟩
    simp [usbdfu_getstatus_complete, h]
  · intro evs
    induction evs generalizing s with
    | nil => rfl
    | cons ev evs ih =>
      unfold run
      split
      · rfl
      · rename_i s' fx hstep
        have hfx := flash_locked_step s s' ev fx hstep
        split
        · exact hfx
        · show flash_locked true (fx ++ (run s' evs).2) = true
          rw [flash_locked_append, hfx]
          exact ih s'

/-- Witness of C14: the completion of a data block in the busy state, and the
lock state after the block-1 download. -/
theorem scoped_unlock_witness :
    busy_data.usbdfu_state = .STATE_DFU_DNBUSY ∧
    (∃ mid, (usbdfu_getstatus_complete busy_data).2 =
        [Effect.flash_unlock] ++ mid ++ [Effect.flash_lock] ∧
      ∀ e ∈ mid, (∃ a, e = Effect.flash_erase_page a) ∨
        (∃ a v, e = Effect.flash_program_half_word a v)) ∧
    flash_locked true (run boot block_one_events).2 = true :=
  ⟨rfl, (scoped_unlock busy_data).2.1 rfl, (scoped_unlock boot).2.2 block_one_events⟩

/-! ## The console transport -/

theorem tx_ready_facts (w : Extractor) :
    stream (cdcacm_tx_ready_cb w) = stream w ∧
    (cdcacm_tx_ready_cb w).calls = w.calls ∧
    (cdcacm_tx_ready_cb w).host = w.host ∧
    (cdcacm_tx_ready_cb w).console_buffer.capacity = w.console_buffer.capacity ∧
    (cdcacm_tx_ready_cb w).console_buffer.bytes.length ≤ w.console_buffer.bytes.length ∧
    (1 ≤ w.console_buffer.bytes.length →
      (cdcacm_tx_ready_cb w).console_buffer.bytes.length < w.console_buffer.bytes.length) := by
  unfold cdcacm_tx_ready_cb
  simp only [ringbuf_bytes_used, ringbuf_memcpy_from, MAX_PACKET_SIZE]
  split
  · rename_i h
    refine ⟨rfl, rfl, rfl, rfl, le_refl _, fun h1 => ?_⟩
    omega
  · rename_i h
    refine ⟨?_, rfl, rfl, rfl, ?_, fun _ => ?_⟩
    · simp [stream, List.flatten_append]
    · simp
    · simp only [List.length_drop]
      split <;> omega

theorem poll_while_spec (len : Nat) (blocked : ringbuf_t → Bool)
    (hb : ∀ rb, blocked rb = decide (ringbuf_bytes_free rb < len)) :
    ∀ (fuel : Nat) (w : Extractor), fuel = w.host.length →
      w.console_buffer.bytes.length ≤ w.console_buffer.capacity →
      len ≤ w.console_buffer.capacity →
      (∀ r, (poll_while blocked fuel).run w = some r →
        stream r.2 = stream w ∧ r.2.calls = w.calls ∧
        r.2.console_buffer.capacity = w.console_buffer.capacity ∧
        r.2.console_buffer.bytes.length ≤ r.2.console_buffer.capacity ∧
        len ≤ ringbuf_bytes_free r.2.console_buffer ∧ budget w ≤ budget r.2) ∧
      (len ≤ budget w → ∃ r, (poll_while blocked fuel).run w = some r) := by
  intro fuel
  induction fuel with
  | zero =>
    intro w hf hused hlen
    have hh : w.host = [] := List.length_eq_zero.mp hf.symm
    by_cases hbl : ringbuf_bytes_free w.console_buffer < len
    · have : blocked w.console_buffer = true := by rw [hb]; simpa using hbl
      have hrun : (poll_while blocked 0).run w = none := by
        simp [poll_while, StateT.run, this]
      rw [hrun]
      refine ⟨fun r hr => (by cases hr), fun hbud => ?_⟩
      simp [budget, hh] at hbud
      omega
    · have : blocked w.console_buffer = false := by rw [hb]; simpa using hbl
      have hrun : (poll_while blocked 0).run w = some ((), w) := by
        simp [poll_while, StateT.run, this]
      rw [hrun]
      refine ⟨fun r hr => ?_, fun _ => ⟨_, rfl⟩⟩
      cases hr
      exact ⟨rfl, rfl, rfl, hused, Nat.le_of_not_lt hbl, le_refl _⟩
  | succ k ih =>
    intro w hf hused hlen
    by_cases hbl : ringbuf_bytes_free w.console_buffer < len
    · have hblk : blocked w.console_buffer = true := by rw [hb]; simpa using hbl
      obtain ⟨b, rest, hh⟩ : ∃ b rest, w.host = b :: rest := by
        cases hw : w.host with
        | nil => simp [hw] at hf
        | cons b rest => exact ⟨b, rest, rfl⟩
      have hrest : k = rest.length := by simp [hh] at hf; omega
      have hfree : ringbuf_bytes_free w.console_buffer =
          w.console_buffer.capacity - w.console_buffer.bytes.length := rfl
      cases b with
      | true =>
        have hrun : (poll_while blocked (k + 1)).run w =
            (poll_while blocked k).run (cdcacm_tx_ready_cb { w with host := rest }) := by
          simp [poll_while, StateT.run, hblk, usbd_poll, hh]
        obtain ⟨t1, t2, t3, t4, t5, t6⟩ := tx_ready_facts { w with host := rest }
        simp only at t1 t2 t3 t4 t5 t6
        have hpos : 1 ≤ w.console_buffer.bytes.length := by omega
        have t6' := t6 hpos
        obtain ⟨ihp, ihs⟩ := ih (cdcacm_tx_ready_cb { w with host := rest })
          (by rw [t3]; exact hrest) (by rw [t4]; omega) (by rw [t4]; exact hlen)
        have hbud : budget w ≤ budget (cdcacm_tx_ready_cb { w with host := rest }) := by
          simp only [budget, ringbuf_bytes_free, t3, t4, hh, List.count_cons_self]
          omega
        rw [hrun]
        refine ⟨fun r hr => ?_, fun hbudw => ihs (by omega)⟩
        obtain ⟨p1, p2, p3, p4, p5, p6⟩ := ihp r hr
        refine ⟨?_, ?_, ?_, p4, p5, by omega⟩
        · rw [p1, t1]; simp [stream]
        · rw [p2, t2]
        · rw [p3, t4]
      | false =>
        have hrun : (poll_while blocked (k + 1)).run w =
            (poll_while blocked k).run { w with host := rest } := by
          simp [poll_while, StateT.run, hblk, usbd_poll, hh]
        obtain ⟨ihp, ihs⟩ := ih { w with host := rest } hrest hused hlen
        have hbud : budget w = budget { w with host := rest } := by
          simp [budget, hh]
        rw [hrun]
        refine ⟨fun r hr => ?_, fun hbudw => ihs (by omega)⟩
        obtain ⟨p1, p2, p3, p4, p5, p6⟩ := ihp r hr
        exact ⟨by rw [p1]; simp [stream], p2, p3, p4, p5, by omega⟩
    · have : blocked w.console_buffer = false := by rw [hb]; simpa using hbl
      have hrun : (poll_while blocked (k + 1)).run w = some ((), w) := by
        simp [poll_while, StateT.run, this]
      rw [hrun]
      refine ⟨fun r hr => ?_, fun _ => ⟨_, rfl⟩⟩
      cases hr
      exact ⟨rfl, rfl, rfl, hused, Nat.le_of_not_lt hbl, le_refl _⟩

theorem memcpy_into_fits (rb : ringbuf_t) (src : List Nat)
    (hfree : src.length ≤ ringbuf_bytes_free rb) (hused : rb.bytes.length ≤ rb.capacity) :
    ringbuf_memcpy_into rb src src.length = { rb with bytes := rb.bytes ++ src } := by
  have h0 : rb.bytes.length + src.length - rb.capacity = 0 := by
    simp only [ringbuf_bytes_free] at hfree
    omega
  simp [ringbuf_memcpy_into, h0]

theorem wait_write_spec (need : Nat) (src : List Nat) (blocked : ringbuf_t → Bool)
    (hb : ∀ rb, blocked rb = decide (ringbuf_bytes_free rb < src.length))
    (w : Extractor) (hok : console_ok need w)
    (hlen : src.length ≤ w.console_buffer.capacity) :
    (∀ r, ((poll_while blocked w.host.length).run w).bind
          (fun p => (console_memcpy_into src src.length).run p.2) = some r →
      r.1 = () ∧ stream r.2 = stream w ++ src ∧ r.2.calls = w.calls ++ [] ∧
      r.2.console_buffer.capacity = w.console_buffer.capacity ∧
      console_ok need r.2 ∧ budget w ≤ budget r.2 + src.length) ∧
    (src.length ≤ budget w →
      ∃ r, ((poll_while blocked w.host.length).run w).bind
          (fun p => (console_memcpy_into src src.length).run p.2) = some r) := by
  obtain ⟨hused, hcap1, hneed⟩ := hok
  obtain ⟨hp, hs⟩ := poll_while_spec src.length blocked hb w.host.length w rfl hused hlen
  have hwrite : ∀ p : Unit × Extractor, (console_memcpy_into src src.length).run p.2 =
      some ((), { p.2 with console_buffer :=
        ringbuf_memcpy_into p.2.console_buffer src src.length }) := fun _ => rfl
  constructor
  · intro r hr
    cases hw : (poll_while blocked w.host.length).run w with
    | none => rw [hw] at hr; cases hr
    | some p =>
      rw [hw, Option.some_bind, hwrite] at hr
      obtain ⟨p1, p2, p3, p4, p5, p6⟩ := hp p hw
      cases hr
      rw [memcpy_into_fits _ _ p5 p4]
      refine ⟨rfl, ?_, by simpa using p2, p3, ⟨?_, ?_, ?_⟩, ?_⟩
      · simp only [stream] at p1 ⊢
        rw [← List.append_assoc, p1]
      · simp only [List.length_append]
        simp only [ringbuf_bytes_free] at p5
        omega
      · show 1 ≤ p.2.console_buffer.capacity
        omega
      · show need ≤ p.2.console_buffer.capacity
        omega
      · simp only [budget, ringbuf_bytes_free, List.length_append] at p5 p6 ⊢
        omega
  · intro hbud
    obtain ⟨p, hw⟩ := hs hbud
    exact ⟨_, by rw [hw, Option.some_bind, hwrite]⟩

theorem console_putc_run (c : Nat) (w : Extractor) :
    (console_putc c).run w =
      ((poll_while ringbuf_is_full w.host.length).run w).bind
        (fun p => (console_memcpy_into [c] 1).run p.2) := by
  simp only [console_putc, StateT.run_bind, StateT.run_get, Option.pure_def, Option.bind_eq_bind,
    Option.some_bind]

theorem emits_putc (need : Nat) (c : Nat) : Emits need (console_putc c) () [c] [] := by
  intro w hok
  rw [console_putc_run]
  have hb : ∀ rb, ringbuf_is_full rb = decide (ringbuf_bytes_free rb < [c].length) := by
    intro rb
    simp [ringbuf_is_full, Nat.lt_one_iff]
  exact wait_write_spec need [c] ringbuf_is_full hb w hok hok.2.1

theorem console_puts_run (str : List Nat) (w : Extractor)
    (h : str.length ≤ w.console_buffer.capacity) :
    (console_puts str).run w =
      ((poll_while (fun rb => decide (ringbuf_bytes_free rb < str.length)) w.host.length).run
          w).bind
        (fun p => (console_memcpy_into str str.length).run p.2) := by
  have h' : ¬ (str.length > ringbuf_capacity w.console_buffer) := by
    simp only [ringbuf_capacity]; omega
  simp only [console_puts, console_puts_depth, StateT.run, h', if_false]
  rfl

theorem emits_puts (need : Nat) (str : List Nat) (h : str.length ≤ need) :
    Emits need (console_puts str) () str [] := by
  intro w hok
  have hcap : str.length ≤ w.console_buffer.capacity := le_trans h hok.2.2
  rw [console_puts_run str w hcap]
  exact wait_write_spec need str _ (fun _ => rfl) w hok hcap

theorem emits_pure {α : Type} (need : Nat) (v : α) : Emits need (pure v : Console α) v [] [] := by
  intro w hok
  refine ⟨fun r hr => ?_, fun _ => ⟨_, rfl⟩⟩
  cases hr
  exact ⟨rfl, by simp, by simp, rfl, hok, Nat.le_add_right _ _⟩

theorem emits_bind {α β : Type} (need : Nat) (f : Console α) (g : α → Console β)
    (v : α) (v' : β) (o1 o2 : List Nat) (c1 c2 : List HwCall)
    (hf : Emits need f v o1 c1) (hg : Emits need (g v) v' o2 c2) :
    Emits need (f >>= g) v' (o1 ++ o2) (c1 ++ c2) := by
  intro w hok
  obtain ⟨hp, hs⟩ := hf w hok
  have hrun : (f >>= g).run w = (f.run w).bind fun p => (g p.1).run p.2 := by
    rw [StateT.run_bind]; rfl
  rw [hrun]
  constructor
  · intro r hr
    cases hw : f.run w with
    | none => rw [hw] at hr; cases hr
    | some p =>
      rw [hw, Option.some_bind] at hr
      obtain ⟨p1, p2, p3, p4, p5, p6⟩ := hp p hw
      rw [p1] at hr
      obtain ⟨q1, q2, q3, q4, q5, q6⟩ := (hg p.2 p5).1 r hr
      refine ⟨q1, ?_, ?_, ?_, q5, ?_⟩
      · rw [q2, p2, List.append_assoc]
      · rw [q3, p3, List.append_assoc]
      · rw [q4, p4]
      · simp only [List.length_append]; omega
  · intro hbud
    simp only [List.length_append] at hbud
    obtain ⟨p, hw⟩ := hs (by omega)
    obtain ⟨p1, p2, p3, p4, p5, p6⟩ := hp p hw
    obtain ⟨r, hr⟩ := (hg p.2 p5).2 (by omega)
    exact ⟨r, by rw [hw, Option.some_bind, p1]; exact hr⟩

theorem emits_mono {α : Type} (need need' : Nat) (f : Console α) (v : α) (out : List Nat)
    (cs : List HwCall) (h : need ≤ need') (hf : Emits need f v out cs) :
    Emits need' f v out cs := by
  intro w hok
  obtain ⟨h1, h2, h3⟩ := hok
  obtain ⟨hp, hs⟩ := hf w ⟨h1, h2, by omega⟩
  refine ⟨fun r hr => ?_, hs⟩
  obtain ⟨p1, p2, p3, p4, p5, p6⟩ := hp r hr
  exact ⟨p1, p2, p3, p4, ⟨p5.1, p5.2.1, by rw [p4]; exact h3⟩, p6⟩

/-! ## Hex output -/

theorem emits_congr {α : Type} (need : Nat) (f : Console α) (v : α) (out out' : List Nat)
    (cs cs' : List HwCall) (ho : out = out') (hc : cs = cs') (hf : Emits need f v out cs) :
    Emits need f v out' cs' := by
  subst ho; subst hc; exact hf

theorem emits_seq {β : Type} (need : Nat) (f : Console Unit) (g : Console β)
    (v' : β) (o1 o2 : List Nat) (c1 c2 : List HwCall)
    (hf : Emits need f () o1 c1) (hg : Emits need g v' o2 c2) :
    Emits need (f >>= fun _ => g) v' (o1 ++ o2) (c1 ++ c2) :=
  emits_bind need f (fun _ => g) () v' o1 o2 c1 c2 hf hg

theorem HEX_CHAR_eq (x : Nat) (h : x < 16) : HEX_CHAR x = hex_digit x := by
  unfold HEX_CHAR hex_digit
  split <;> split <;> omega

theorem hex2_mod (b : Nat) : hex2 (b % 256) = hex2 b := by
  unfold hex2
  have h1 : b % 256 / 16 % 16 = b / 16 % 16 := by omega
  have h2 : b % 256 % 16 = b % 16 := by omega
  rw [h1, h2]

theorem emits_dump_byte (need : Nat) (b : Nat) : Emits need (dump_byte b) () (hex2 b) [] := by
  have h1 : (b % 256) >>> 4 &&& 0xf = b / 16 % 16 := by
    rw [Nat.shiftRight_eq_div_pow, show (0xf : Nat) = 2 ^ 4 - 1 from rfl,
      Nat.and_pow_two_sub_one_eq_mod]
    omega
  have h2 : (b % 256) &&& 0xf = b % 16 := by
    rw [show (0xf : Nat) = 2 ^ 4 - 1 from rfl, Nat.and_pow_two_sub_one_eq_mod]
    omega
  unfold dump_byte
  simp only [h1, h2]
  rw [HEX_CHAR_eq _ (Nat.mod_lt _ (by decide)), HEX_CHAR_eq _ (Nat.mod_lt _ (by decide))]
  exact emits_seq need _ _ () _ _ _ _ (emits_putc need _) (emits_putc need _)

theorem emits_dump_word (need : Nat) (v : Nat) : Emits need (dump_word v) () (hex4 v) [] := by
  have h1 : hex2 ((v % 65536) >>> 8) = hex2 (v / 256 % 256) := by
    rw [Nat.shiftRight_eq_div_pow, ← hex2_mod]
    congr 1
    omega
  have h2 : hex2 ((v % 65536) &&& 0xFF) = hex2 (v % 256) := by
    rw [show (0xFF : Nat) = 2 ^ 8 - 1 from rfl, Nat.and_pow_two_sub_one_eq_mod]
    congr 1
    omega
  unfold dump_word
  refine emits_congr need _ () _ _ _ _ ?_ rfl
    (emits_seq need _ _ () _ _ _ _ (emits_dump_byte need _) (emits_dump_byte need _))
  rw [h1, h2]
  rfl

theorem emits_dump_long (need : Nat) (l : Nat) :
    Emits need (dump_long l) () (hex8 (l % 65536)) [] := by
  have h1 : hex4 ((l % 65536) >>> 16) = hex4 (l % 65536 / 65536 % 65536) := by
    rw [Nat.shiftRight_eq_div_pow]
    congr 1
    omega
  have h2 : hex4 ((l % 65536) &&& 0xFFFF) = hex4 (l % 65536 % 65536) := by
    rw [show (0xFFFF : Nat) = 2 ^ 16 - 1 from rfl, Nat.and_pow_two_sub_one_eq_mod]
  unfold dump_long
  refine emits_congr need _ () _ _ _ _ ?_ rfl
    (emits_seq need _ _ () _ _ _ _ (emits_dump_word need _) (emits_dump_word need _))
  rw [h1, h2]
  rfl

theorem chars_colon_ten : chars ":10" = [0x3A] ++ hex2 0x10 := by decide

theorem chars_zeros : chars "00" = hex2 0x00 := by decide

theorem chars_crlf : chars "\r\n" = [0x0D, 0x0A] := by decide

theorem emits_cast {α : Type} (need : Nat) (f : Console α) (v v' : α) (out out' : List Nat)
    (cs cs' : List HwCall) (hv : v = v') (ho : out = out') (hc : cs = cs')
    (hf : Emits need f v out cs) : Emits need f v' out' cs' := by
  subst hv; subst ho; subst hc; exact hf

theorem emits_dump_line_loop (need : Nat) (mem : Nat → Nat) (line_addr : Nat) :
    ∀ (fuel i checksum : Nat), 16 ≤ i + fuel → checksum < 256 →
      Emits need (dump_line_loop mem line_addr fuel i checksum)
        ((checksum + ((List.range' i (16 - i)).map fun j => mem (line_addr + j) % 256).sum) % 256)
        (((List.range' i (16 - i)).map fun j => mem (line_addr + j) % 256).flatMap hex2) [] := by
  intro fuel
  induction fuel with
  | zero =>
    intro i checksum h hc
    have h0 : 16 - i = 0 := by omega
    unfold dump_line_loop
    rw [h0]
    exact emits_cast need _ _ _ _ _ _ _ (by simp; omega) (by simp) rfl
      (emits_pure need checksum)
  | succ k ih =>
    intro i checksum h hc
    unfold dump_line_loop
    by_cases hi : i < 16
    · rw [if_pos hi]
      obtain ⟨m, hm⟩ : ∃ m, 16 - i = m + 1 := ⟨16 - i - 1, by omega⟩
      have hm' : 16 - (i + 1) = m := by omega
      have hstep := emits_seq need _ _ _ _ _ _ _ (emits_dump_byte need (mem (line_addr + i) % 256))
        (ih (i + 1) ((checksum + mem (line_addr + i) % 256) % 256) (by omega)
          (Nat.mod_lt _ (by decide)))
      rw [hm'] at hstep
      rw [hm, List.range'_succ]
      refine emits_cast need _ _ _ _ _ _ _ ?_ ?_ rfl hstep
      · simp only [List.map_cons, List.sum_cons]
        omega
      · simp only [List.map_cons, List.flatMap_cons]
    · rw [if_neg hi]
      have h0 : 16 - i = 0 := by omega
      rw [h0]
      exact emits_cast need _ _ _ _ _ _ _ (by simp; omega) (by simp) rfl
        (emits_pure need checksum)

theorem payload_eq (mem : Nat → Nat) (addr : Nat) :
    payload mem addr = (List.range' 0 (16 - 0)).map fun j => mem (addr + j) % 256 := by
  simp [payload, List.range_eq_range']

theorem payload_lt (mem : Nat → Nat) (addr : Nat) : ∀ b ∈ payload mem addr, b < 256 := by
  intro b hb
  simp only [payload, List.mem_map] at hb
  obtain ⟨i, _, rfl⟩ := hb
  exact Nat.mod_lt _ (by decide)

theorem emits_dump_line (need : Nat) (hneed : 3 ≤ need) (mem : Nat → Nat) (addr base : Nat) :
    Emits need (dump_line mem addr base) addr (hex_record (data_record mem addr base)) [] := by
  have htmp : ((((addr % 2 ^ 32 : Nat) : Int) - ((base % 2 ^ 32 : Nat) : Int)) % (2 ^ 32 : Int)).toNat
      = line_offset addr base := by
    unfold line_offset
    omega
  have l1 : (chars ":10").length ≤ 3 := by decide
  have l3 : (chars "00").length ≤ 3 := by decide
  have l6 : (chars "\r\n").length ≤ 3 := by decide
  unfold dump_line
  simp only [htmp]
  generalize hc0 : ((16 + line_offset addr base >>> 8) % 256 +
    (line_offset addr base &&& 255)) % 256 = c0
  have hc0lt : c0 < 256 := by rw [← hc0]; exact Nat.mod_lt _ (by decide)
  have hloop := emits_dump_line_loop need mem addr 16 0 c0 (by omega) hc0lt
  rw [← payload_eq] at hloop
  generalize hv : (c0 + (payload mem addr).sum) % 256 = v at hloop
  have e67 := emits_seq need _ _ _ _ _ _ _ (emits_puts need (chars "\r\n") (le_trans l6 hneed))
    (emits_pure need addr)
  have e5 : ∀ c : Nat, Emits need (dump_byte c >>= fun _ => console_puts (chars "\r\n") >>=
      fun _ => (pure addr : Console Nat)) addr (hex2 c ++ (chars "\r\n" ++ []))
      ([] ++ ([] ++ [])) :=
    fun c => emits_seq need _ _ _ _ _ _ _ (emits_dump_byte need c) e67
  have e4 := emits_bind need (dump_line_loop mem addr 16 0 c0)
    (fun (checksum : Nat) => dump_byte ((-(checksum : Int) - 1 + 1) % 256).toNat >>=
      fun _ => console_puts (chars "\r\n") >>= fun _ => (pure addr : Console Nat))
    v addr _ _ _ _ hloop (e5 _)
  have e1 := emits_seq need _ _ _ _ _ _ _ (emits_puts need (chars ":10") (le_trans l1 hneed))
    (emits_seq need _ _ _ _ _ _ _ (emits_dump_word need (line_offset addr base % 65536))
      (emits_seq need _ _ _ _ _ _ _ (emits_puts need (chars "00") (le_trans l3 hneed)) e4))
  refine emits_cast need _ _ _ _ _ _ _ rfl ?_ rfl e1
  have hand : line_offset addr base &&& 255 = line_offset addr base % 256 := by
    rw [show (255 : Nat) = 2 ^ 8 - 1 from rfl, Nat.and_pow_two_sub_one_eq_mod]
  have hshift : line_offset addr base >>> 8 = line_offset addr base / 256 := by
    rw [Nat.shiftRight_eq_div_pow]
  have hhi : hex4 (line_offset addr base % 65536) =
      hex2 (line_offset addr base / 256 % 256) ++ hex2 (line_offset addr base % 256) := by
    generalize line_offset addr base = o
    have a1 : o % 65536 / 256 % 256 = o / 256 % 256 := by omega
    have a2 : o % 65536 % 256 = o % 256 := by omega
    unfold hex4
    rw [a1, a2]
  have hck : ((-(v : Int) - 1 + 1) % 256).toNat =
      checksum_of ([0x10, line_offset addr base / 256 % 256,
        line_offset addr base % 256, 0x00] ++ payload mem addr) := by
    rw [← hv, ← hc0, hand, hshift]
    simp only [checksum_of, List.sum_append, List.sum_cons, List.sum_nil]
    generalize (payload mem addr).sum = t
    generalize line_offset addr base = o
    omega
  rw [hhi, hck, chars_colon_ten, chars_zeros, chars_crlf]
  simp [hex_record, data_record, List.flatMap_append]

theorem emits_dump_page_loop (need : Nat) (hneed : 3 ≤ need) (mem : Nat → Nat)
    (addr base : Nat) :
    ∀ (fuel i : Nat), 16 ≤ i + fuel →
      Emits need (dump_page_loop mem addr base fuel i) ()
        ((List.range' i (16 - i)).flatMap fun j =>
          hex_record (data_record mem (addr + j * 16) base)) [] := by
  intro fuel
  induction fuel with
  | zero =>
    intro i h
    have h0 : 16 - i = 0 := by omega
    unfold dump_page_loop
    rw [h0]
    exact emits_pure need ()
  | succ k ih =>
    intro i h
    unfold dump_page_loop
    by_cases hi : i < 16
    · rw [if_pos hi]
      obtain ⟨m, hm⟩ : ∃ m, 16 - i = m + 1 := ⟨16 - i - 1, by omega⟩
      have hm' : 16 - (i + 1) = m := by omega
      have hstep := emits_bind need _ (fun _ => dump_page_loop mem addr base k (i + 1))
        _ _ _ _ _ _ (emits_dump_line need hneed mem (addr + i * 16) base) (ih (i + 1) (by omega))
      rw [hm'] at hstep
      rw [hm, List.range'_succ]
      exact emits_cast need _ _ _ _ _ _ _ rfl (by simp only [List.flatMap_cons]) rfl hstep
    · rw [if_neg hi]
      have h0 : 16 - i = 0 := by omega
      rw [h0]
      exact emits_pure need ()

/-- The output of one page: its sixteen lines. -/
theorem emits_dump_page (need : Nat) (hneed : 3 ≤ need) (mem : Nat → Nat) (addr base : Nat) :
    Emits need (dump_page mem addr base) addr
      ((List.range 16).flatMap fun j => hex_record (data_record mem (addr + j * 16) base))
      [] := by
  have h := emits_seq need _ _ _ _ _ _ _ (emits_dump_page_loop need hneed mem addr base 16 0
    (by omega)) (emits_pure need addr)
  unfold dump_page
  refine emits_cast need _ _ _ _ _ _ _ rfl ?_ rfl h
  simp [List.range_eq_range']

theorem emits_dump_bootloader_loop (need : Nat) (hneed : 3 ≤ need) (mem : Nat → Nat) :
    ∀ (fuel p : Nat), p ≤ 256 → 256 ≤ p + fuel →
      Emits need (dump_bootloader_loop mem fuel (0x08000000 + 256 * p)) ()
        ((List.range' p (256 - p)).flatMap fun q =>
          (List.range 16).flatMap fun j =>
            hex_record (data_record mem (0x08000000 + 256 * q + j * 16) 0x08000000)) [] := by
  intro fuel
  induction fuel with
  | zero =>
    intro p hp h
    have h0 : 256 - p = 0 := by omega
    unfold dump_bootloader_loop
    rw [h0]
    exact emits_pure need ()
  | succ k ih =>
    intro p hp h
    unfold dump_bootloader_loop
    by_cases hi : p < 256
    · have hlt : 0x08000000 + 256 * p < 0x08010000 := by omega
      have hnext : (0x08000000 + 256 * p + 256) % 2 ^ 32 = 0x08000000 + 256 * (p + 1) := by
        omega
      rw [if_pos hlt, hnext]
      obtain ⟨m, hm⟩ : ∃ m, 256 - p = m + 1 := ⟨256 - p - 1, by omega⟩
      have hm' : 256 - (p + 1) = m := by omega
      have hstep := emits_bind need _
        (fun _ => dump_bootloader_loop mem k (0x08000000 + 256 * (p + 1)))
        _ _ _ _ _ _ (emits_dump_page need hneed mem (0x08000000 + 256 * p) 0x08000000)
        (ih (p + 1) (by omega) (by omega))
      rw [hm'] at hstep
      rw [hm, List.range'_succ]
      exact emits_cast need _ _ _ _ _ _ _ rfl (by simp only [List.flatMap_cons]) rfl hstep
    · have hge : ¬ (0x08000000 + 256 * p < 0x08010000) := by omega
      rw [if_neg hge]
      have h0 : 256 - p = 0 := by omega
      rw [h0]
      exact emits_pure need ()

theorem flatMap_range_mul {β : Type} (n : Nat) (f : Nat → List β) :
    ∀ m, (List.range (m * n)).flatMap f =
      (List.range m).flatMap fun q => (List.range n).flatMap fun j => f (n * q + j) := by
  intro m
  induction m with
  | zero => simp
  | succ m ih =>
    have h1 : (m + 1) * n = m * n + n := by ring
    rw [h1, List.range_add, List.flatMap_append, ih, List.range_succ, List.flatMap_append]
    congr 1
    simp only [List.flatMap_cons, List.flatMap_nil, List.append_nil]
    rw [List.flatMap_map]
    have h2 : m * n = n * m := Nat.mul_comm m n
    simp only [h2]

theorem line_offset_window (k : Nat) (hk : k < 4096) :
    line_offset (0x08000000 + 16 * k) 0x08000000 = 16 * k := by
  unfold line_offset
  omega

theorem hex_record_line (mem : Nat → Nat) (k : Nat) (hk : k < 4096) :
    hex_record (data_record mem (0x08000000 + 16 * k) 0x08000000) = intel_hex_line mem k := by
  have ho := line_offset_window k hk
  have h4 : hex4 (16 * k) = hex2 (16 * k / 256 % 256) ++ hex2 (16 * k % 256) := rfl
  unfold hex_record data_record intel_hex_line
  rw [ho, h4, chars_colon_ten, chars_zeros, chars_crlf]
  simp [List.flatMap_append]

theorem length_hex2 (b : Nat) : (hex2 b).length = 2 := rfl

theorem length_flatMap_hex2 (l : List Nat) : (l.flatMap hex2).length = 2 * l.length := by
  induction l with
  | nil => rfl
  | cons a t ih => simp only [List.flatMap_cons, List.length_append, length_hex2, ih,
      List.length_cons]; omega

theorem length_payload (mem : Nat → Nat) (addr : Nat) : (payload mem addr).length = 16 := by
  simp [payload]

theorem length_intel_hex_line (mem : Nat → Nat) (k : Nat) :
    (intel_hex_line mem k).length = 45 := by
  unfold intel_hex_line
  rw [chars_colon_ten, chars_zeros, chars_crlf]
  simp only [List.length_append, length_flatMap_hex2, length_payload, hex4, length_hex2,
    List.length_cons, List.length_nil]

theorem length_flatMap_const {β : Type} (f : Nat → List β) (c : Nat) (l : List Nat)
    (h : ∀ k, (f k).length = c) : (l.flatMap f).length = l.length * c := by
  induction l with
  | nil => simp
  | cons a t ih =>
    simp only [List.flatMap_cons, List.length_append, h, ih, List.length_cons]
    ring

theorem length_eof : (chars ":00000001FF\r\n").length = 13 := by decide

theorem length_intel_hex_dump (mem : Nat → Nat) : (intel_hex_dump mem).length = 184333 := by
  unfold intel_hex_dump
  rw [List.length_append, length_flatMap_const _ 45 _ (length_intel_hex_line mem), length_eof,
    List.length_range]

theorem dump_lines_regroup (mem : Nat → Nat) :
    ((List.range' 0 (256 - 0)).flatMap fun q =>
        (List.range 16).flatMap fun j =>
          hex_record (data_record mem (0x08000000 + 256 * q + j * 16) 0x08000000)) =
      (List.range 4096).flatMap (intel_hex_line mem) := by
  have h4096 : (4096 : Nat) = 256 * 16 := by norm_num
  have h256 : 256 - 0 = 256 := by norm_num
  rw [h4096, flatMap_range_mul 16 (intel_hex_line mem) 256, h256, ← List.range_eq_range']
  apply List.flatMap_congr
  intro q hq
  apply List.flatMap_congr
  intro j hj
  have hq' : q < 256 := List.mem_range.mp hq
  have hj' : j < 16 := List.mem_range.mp hj
  have hk : 16 * q + j < 4096 := by omega
  have haddr : 0x08000000 + 256 * q + j * 16 = 0x08000000 + 16 * (16 * q + j) := by omega
  rw [← hex_record_line mem (16 * q + j) hk, haddr]

theorem emits_dump_bootloader (need : Nat) (hneed : 13 ≤ need) (mem : Nat → Nat) :
    Emits need (dump_bootloader mem) () (intel_hex_dump mem) [] := by
  have h3 : 3 ≤ need := by omega
  have hloop := emits_dump_bootloader_loop need h3 mem 256 0 (by omega) (by omega)
  rw [dump_lines_regroup] at hloop
  have hall := emits_seq need _ _ _ _ _ _ _ hloop
    (emits_puts need (chars ":00000001FF\r\n") (le_trans (le_of_eq length_eof) hneed))
  exact hall

/-! ## GPIO readback, help and command dispatch -/

theorem emits_gpio_port_read (need : Nat) (gpio : Nat → Nat) (port : Nat) :
    Emits need (gpio_port_read gpio port) (gpio port % 65536) []
      [HwCall.gpio_port_read port] := by
  intro w hok
  refine ⟨fun r hr => ?_, fun _ => ⟨_, rfl⟩⟩
  have : r = (gpio port % 65536,
      { w with calls := w.calls ++ [HwCall.gpio_port_read port] }) :=
    (Option.some.inj hr).symm
  subst this
  exact ⟨rfl, by simp [stream], rfl, rfl, hok, Nat.le_add_right _ _⟩

theorem emits_scb_reset_system (need : Nat) :
    Emits need scb_reset_system () [] [HwCall.scb_reset_system] := by
  intro w hok
  refine ⟨fun r hr => ?_, fun _ => ⟨_, rfl⟩⟩
  have : r = ((), { w with calls := w.calls ++ [HwCall.scb_reset_system] }) :=
    (Option.some.inj hr).symm
  subst this
  exact ⟨rfl, by simp [stream], rfl, rfl, hok, Nat.le_add_right _ _⟩

theorem emits_unknown_command (need : Nat) (hneed : 19 ≤ need) (c : Nat) :
    Emits need (unknown_command c) () (unknown_text c) [] := by
  have l1 : (chars "Unknown command (0x").length ≤ 19 := by decide
  have l2 : (chars ")!\r\n").length ≤ 19 := by decide
  exact emits_seq need _ _ _ _ _ _ _
    (emits_puts need (chars "Unknown command (0x") (le_trans l1 hneed))
    (emits_seq need _ _ _ _ _ _ _ (emits_dump_byte need c)
      (emits_puts need (chars ")!\r\n") (le_trans l2 hneed)))

theorem emits_print_help (need : Nat) (hneed : 22 ≤ need) :
    Emits need print_help () help_text [] := by
  have l1 : (chars "d: dump bootloader\r\n").length ≤ 22 := by decide
  have l2 : (chars "r: reset device\r\n").length ≤ 22 := by decide
  have l3 : (chars "g: read all GPIO\r\n").length ≤ 22 := by decide
  have l4 : (chars "h: this help message\r\n").length ≤ 22 := by decide
  have l5 : (chars "\r\n").length ≤ 22 := by decide
  have h := emits_seq need _ _ _ _ _ _ _
    (emits_puts need (chars "d: dump bootloader\r\n") (le_trans l1 hneed))
    (emits_seq need _ _ _ _ _ _ _
      (emits_puts need (chars "r: reset device\r\n") (le_trans l2 hneed))
      (emits_seq need _ _ _ _ _ _ _
        (emits_puts need (chars "g: read all GPIO\r\n") (le_trans l3 hneed))
        (emits_seq need _ _ _ _ _ _ _
          (emits_puts need (chars "h: this help message\r\n") (le_trans l4 hneed))
          (emits_puts need (chars "\r\n") (le_trans l5 hneed)))))
  refine emits_cast need _ _ _ _ _ _ _ rfl ?_ rfl h
  simp only [help_text, List.append_assoc]

theorem emits_read_back_gpio_loop (need : Nat) (hneed : 2 ≤ need) (gpio : Nat → Nat) :
    ∀ (fuel i : Nat), 5 ≤ i + fuel →
      Emits need (read_back_gpio_loop gpio fuel i) ()
        ((List.range' i (5 - i)).flatMap fun j =>
          [(0x41 + j) % 256] ++ (chars ": " ++
            (hex8 (gpio (gpioports.getD j 0) % 65536) ++ ([0x20] ++ []))))
        ((List.range' i (5 - i)).flatMap fun j =>
          [] ++ ([] ++ ([HwCall.gpio_port_read (gpioports.getD j 0)] ++ ([] ++ ([] ++ []))))) := by
  have l1 : (chars ": ").length ≤ 2 := by decide
  have hlen : gpioports.length = 5 := rfl
  intro fuel
  induction fuel with
  | zero =>
    intro i h
    have h0 : 5 - i = 0 := by omega
    unfold read_back_gpio_loop
    rw [h0]
    exact emits_pure need ()
  | succ k ih =>
    intro i h
    unfold read_back_gpio_loop
    rw [hlen]
    by_cases hi : i < 5
    · rw [if_pos hi]
      obtain ⟨m, hm⟩ : ∃ m, 5 - i = m + 1 := ⟨5 - i - 1, by omega⟩
      have hm' : 5 - (i + 1) = m := by omega
      have hrest := ih (i + 1) (by omega)
      rw [hm'] at hrest
      have e3 := emits_bind need (gpio_port_read gpio (gpioports.getD i 0))
        (fun v => dump_long v >>= fun _ => console_putc 0x20 >>= fun _ =>
          read_back_gpio_loop gpio k (i + 1)) _ _ _ _ _ _
        (emits_gpio_port_read need gpio (gpioports.getD i 0))
        (emits_seq need _ _ _ _ _ _ _ (emits_dump_long need _)
          (emits_seq need _ _ _ _ _ _ _ (emits_putc need 0x20) hrest))
      have e1 := emits_seq need _ _ _ _ _ _ _ (emits_putc need ((0x41 + i) % 256))
        (emits_seq need _ _ _ _ _ _ _ (emits_puts need (chars ": ") (le_trans l1 hneed)) e3)
      rw [hm, List.range'_succ]
      refine emits_cast need _ _ _ _ _ _ _ rfl ?_ ?_ e1
      · simp only [List.flatMap_cons, Nat.mod_mod, List.nil_append, List.append_nil,
          List.append_assoc]
      · simp only [List.flatMap_cons, List.nil_append, List.append_nil, List.append_assoc]
    · rw [if_neg hi]
      have h0 : 5 - i = 0 := by omega
      rw [h0]
      exact emits_pure need ()

theorem chars_port_letters :
    chars "A: " = [0x41] ++ chars ": " ∧ chars "B: " = [0x42] ++ chars ": " ∧
    chars "C: " = [0x43] ++ chars ": " ∧ chars "D: " = [0x44] ++ chars ": " ∧
    chars "E: " = [0x45] ++ chars ": " ∧ chars " " = [0x20] := by decide

theorem range_five : List.range' 0 (5 - 0) = [0, 1, 2, 3, 4] := by decide

theorem emits_read_back_gpio (need : Nat) (hneed : 5 ≤ need) (gpio : Nat → Nat) :
    Emits need (read_back_gpio gpio) ()
      (gpio_snapshot (gpio GPIOA % 65536) (gpio GPIOB % 65536) (gpio GPIOC % 65536)
        (gpio GPIOD % 65536) (gpio GPIOE % 65536))
      [HwCall.gpio_port_read GPIOA, HwCall.gpio_port_read GPIOB, HwCall.gpio_port_read GPIOC,
       HwCall.gpio_port_read GPIOD, HwCall.gpio_port_read GPIOE] := by
  have l1 : (chars "Port ").length ≤ 5 := by decide
  have l2 : (chars "\r\n").length ≤ 5 := by decide
  have hloop := emits_read_back_gpio_loop need (by omega) gpio 5 0 (by omega)
  rw [range_five] at hloop
  have h := emits_seq need _ _ _ _ _ _ _ (emits_puts need (chars "Port ") (le_trans l1 hneed))
    (emits_seq need _ _ _ _ _ _ _ hloop (emits_puts need (chars "\r\n") (le_trans l2 hneed)))
  obtain ⟨ca, cb, cc, cd, ce, csp⟩ := chars_port_letters
  refine emits_cast need _ _ _ _ _ _ _ rfl ?_ ?_ h
  · simp only [gpio_snapshot, ca, cb, cc, cd, ce, csp, List.flatMap_cons, List.flatMap_nil,
      List.nil_append, List.append_nil, List.append_assoc]
    rfl
  · simp only [List.flatMap_cons, List.flatMap_nil, List.nil_append, List.append_nil,
      List.append_assoc]
    rfl

theorem emits_handle_command (need : Nat) (hneed : 22 ≤ need) (mem gpio : Nat → Nat) (c : Nat) :
    Emits need (handle_command mem gpio c) () (command_output mem gpio c)
      (command_calls c) := by
  unfold handle_command command_output command_calls
  by_cases h1 : c = 0x64 ∨ c = 0x44
  · have h2 : ¬ (c = 0x72 ∨ c = 0x52) := by omega
    have h3 : ¬ (c = 0x67 ∨ c = 0x47) := by omega
    rw [if_pos h1, if_pos h1, if_neg h2, if_neg h3]
    exact emits_dump_bootloader need (by omega) mem
  rw [if_neg h1, if_neg h1]
  by_cases h2 : c = 0x72 ∨ c = 0x52
  · rw [if_pos h2, if_pos h2, if_pos h2]
    exact emits_scb_reset_system need
  rw [if_neg h2, if_neg h2, if_neg h2]
  by_cases h3 : c = 0x67 ∨ c = 0x47
  · rw [if_pos h3, if_pos h3, if_pos h3]
    exact emits_read_back_gpio need (by omega) gpio
  rw [if_neg h3, if_neg h3, if_neg h3]
  by_cases h4 : c = 0x68 ∨ c = 0x48
  · rw [if_pos h4, if_pos h4]
    exact emits_print_help need hneed
  rw [if_neg h4, if_neg h4]
  by_cases h5 : c = 0x0D
  · rw [if_pos h5, if_pos h5]
    exact emits_pure need ()
  rw [if_neg h5, if_neg h5]
  exact emits_unknown_command need (by omega) c

theorem head_intel_hex_dump (mem : Nat → Nat) : (intel_hex_dump mem).head? = some 0x3A := by
  unfold intel_hex_dump
  rw [show (4096 : Nat) = 4095 + 1 by norm_num, List.range_succ_eq_map, List.flatMap_cons]
  unfold intel_hex_line
  rw [chars_colon_ten]
  rfl

theorem head_gpio_snapshot (a b c d e : Nat) :
    (gpio_snapshot a b c d e).head? = some 0x50 := by
  have h : chars "Port " = 0x50 :: chars "ort " := by decide
  unfold gpio_snapshot
  rw [h]
  rfl

theorem head_help_text : help_text.head? = some 0x64 := by decide

theorem head_unknown_text (c : Nat) : (unknown_text c).head? = some 0x55 := by
  have h : chars "Unknown command (0x" = 0x55 :: chars "nknown command (0x" := by decide
  unfold unknown_text
  rw [h]
  rfl

/-! ## Reading a record back -/

theorem hex_value_digit (d : Nat) (h : d < 16) : hex_value (hex_digit d) = some d := by
  unfold hex_value hex_digit
  by_cases h10 : d < 10
  · rw [if_pos h10, if_pos (by omega)]
    congr 1
    omega
  · rw [if_neg h10, if_neg (by omega), if_pos (by omega)]
    congr 1
    omega

theorem unhex_hex2 (bytes : List Nat) (h : ∀ b ∈ bytes, b < 256) :
    unhex (bytes.flatMap hex2) = some bytes := by
  induction bytes with
  | nil => rfl
  | cons b t ih =>
    have hb : b < 256 := h b (List.mem_cons_self _ _)
    have ht := ih fun x hx => h x (List.mem_cons_of_mem _ hx)
    have e : (b :: t).flatMap hex2 =
        hex_digit (b / 16 % 16) :: hex_digit (b % 16) :: t.flatMap hex2 := rfl
    rw [e, unhex, hex_value_digit _ (Nat.mod_lt _ (by decide)),
      hex_value_digit _ (Nat.mod_lt _ (by decide)), ht]
    simp only [Option.some.injEq, List.cons.injEq, and_true]
    omega

theorem data_record_lt (mem : Nat → Nat) (addr base : Nat) :
    ∀ b ∈ data_record mem addr base, b < 256 := by
  intro b hb
  simp only [data_record, List.mem_append, List.mem_cons, List.mem_singleton,
    List.not_mem_nil, or_false] at hb
  rcases hb with ((h | h | h | h) | h) | h
  · omega
  · subst h; exact Nat.mod_lt _ (by decide)
  · subst h; exact Nat.mod_lt _ (by decide)
  · omega
  · exact payload_lt mem addr b h
  · rw [h, checksum_of]
    exact Nat.mod_lt (256 - _) (by decide : 256 > 0)

theorem length_data_record (mem : Nat → Nat) (addr base : Nat) :
    (data_record mem addr base).length = 21 := by
  simp [data_record, length_payload]

theorem sum_data_record (mem : Nat → Nat) (addr base : Nat) :
    (data_record mem addr base).sum % 256 = 0 := by
  simp only [data_record, checksum_of, List.sum_append, List.sum_cons, List.sum_nil]
  generalize (payload mem addr).sum = t
  generalize line_offset addr base = o
  omega

theorem length_hex_record (bytes : List Nat) :
    (hex_record bytes).length = 2 * bytes.length + 3 := by
  simp only [hex_record, List.length_append, length_flatMap_hex2, List.length_cons,
    List.length_nil]
  omega

/-! ## Waiting and the transmit-ready callback -/

theorem poll_while_free (blocked : ringbuf_t → Bool) (fuel : Nat) (w : Extractor)
    (h : blocked w.console_buffer = false) : (poll_while blocked fuel).run w = some ((), w) := by
  cases fuel <;> simp [poll_while, StateT.run, h]

theorem console_puts_fits (str : List Nat) (w : Extractor)
    (hused : w.console_buffer.bytes.length ≤ w.console_buffer.capacity)
    (hfree : str.length ≤ ringbuf_bytes_free w.console_buffer) :
    (console_puts str).run w =
      some ((), { w with console_buffer :=
        { w.console_buffer with bytes := w.console_buffer.bytes ++ str } }) := by
  have hcap : str.length ≤ w.console_buffer.capacity := by
    simp only [ringbuf_bytes_free] at hfree
    omega
  have hwrite : (console_memcpy_into str str.length).run w =
      some ((), { w with console_buffer := ringbuf_memcpy_into w.console_buffer str str.length })
      := rfl
  rw [console_puts_run str w hcap, poll_while_free _ _ _ (by simpa using hfree),
    Option.some_bind, hwrite, memcpy_into_fits _ _ hfree hused]

theorem console_puts_overrun (str : List Nat) (w : Extractor)
    (h : str.length > w.console_buffer.capacity) :
    (console_puts str).run w = (console_puts_depth 1 OVERRUN).run w := by
  have h' : str.length > ringbuf_capacity w.console_buffer := h
  simp only [console_puts, console_puts_depth, StateT.run, h', if_true]

theorem console_puts_depth_one (str : List Nat) (w : Extractor)
    (h : str.length ≤ w.console_buffer.capacity) :
    (console_puts_depth 1 str).run w = (console_puts str).run w := by
  have h' : ¬ (str.length > ringbuf_capacity w.console_buffer) := by
    simp only [ringbuf_capacity]; omega
  simp only [console_puts, console_puts_depth, StateT.run, h', if_false]

theorem emits_tx_ready (need : Nat) :
    Emits need (modify cdcacm_tx_ready_cb : Console Unit) () [] [] := by
  intro w hok
  refine ⟨fun r hr => ?_, fun _ => ⟨_, rfl⟩⟩
  have : r = ((), cdcacm_tx_ready_cb w) := (Option.some.inj hr).symm
  subst this
  obtain ⟨t1, t2, t3, t4, t5, _⟩ := tx_ready_facts w
  obtain ⟨h1, h2, h3⟩ := hok
  refine ⟨rfl, by simp [t1], by simp [t2], t4, ⟨?_, ?_, ?_⟩, ?_⟩
  · show (cdcacm_tx_ready_cb w).console_buffer.bytes.length ≤ _
    rw [t4]; omega
  · show 1 ≤ (cdcacm_tx_ready_cb w).console_buffer.capacity
    rw [t4]; exact h2
  · show need ≤ (cdcacm_tx_ready_cb w).console_buffer.capacity
    rw [t4]; exact h3
  · show budget w ≤ budget (cdcacm_tx_ready_cb w) + _
    simp only [budget, ringbuf_bytes_free, t3, t4, List.length_nil]
    omega

theorem emits_run_ops (need : Nat) :
    ∀ (ops : List ConsoleOp), (∀ s, ConsoleOp.puts s ∈ ops → s.length ≤ need) →
      Emits need (run_ops ops) () (written ops) [] := by
  intro ops
  induction ops with
  | nil => intro _; exact emits_pure need ()
  | cons op ops ih =>
    intro h
    have hrest := ih fun s hs => h s (List.mem_cons_of_mem _ hs)
    have hop : Emits need (run_op op) () (op_bytes op) [] := by
      cases op with
      | putc c => exact emits_putc need c
      | puts s => exact emits_puts need s (h s (List.mem_cons_self _ _))
      | tx_ready => exact emits_tx_ready need
    exact emits_seq need _ _ _ _ _ _ _ hop hrest

/-! ## The claims on the extractor -/

/-- Claim C15 (HEX record checksum): for every line address, base and memory
content, `dump_line` writes a colon, the hex-digit pairs of 21 bytes and CRLF;
read back, the 21 bytes are the length 0x10, the high and low byte of the
offset `addr - base` (modulo `2 ^ 32`), the type 0x00, the 16 payload bytes
and a checksum that is the 8-bit two's complement of the sum of the 20 bytes
before it, so the byte sum is 0 modulo 256. The same holds for the
end-of-file record `:00000001FF`. -/
theorem hex_record_checksum (mem : Nat → Nat) (addr base : Nat) (w : Extractor)
    (hok : console_ok 3 w) :
    (∀ r, (dump_line mem addr base).run w = some r →
      stream r.2 = stream w ++
        ([0x3A] ++ (data_record mem addr base).flatMap hex2 ++ [0x0D, 0x0A])) ∧
    (45 ≤ budget w → ∃ r, (dump_line mem addr base).run w = some r) ∧
    unhex ((data_record mem addr base).flatMap hex2) = some (data_record mem addr base) ∧
    (data_record mem addr base).length = 21 ∧
    (data_record mem addr base).take 20 =
      [0x10, line_offset addr base / 256 % 256, line_offset addr base % 256, 0x00] ++
        payload mem addr ∧
    (data_record mem addr base).drop 20 =
      [(256 - ((data_record mem addr base).take 20).sum % 256) % 256] ∧
    (data_record mem addr base).sum % 256 = 0 ∧
    chars ":00000001FF\r\n" = [0x3A] ++ [0x00, 0x00, 0x00, 0x01, 0xFF].flatMap hex2
      ++ [0x0D, 0x0A] ∧
    unhex ([0x00, 0x00, 0x00, 0x01, 0xFF].flatMap hex2) = some [0x00, 0x00, 0x00, 0x01, 0xFF] ∧
    [0x00, 0x00, 0x00, 0x01, 0xFF].sum % 256 = 0 ∧
    0xFF = (256 - [0x00, 0x00, 0x00, 0x01].sum % 256) % 256 := by
  obtain ⟨hp, hs⟩ := emits_dump_line 3 (le_refl 3) mem addr base w hok
  have hlen : (hex_record (data_record mem addr base)).length = 45 := by
    rw [length_hex_record, length_data_record]
  have htake : (data_record mem addr base).take 20 =
      [0x10, line_offset addr base / 256 % 256, line_offset addr base % 256, 0x00] ++
        payload mem addr := by
    unfold data_record
    rw [List.take_append_of_le_length (by simp [length_payload])]
    exact List.take_of_length_le (by simp [length_payload])
  have hdrop : (data_record mem addr base).drop 20 =
      [checksum_of ([0x10, line_offset addr base / 256 % 256, line_offset addr base % 256, 0x00]
        ++ payload mem addr)] := by
    unfold data_record
    rw [List.drop_append_of_le_length (by simp [length_payload])]
    rw [List.drop_of_length_le (by simp [length_payload])]
    rfl
  refine ⟨fun r hr => (hp r hr).2.1, fun hb => hs (by rw [hlen]; exact hb),
    unhex_hex2 _ (data_record_lt mem addr base), length_data_record mem addr base, htake, ?_,
    sum_data_record mem addr base, by decide, by decide, by decide, by decide⟩
  rw [hdrop, htake]
  rfl

/-- Witness of C15: the line at offset 0x0010 of an erased flash. -/
theorem hex_record_checksum_witness :
    console_ok 3 console_idle ∧
    (data_record erased_flash 0x08000010 0x08000000).sum % 256 = 0 ∧
    ((dump_line erased_flash 0x08000010 0x08000000).run console_idle).map
        (fun r => stream r.2) =
      some (chars ":10001000FFFFFFFFFFFFFFFFFFFFFFFFFFFFFFFFF0\r\n") :=
  ⟨⟨by decide, by decide, by decide⟩,
    (hex_record_checksum erased_flash 0x08000010 0x08000000 console_idle
      ⟨by decide, by decide, by decide⟩).2.2.2.2.2.2.1,
    by decide⟩

/-- Claim C16 (dump stream structure): for every memory content `dump_bootloader`
writes exactly the lines `k = 0, ..., 4095` in that order, line `k` being
`:10`, the four hex digits of `16 k`, `00`, the hex digits of the 16 bytes at
`0x08000000 + 16 k`, the hex digits of the checksum and CRLF (45 characters,
uppercase digits), followed by the single line `:00000001FF` and CRLF. The
address fields run from 0x0000 to 0xFFF0 without wrap-around, and no data
line equals the end-of-file line. -/
theorem dump_stream_structure (mem : Nat → Nat) (w : Extractor) (hok : console_ok 13 w) :
    (∀ r, (dump_bootloader mem).run w = some r →
      stream r.2 = stream w ++
          ((List.range 4096).flatMap (intel_hex_line mem) ++ chars ":00000001FF\r\n") ∧
        r.2.calls = w.calls) ∧
    (4096 * 45 + 13 ≤ budget w → ∃ r, (dump_bootloader mem).run w = some r) ∧
    (∀ k, k < 4096 →
      (intel_hex_line mem k).length = 45 ∧ 16 * k ≤ 0xFFF0 ∧ 16 * k < 16 * (k + 1) ∧
      intel_hex_line mem k ≠ chars ":00000001FF\r\n") := by
  obtain ⟨hp, hs⟩ := emits_dump_bootloader 13 (le_refl 13) mem w hok
  refine ⟨fun r hr => ⟨(hp r hr).2.1, by simpa using (hp r hr).2.2.1⟩, fun hb => hs ?_,
    fun k hk => ⟨length_intel_hex_line mem k, by omega, by omega, fun h => ?_⟩⟩
  · rw [length_intel_hex_dump]
    omega
  · have h1 := congrArg List.length h
    rw [length_intel_hex_line, length_eof] at h1
    omega

/-- Claim C18 (GPIO snapshot format): for every value of the five ports,
`read_back_gpio` writes `Port `, then for the ports A, B, C, D, E in that
order the letter, `: `, the 16-bit value read in hex digits (most significant
first, uppercase; eight digits, the first four of them 0) and a space, then
CRLF; it reads each port exactly once, in that order. -/
theorem gpio_snapshot_format (gpio : Nat → Nat) (w : Extractor) (hok : console_ok 5 w) :
    (∀ r, (read_back_gpio gpio).run w = some r →
      stream r.2 = stream w ++
          (chars "Port " ++
            (chars "A: " ++ hex8 (gpio GPIOA % 65536) ++ chars " ") ++
            (chars "B: " ++ hex8 (gpio GPIOB % 65536) ++ chars " ") ++
            (chars "C: " ++ hex8 (gpio GPIOC % 65536) ++ chars " ") ++
            (chars "D: " ++ hex8 (gpio GPIOD % 65536) ++ chars " ") ++
            (chars "E: " ++ hex8 (gpio GPIOE % 65536) ++ chars " ") ++ chars "\r\n") ∧
        r.2.calls = w.calls ++
          [HwCall.gpio_port_read GPIOA, HwCall.gpio_port_read GPIOB,
           HwCall.gpio_port_read GPIOC, HwCall.gpio_port_read GPIOD,
           HwCall.gpio_port_read GPIOE]) ∧
    (67 ≤ budget w → ∃ r, (read_back_gpio gpio).run w = some r) ∧
    (∀ v, v < 65536 → hex8 v = chars "0000" ++ hex4 v) := by
  obtain ⟨hp, hs⟩ := emits_read_back_gpio 5 (le_refl 5) gpio w hok
  refine ⟨fun r hr => ⟨(hp r hr).2.1, (hp r hr).2.2.1⟩, fun hb => hs ?_, fun v hv => ?_⟩
  · have hlen : ∀ a b c d e, (gpio_snapshot a b c d e).length = 67 := by
      intro a b c d e
      have h1 : (chars "Port ").length = 5 := by decide
      have h2 : (chars "\r\n").length = 2 := by decide
      have h3 : (chars " ").length = 1 := by decide
      obtain ⟨ca, cb, cc, cd, ce, _⟩ := chars_port_letters
      have h4 : (chars ": ").length = 2 := by decide
      simp only [gpio_snapshot, ca, cb, cc, cd, ce, List.length_append, h1, h2, h3, h4, hex8,
        hex4, length_hex2, List.length_cons, List.length_nil]
    rw [hlen]
    exact hb
  · have h0 : v / 65536 % 65536 = 0 := by omega
    have h1 : v % 65536 = v := by omega
    have h2 : hex4 0 = chars "0000" := by decide
    rw [hex8, h0, h1, h2]

/-- Witness of C16: line 1 of the dump of an erased flash, and a console on
which the whole dump returns. -/
theorem dump_stream_structure_witness :
    console_ok 13 console_wide ∧
    (∃ r, (dump_bootloader erased_flash).run console_wide = some r) ∧
    intel_hex_line erased_flash 1 = chars ":10001000FFFFFFFFFFFFFFFFFFFFFFFFFFFFFFFFF0\r\n" ∧
    (intel_hex_line erased_flash 1).length = 45 :=
  ⟨⟨by decide, by decide, by decide⟩,
    (dump_stream_structure erased_flash console_wide ⟨by decide, by decide, by decide⟩).2.1
      (by decide),
    by decide,
    ((dump_stream_structure erased_flash console_wide ⟨by decide, by decide, by decide⟩).2.2 1
      (by decide)).1⟩

/-- Witness of C18: the snapshot of five known port values. -/
theorem gpio_snapshot_format_witness :
    console_ok 5 console_idle ∧
    ((read_back_gpio port_numbers).run console_idle).map (fun r => (stream r.2, r.2.calls)) =
      some (chars "Port A: 0000000A B: 000000B0 C: 00000C00 D: 0000D000 E: 0000FFFF \r\n",
        [HwCall.gpio_port_read GPIOA, HwCall.gpio_port_read GPIOB, HwCall.gpio_port_read GPIOC,
         HwCall.gpio_port_read GPIOD, HwCall.gpio_port_read GPIOE]) ∧
    (∃ r, (read_back_gpio port_numbers).run console_idle = some r) :=
  ⟨⟨by decide, by decide, by decide⟩, by decide,
    (gpio_snapshot_format port_numbers console_idle ⟨by decide, by decide, by decide⟩).2.1
      (by decide)⟩

theorem command_output_head (mem gpio : Nat → Nat) (c : Nat) :
    (command_output mem gpio c).head? =
      if c = 0x64 ∨ c = 0x44 then some 0x3A
      else if c = 0x72 ∨ c = 0x52 then none
      else if c = 0x67 ∨ c = 0x47 then some 0x50
      else if c = 0x68 ∨ c = 0x48 then some 0x64
      else if c = 0x0D then none
      else some 0x55 := by
  unfold command_output
  split
  · exact head_intel_hex_dump mem
  split
  · rfl
  split
  · exact head_gpio_snapshot _ _ _ _ _
  split
  · exact head_help_text
  split
  · rfl
  · exact head_unknown_text c

theorem length_gpio_snapshot (a b c d e : Nat) : (gpio_snapshot a b c d e).length = 67 := by
  have h1 : (chars "Port ").length = 5 := by decide
  have h2 : (chars "\r\n").length = 2 := by decide
  have h3 : (chars " ").length = 1 := by decide
  obtain ⟨ca, cb, cc, cd, ce, _⟩ := chars_port_letters
  have h4 : (chars ": ").length = 2 := by decide
  simp only [gpio_snapshot, ca, cb, cc, cd, ce, List.length_append, h1, h2, h3, h4, hex8,
    hex4, length_hex2, List.length_cons, List.length_nil]

theorem length_unknown_text (c : Nat) : (unknown_text c).length = 25 := by
  have h1 : (chars "Unknown command (0x").length = 19 := by decide
  have h2 : (chars ")!\r\n").length = 4 := by decide
  simp only [unknown_text, List.length_append, h1, h2, length_hex2]

theorem length_command_output (mem gpio : Nat → Nat) (c : Nat) :
    (command_output mem gpio c).length ≤ 4096 * 45 + 13 := by
  have hh : help_text.length = 79 := by decide
  unfold command_output
  split
  · rw [length_intel_hex_dump]
  split
  · simp
  split
  · rw [length_gpio_snapshot]; omega
  split
  · rw [hh]; omega
  split
  · simp
  · rw [length_unknown_text]; omega

theorem command_output_dump (mem gpio : Nat → Nat) (c : Nat) :
    command_output mem gpio c = intel_hex_dump mem ↔ (c = 0x64 ∨ c = 0x44) := by
  constructor
  · intro h
    have hh := command_output_head mem gpio c
    rw [h, head_intel_hex_dump] at hh
    by_contra hc
    split_ifs at hh <;> simp_all
  · intro h
    rw [command_output, if_pos h]

theorem command_output_gpio (mem gpio : Nat → Nat) (c : Nat) :
    command_output mem gpio c =
        gpio_snapshot (gpio GPIOA % 65536) (gpio GPIOB % 65536) (gpio GPIOC % 65536)
          (gpio GPIOD % 65536) (gpio GPIOE % 65536) ↔ (c = 0x67 ∨ c = 0x47) := by
  constructor
  · intro h
    have hh := command_output_head mem gpio c
    rw [h, head_gpio_snapshot] at hh
    by_contra hc
    split_ifs at hh <;> simp_all
  · intro h
    have h1 : ¬ (c = 0x64 ∨ c = 0x44) := by omega
    have h2 : ¬ (c = 0x72 ∨ c = 0x52) := by omega
    rw [command_output, if_neg h1, if_neg h2, if_pos h]

theorem command_output_help (mem gpio : Nat → Nat) (c : Nat) :
    command_output mem gpio c = help_text ↔ (c = 0x68 ∨ c = 0x48) := by
  constructor
  · intro h
    have hh := command_output_head mem gpio c
    rw [h, head_help_text] at hh
    by_contra hc
    split_ifs at hh <;> simp_all
  · intro h
    have h1 : ¬ (c = 0x64 ∨ c = 0x44) := by omega
    have h2 : ¬ (c = 0x72 ∨ c = 0x52) := by omega
    have h3 : ¬ (c = 0x67 ∨ c = 0x47) := by omega
    rw [command_output, if_neg h1, if_neg h2, if_neg h3, if_pos h]

theorem command_calls_reset (c : Nat) :
    command_calls c = [HwCall.scb_reset_system] ↔ (c = 0x72 ∨ c = 0x52) := by
  unfold command_calls
  constructor
  · intro h
    by_contra hc
    rw [if_neg hc] at h
    split at h <;> cases h
  · intro h
    rw [if_pos h]

theorem command_silent (mem gpio : Nat → Nat) (c : Nat) :
    (command_output mem gpio c = [] ∧ command_calls c = []) ↔ c = 0x0D := by
  constructor
  · rintro ⟨h1, h2⟩
    have hh := command_output_head mem gpio c
    rw [h1] at hh
    by_contra hc
    split_ifs at hh with k1 k2 k3 k4
    · cases hh
    · rw [command_calls, if_pos k2] at h2
      cases h2
    · cases hh
    · cases hh
    · cases hh
  · intro h
    subst h
    exact ⟨rfl, rfl⟩

/-- Claim C17 (command dispatch): for every command byte `c`, `handle_command`
writes the flash dump iff `c` is `d` or `D`; calls the system reset, writing
nothing, iff `c` is `r` or `R`; writes the GPIO snapshot (reading the five
ports) iff `c` is `g` or `G`; writes the help text iff `c` is `h` or `H`;
writes nothing and makes no call iff `c` is 0x0D; and for every other byte
writes `Unknown command (0x`, the two uppercase hex digits of `c`, `)!` and
CRLF, without a reset. -/
theorem command_dispatch (mem gpio : Nat → Nat) (c : Nat) (w : Extractor)
    (hok : console_ok 22 w) :
    (4096 * 45 + 13 ≤ budget w → ∃ r, (handle_command mem gpio c).run w = some r) ∧
    (∀ r, (handle_command mem gpio c).run w = some r →
      ((c = 0x64 ∨ c = 0x44) ↔ stream r.2 = stream w ++ intel_hex_dump mem) ∧
      ((c = 0x72 ∨ c = 0x52) ↔ r.2.calls = w.calls ++ [HwCall.scb_reset_system]) ∧
      ((c = 0x72 ∨ c = 0x52) → stream r.2 = stream w) ∧
      ((c = 0x67 ∨ c = 0x47) ↔ stream r.2 = stream w ++
        gpio_snapshot (gpio GPIOA % 65536) (gpio GPIOB % 65536) (gpio GPIOC % 65536)
          (gpio GPIOD % 65536) (gpio GPIOE % 65536)) ∧
      ((c = 0x67 ∨ c = 0x47) → r.2.calls = w.calls ++
        [HwCall.gpio_port_read GPIOA, HwCall.gpio_port_read GPIOB, HwCall.gpio_port_read GPIOC,
         HwCall.gpio_port_read GPIOD, HwCall.gpio_port_read GPIOE]) ∧
      ((c = 0x68 ∨ c = 0x48) ↔ stream r.2 = stream w ++ help_text) ∧
      (c = 0x0D ↔ stream r.2 = stream w ∧ r.2.calls = w.calls) ∧
      (¬ (c = 0x64 ∨ c = 0x44) → ¬ (c = 0x72 ∨ c = 0x52) → ¬ (c = 0x67 ∨ c = 0x47) →
        ¬ (c = 0x68 ∨ c = 0x48) → c ≠ 0x0D →
        stream r.2 = stream w ++
          (chars "Unknown command (0x" ++ hex2 c ++ chars ")!\r\n") ∧
        r.2.calls = w.calls)) := by
  obtain ⟨hp, hs⟩ := emits_handle_command 22 (le_refl 22) mem gpio c w hok
  constructor
  · intro hb
    exact hs (le_trans (length_command_output mem gpio c) hb)
  · intro r hr
    obtain ⟨_, hstream, hcalls, _⟩ := hp r hr
    have key : ∀ out, stream r.2 = stream w ++ out ↔ command_output mem gpio c = out := by
      intro out
      rw [hstream]
      exact ⟨fun h => List.append_cancel_left h, fun h => by rw [h]⟩
    have keyc : ∀ cs, r.2.calls = w.calls ++ cs ↔ command_calls c = cs := by
      intro cs
      rw [hcalls]
      exact ⟨fun h => List.append_cancel_left h, fun h => by rw [h]⟩
    have key0 : stream r.2 = stream w ↔ command_output mem gpio c = [] := by
      have := key []
      rwa [List.append_nil] at this
    have keyc0 : r.2.calls = w.calls ↔ command_calls c = [] := by
      have := keyc []
      rwa [List.append_nil] at this
    refine ⟨?_, ?_, ?_, ?_, ?_, ?_, ?_, ?_⟩
    · rw [key, command_output_dump]
    · rw [keyc, command_calls_reset]
    · intro h
      have h1 : ¬ (c = 0x64 ∨ c = 0x44) := by omega
      rw [key0, command_output, if_neg h1, if_pos h]
    · rw [key, command_output_gpio]
    · intro h
      have h2 : ¬ (c = 0x72 ∨ c = 0x52) := by omega
      rw [keyc, command_calls, if_neg h2, if_pos h]
    · rw [key, command_output_help]
    · rw [key0, keyc0, command_silent]
    · intro h1 h2 h3 h4 h5
      rw [key, keyc0]
      constructor
      · rw [command_output, if_neg h1, if_neg h2, if_neg h3, if_neg h4, if_neg h5]
        rfl
      · rw [command_calls, if_neg h2, if_neg h3]

/-- Witness of C17: the unknown command byte `z` on an idle console, and the
reset command on a console wide enough for every command. -/
theorem command_dispatch_witness :
    console_ok 22 console_wide ∧
    (∃ r, (handle_command erased_flash port_numbers 0x72).run console_wide = some r) ∧
    ((handle_command erased_flash port_numbers 0x72).run console_wide).map
        (fun r => (stream r.2, r.2.calls)) = some ([], [HwCall.scb_reset_system]) ∧
    ((handle_command erased_flash port_numbers 0x7A).run console_idle).map
        (fun r => (stream r.2, r.2.calls)) = some (chars "Unknown command (0x7A)!\r\n", []) :=
  ⟨⟨by decide, by decide, by decide⟩,
    (command_dispatch erased_flash port_numbers 0x72 console_wide
      ⟨by decide, by decide, by decide⟩).1 (by decide),
    by decide, by decide⟩

/-- Claim C19 (console overrun): on a ring buffer of capacity at least 10, for a
string longer than the capacity `console_puts` behaves as for the ten bytes
`OVERRUN!` CRLF: whenever it returns it has enqueued exactly those ten bytes
and none of the string, it returns once the host has made ten bytes free, and
at once when they are free already, so the recursion ends. For a string no
longer than the capacity it enqueues exactly the bytes of the string once the
buffer has that much free space, at once when it has it already. -/
theorem console_overrun (s : List Nat) (w : Extractor) (hok : console_ok 10 w) :
    OVERRUN = chars "OVERRUN!\r\n" ∧
    (s.length > w.console_buffer.capacity →
      (console_puts s).run w = (console_puts OVERRUN).run w ∧
      (∀ r, (console_puts s).run w = some r → stream r.2 = stream w ++ OVERRUN) ∧
      (10 ≤ budget w → ∃ r, (console_puts s).run w = some r) ∧
      (10 ≤ ringbuf_bytes_free w.console_buffer →
        (console_puts s).run w =
          some ((), { w with console_buffer :=
            { w.console_buffer with bytes := w.console_buffer.bytes ++ OVERRUN } }))) ∧
    (s.length ≤ w.console_buffer.capacity →
      (∀ r, (console_puts s).run w = some r → stream r.2 = stream w ++ s) ∧
      (s.length ≤ budget w → ∃ r, (console_puts s).run w = some r) ∧
      (s.length ≤ ringbuf_bytes_free w.console_buffer →
        (console_puts s).run w =
          some ((), { w with console_buffer :=
            { w.console_buffer with bytes := w.console_buffer.bytes ++ s } }))) := by
  have hlen : OVERRUN.length = 10 := rfl
  have hcap : OVERRUN.length ≤ w.console_buffer.capacity := by rw [hlen]; exact hok.2.2
  refine ⟨by decide, fun hlong => ?_, fun hfit => ?_⟩
  · have heq : (console_puts s).run w = (console_puts OVERRUN).run w := by
      rw [console_puts_overrun s w hlong, console_puts_depth_one OVERRUN w hcap]
    obtain ⟨hp, hs⟩ := emits_puts 10 OVERRUN (le_of_eq hlen) w hok
    rw [heq]
    refine ⟨rfl, fun r hr => (hp r hr).2.1, fun hb => hs (by rw [hlen]; exact hb), fun hf => ?_⟩
    exact console_puts_fits OVERRUN w hok.1 (by rw [hlen]; exact hf)
  · obtain ⟨hp, hs⟩ := emits_puts w.console_buffer.capacity s hfit w
      ⟨hok.1, hok.2.1, le_refl _⟩
    exact ⟨fun r hr => (hp r hr).2.1, hs, fun hf => console_puts_fits s w hok.1 hf⟩

/-- Witness of C19: a string of 17 characters on a queue of capacity 16 that
holds 12 bytes; the host frees the queue at the second poll and the notice
is enqueued. -/
theorem console_overrun_witness :
    console_ok 10 console_busy ∧
    long_message.length > console_busy.console_buffer.capacity ∧
    (console_puts long_message).run console_busy = (console_puts OVERRUN).run console_busy ∧
    (console_puts long_message).run console_busy =
      some ((), { console_buffer := { capacity := 16, bytes := chars "OVERRUN!\r\n" },
                  packets := [[1, 2, 3, 4, 5, 6, 7, 8, 9, 10, 11, 12]], calls := [],
                  host := [] }) :=
  ⟨⟨by decide, by decide, by decide⟩, by decide,
    ((console_overrun long_message console_busy ⟨by decide, by decide, by decide⟩).2.1
      (by decide)).1,
    by decide⟩

/-- Claim C20 (console transport FIFO): with the ring buffer a bounded byte
queue, for every interleaving of `console_putc` and `console_puts` calls (no
string longer than the capacity) with transmit-ready callbacks, whenever the
interleaving has run, the bytes of the packets handed to the bulk IN endpoint
followed by the bytes still queued are exactly the bytes written, in order:
the packets are a prefix of what was written and nothing is lost, duplicated
or overwritten. Each callback hands over exactly the first `min(used, 64)`
bytes of the queue, and no packet when the queue is empty. -/
theorem console_fifo (ops : List ConsoleOp) (w : Extractor) (hok : console_ok 1 w)
    (hfit : ∀ s, ConsoleOp.puts s ∈ ops → s.length ≤ w.console_buffer.capacity) :
    (∀ r, (run_ops ops).run w = some r →
      r.2.packets.flatten ++ r.2.console_buffer.bytes =
          w.packets.flatten ++ w.console_buffer.bytes ++ written ops ∧
        r.2.packets.flatten <+: w.packets.flatten ++ w.console_buffer.bytes ++ written ops ∧
        r.2.console_buffer.bytes.length ≤ r.2.console_buffer.capacity) ∧
    ((written ops).length ≤ budget w → ∃ r, (run_ops ops).run w = some r) ∧
    (∀ v : Extractor,
      (v.console_buffer.bytes = [] → cdcacm_tx_ready_cb v = v) ∧
      (v.console_buffer.bytes ≠ [] →
        cdcacm_tx_ready_cb v =
          { v with
            packets := v.packets ++
              [v.console_buffer.bytes.take (min v.console_buffer.bytes.length 64)],
            console_buffer :=
              { v.console_buffer with
                bytes := v.console_buffer.bytes.drop
                  (min v.console_buffer.bytes.length 64) } })) := by
  obtain ⟨hp, hs⟩ := emits_run_ops w.console_buffer.capacity ops hfit w
    ⟨hok.1, hok.2.1, le_refl _⟩
  refine ⟨fun r hr => ?_, hs, fun v => ⟨fun he => ?_, fun hne => ?_⟩⟩
  · obtain ⟨_, h2, _, _, h5, _⟩ := hp r hr
    simp only [stream] at h2
    exact ⟨h2, ⟨r.2.console_buffer.bytes, h2⟩, h5.1⟩
  · simp [cdcacm_tx_ready_cb, ringbuf_bytes_used, he]
  · have hpos : v.console_buffer.bytes.length ≠ 0 := by
      intro h0
      exact hne (List.length_eq_zero.mp h0)
    have hmin : (if v.console_buffer.bytes.length > MAX_PACKET_SIZE then MAX_PACKET_SIZE
        else v.console_buffer.bytes.length) = min v.console_buffer.bytes.length 64 := by
      unfold MAX_PACKET_SIZE
      split <;> omega
    simp only [cdcacm_tx_ready_cb, ringbuf_bytes_used, if_neg hpos, hmin, ringbuf_memcpy_from]

/-- Witness of C20: an interleaving of three writes and two callbacks on a
queue of capacity 16 that holds 12 bytes. -/
theorem console_fifo_witness :
    console_ok 1 console_busy ∧
    ((run_ops busy_ops).run console_busy).map
        (fun r => (r.2.packets, r.2.console_buffer.bytes)) =
      some ([[1, 2, 3, 4, 5, 6, 7, 8, 9, 10, 11, 12, 0x41], chars "hello"],
        chars "sixteen letters.") ∧
    (∀ r, (run_ops busy_ops).run console_busy = some r →
      r.2.packets.flatten ++ r.2.console_buffer.bytes =
        console_busy.packets.flatten ++ console_busy.console_buffer.bytes ++
          written busy_ops) :=
  ⟨⟨by decide, by decide, by decide⟩, by decide, fun r hr =>
    ((console_fifo busy_ops console_busy ⟨by decide, by decide, by decide⟩
      (fun s hs => by
        simp only [busy_ops, List.mem_cons, ConsoleOp.puts.injEq, List.mem_singleton,
          List.not_mem_nil, or_false, false_or, reduceCtorEq] at hs
        rcases hs with h | h <;> subst h <;> decide)).1 r hr).1⟩

/-! ## The long-press monitor -/

theorem pressed_run_snoc (l : List Nat) (pin : Nat) :
    pressed_run (l ++ [pin]) = if power_button_pressed pin then pressed_run l + 1 else 0 := by
  unfold pressed_run
  rw [List.reverse_append, List.reverse_singleton, List.singleton_append, List.takeWhile_cons]
  split <;> simp_all

theorem long_press_calls_spec {C : Type} [DecidableEq C] (handle : Nat → Nat → Nat × List C)
    (reset : C)
    (h1 : ∀ c pin, c ≤ 0x10000 → (handle c pin).1 = if power_button_pressed pin then c + 1 else 0)
    (h2 : ∀ c pin, c ≤ 0x10000 →
      (handle c pin).2 = if 0x10000 < (handle c pin).1 then [reset] else [])
    (samples : List Nat) :
    ∀ (pre : List Nat) (k : Nat), pressed_run pre ≤ 0x10000 →
      (k < (long_press_calls handle reset (pressed_run pre) samples).length ↔
        k < samples.length ∧
          ∀ j, j < k → pressed_run (pre ++ samples.take (j + 1)) ≤ 0x10000) ∧
      ∀ r, (long_press_calls handle reset (pressed_run pre) samples)[k]? = some r →
        r.1 = pressed_run (pre ++ samples.take (k + 1)) ∧
        r.2 = (if 0x10000 < r.1 then [reset] else []) ∧
        r.1 ≤ 0x10001 ∧
        (0x10000 < r.1 → power_button_pressed (samples.getD k 1) = true) := by
  induction samples with
  | nil =>
    intro pre k _
    simp [long_press_calls]
  | cons pin rest ih =>
    intro pre k hpre
    have e1 : (handle (pressed_run pre) pin).1 = pressed_run (pre ++ [pin]) := by
      rw [h1 _ _ hpre, pressed_run_snoc]
    have e2 := h2 (pressed_run pre) pin hpre
    have hle : (handle (pressed_run pre) pin).1 ≤ 0x10001 := by
      rw [h1 _ _ hpre]
      split <;> omega
    have hpr : 0x10000 < (handle (pressed_run pre) pin).1 → power_button_pressed pin = true := by
      rw [h1 _ _ hpre]
      split
      · intro _; assumption
      · intro h; omega
    have hcat : ∀ t : List Nat, pre ++ pin :: t = (pre ++ [pin]) ++ t := by
      intro t; simp
    unfold long_press_calls
    by_cases hr : 0x10000 < (handle (pressed_run pre) pin).1
    · have hmem : reset ∈ (handle (pressed_run pre) pin).2 := by
        rw [e2, if_pos hr]; exact List.mem_singleton.mpr rfl
      rw [if_pos hmem]
      constructor
      · constructor
        · intro hk
          have hk0 : k = 0 := by simpa using hk
          subst hk0
          exact ⟨by simp, fun j hj => absurd hj (Nat.not_lt_zero j)⟩
        · intro ⟨_, hall⟩
          cases k with
          | zero => simp
          | succ k =>
            have := hall 0 (Nat.succ_pos k)
            rw [List.take_succ_cons, List.take_zero, ← e1] at this
            omega
      · intro r hrk
        cases k with
        | zero =>
          simp only [List.getElem?_cons_zero, Option.some.injEq] at hrk
          subst hrk
          refine ⟨?_, e2, hle, ?_⟩
          · rw [List.take_succ_cons, List.take_zero]; exact e1
          · simpa using hpr
        | succ k => simp at hrk
    · have hmem : ¬ reset ∈ (handle (pressed_run pre) pin).2 := by
        rw [e2, if_neg hr]; exact List.not_mem_nil reset
      rw [if_neg hmem]
      have hpre2 : pressed_run (pre ++ [pin]) ≤ 0x10000 := by rw [← e1]; omega
      rw [e1]
      cases k with
      | zero =>
        constructor
        · simp
        · intro r hrk
          simp only [List.getElem?_cons_zero, Option.some.injEq] at hrk
          subst hrk
          refine ⟨?_, e2, hle, ?_⟩
          · rw [List.take_succ_cons, List.take_zero]; exact e1
          · simpa using hpr
      | succ k =>
        obtain ⟨ia, ib⟩ := ih (pre ++ [pin]) k hpre2
        constructor
        · rw [List.length_cons, List.length_cons, Nat.succ_lt_succ_iff, Nat.succ_lt_succ_iff, ia]
          constructor
          · intro ⟨hk, hall⟩
            refine ⟨hk, fun j hj => ?_⟩
            cases j with
            | zero => rw [List.take_succ_cons, List.take_zero]; exact hpre2
            | succ j =>
              rw [List.take_succ_cons, hcat]
              exact hall j (Nat.lt_of_succ_lt_succ hj)
          · intro ⟨hk, hall⟩
            refine ⟨hk, fun j hj => ?_⟩
            have := hall (j + 1) (Nat.succ_lt_succ hj)
            rw [List.take_succ_cons, hcat] at this
            exact this
        · intro r hrk
          rw [List.getElem?_cons_succ] at hrk
          have := ib r hrk
          rw [List.take_succ_cons, hcat]
          simpa using this

theorem monitors_of_spec {C : Type} [DecidableEq C] (handle : Nat → Nat → Nat × List C)
    (reset : C)
    (h1 : ∀ c pin, c ≤ 0x10000 → (handle c pin).1 = if power_button_pressed pin then c + 1 else 0)
    (h2 : ∀ c pin, c ≤ 0x10000 →
      (handle c pin).2 = if 0x10000 < (handle c pin).1 then [reset] else []) :
    monitors_long_press handle reset := by
  intro samples k
  have h0 : pressed_run [] = 0 := rfl
  obtain ⟨ha, hb⟩ := long_press_calls_spec handle reset h1 h2 samples [] k (by decide)
  rw [h0] at ha hb
  simp only [List.nil_append] at ha hb
  refine ⟨ha, fun r hr => ?_⟩
  obtain ⟨b1, b2, b3, b4⟩ := hb r hr
  rw [← b1]
  by_cases hgt : 0x10000 < r.1
  · rw [if_pos hgt] at b2
    exact ⟨rfl, Or.inl b2, ⟨fun _ => ⟨b4 hgt, hgt⟩, fun _ => b2⟩,
      ⟨fun _ => by omega, fun _ => b2⟩⟩
  · rw [if_neg hgt] at b2
    refine ⟨rfl, Or.inr b2, ⟨fun h => ?_, fun h => absurd h.2 hgt⟩, ⟨fun h => ?_, fun h => ?_⟩⟩
    · rw [b2] at h; cases h
    · rw [b2] at h; cases h
    · omega

theorem alt_handle_counter (c pin : Nat) (hc : c ≤ 0x10000) :
    (alt_bootloader.handle_long_press c pin).1 = if power_button_pressed pin then c + 1 else 0 := by
  have hm : (c + 1) % 2 ^ 32 = c + 1 := Nat.mod_eq_of_lt (by omega)
  unfold alt_bootloader.handle_long_press
  simp only [hm]
  split_ifs <;> rfl

theorem alt_handle_calls (c pin : Nat) (hc : c ≤ 0x10000) :
    (alt_bootloader.handle_long_press c pin).2 =
      if 0x10000 < (alt_bootloader.handle_long_press c pin).1 then [Effect.scb_reset_system]
      else [] := by
  have hm : (c + 1) % 2 ^ 32 = c + 1 := Nat.mod_eq_of_lt (by omega)
  unfold alt_bootloader.handle_long_press LONG_PRESS_DURATION
  simp only [hm]
  split_ifs <;> simp_all

theorem extractor_handle_counter (c pin : Nat) (hc : c ≤ 0x10000) :
    (bootloader_extractor.handle_long_press c pin).1 =
      if power_button_pressed pin then c + 1 else 0 := by
  have hm : (c + 1) % 2 ^ 32 = c + 1 := Nat.mod_eq_of_lt (by omega)
  unfold bootloader_extractor.handle_long_press
  simp only [hm]
  split_ifs <;> rfl

theorem extractor_handle_calls (c pin : Nat) (hc : c ≤ 0x10000) :
    (bootloader_extractor.handle_long_press c pin).2 =
      if 0x10000 < (bootloader_extractor.handle_long_press c pin).1
      then [HwCall.scb_reset_system] else [] := by
  have hm : (c + 1) % 2 ^ 32 = c + 1 := Nat.mod_eq_of_lt (by omega)
  unfold bootloader_extractor.handle_long_press LONG_PRESS_DURATION
  simp only [hm]
  split_ifs <;> simp_all

/-- Claim C21 (long-press monitor): for every sequence of button samples fed to
`handle_long_press` from a zero counter, the counter after each call is the
number of consecutive asserted samples ending at that call (zero after a
released sample), and the call triggers the system reset exactly when its
sample is asserted and the counter after the increment exceeds 0x10000, that
is at the 65537th consecutive asserted sample and at no released sample or
shorter run; the calls go on, one for each sample, until the reset. This
holds for the monitor of the alternate bootloader and for the monitor of the
bootloader extractor. -/
theorem long_press_monitor :
    monitors_long_press alt_bootloader.handle_long_press Effect.scb_reset_system ∧
    monitors_long_press bootloader_extractor.handle_long_press HwCall.scb_reset_system ∧
    alt_bootloader.handle_long_press 0xFFFF 0 = (0x10000, []) ∧
    alt_bootloader.handle_long_press 0x10000 0 = (0x10001, [Effect.scb_reset_system]) ∧
    bootloader_extractor.handle_long_press 0xFFFF 0 = (0x10000, []) ∧
    bootloader_extractor.handle_long_press 0x10000 0 = (0x10001, [HwCall.scb_reset_system]) :=
  ⟨monitors_of_spec _ _ alt_handle_counter alt_handle_calls,
    monitors_of_spec _ _ extractor_handle_counter extractor_handle_calls,
    by decide, by decide, by decide, by decide⟩

/-- The claim C21 at the samples asserted, asserted, released, asserted: the
counter runs 1, 2, 0, 1 in both builds and no call triggers the reset. -/
theorem long_press_monitor_witness :
    long_press_calls alt_bootloader.handle_long_press Effect.scb_reset_system 0 bouncing_press =
      [(1, []), (2, []), (0, []), (1, [])] ∧
    pressed_run (bouncing_press.take 2) = 2 ∧
    pressed_run (bouncing_press.take 3) = 0 ∧
    pressed_run (bouncing_press.take 4) = 1 ∧
    (3 < (long_press_calls alt_bootloader.handle_long_press Effect.scb_reset_system 0
        bouncing_press).length) ∧
    ((1 : Nat), ([] : List Effect)).1 = pressed_run (bouncing_press.take (3 + 1)) ∧
    ((2 : Nat), ([] : List HwCall)).1 = pressed_run (bouncing_press.take (1 + 1)) :=
  ⟨by decide, by decide, by decide, by decide,
    (long_press_monitor.1 bouncing_press 3).1.mpr ⟨by decide, by decide⟩,
    ((long_press_monitor.1 bouncing_press 3).2 (1, []) (by decide)).1,
    ((long_press_monitor.2.1 bouncing_press 1).2 (2, []) (by decide)).1⟩

/-! ## The value printed by `dump_long` -/

theorem store8_eq_some (buf : List Nat) (i v : Nat) (b : List Nat) (h : store8 buf i v = some b) :
    i < buf.length ∧ b = buf.set i v := by
  unfold store8 at h
  split at h
  · exact ⟨by assumption, (Option.some.inj h).symm⟩
  · cases h

theorem getstatus_case_some (s : DfuSession) (buf : List Nat) (len : Option Nat)
    (r : ControlResult) (h : getstatus_case s buf len = some r) :
    6 ≤ buf.length ∧ ∃ n, len = some n := by
  unfold getstatus_case at h
  simp only [Option.bind_eq_some] at h
  obtain ⟨b0, h0, b1, h1, b2, h2, b3, h3, b4, h4, b5, h5, n, hn, _⟩ := h
  obtain ⟨_, rfl⟩ := store8_eq_some _ _ _ _ h0
  obtain ⟨_, rfl⟩ := store8_eq_some _ _ _ _ h1
  obtain ⟨_, rfl⟩ := store8_eq_some _ _ _ _ h2
  obtain ⟨_, rfl⟩ := store8_eq_some _ _ _ _ h3
  obtain ⟨_, rfl⟩ := store8_eq_some _ _ _ _ h4
  obtain ⟨k5, rfl⟩ := store8_eq_some _ _ _ _ h5
  refine ⟨?_, n, hn⟩
  simpa using k5

theorem getstatus_in_use (st : dfu_state) (h : st.in_use = true) :
    (usbdfu_getstatus st 0).2.1.in_use = true := by
  cases st <;> first | rfl | cases h

theorem control_in_use (s : DfuSession) (req : usb_setup_data) (buf : List Nat)
    (len : Option Nat) (complete : Option Completion) (r : ControlResult)
    (hs : s.usbdfu_state.in_use = true)
    (h : usbdfu_control_request s req buf len complete = some r) :
    r.session.usbdfu_state.in_use = true := by
  unfold usbdfu_control_request at h
  by_cases k0 : req.bmRequestType &&& 0x7F ≠ 0x21
  · rw [if_pos k0] at h
    cases h; exact hs
  rw [if_neg k0] at h
  by_cases k1 : req.bRequest = DFU_DNLOAD
  · rw [if_pos k1] at h
    unfold dnload_case at h
    split_ifs at h
    · cases h; rfl
    · simp only [Option.bind_eq_some] at h
      obtain ⟨pb, _, h⟩ := h
      cases h; rfl
  rw [if_neg k1] at h
  by_cases k2 : req.bRequest = DFU_CLRSTATUS
  · rw [if_pos k2] at h
    cases h
    by_cases k : s.usbdfu_state = .STATE_DFU_ERROR
    · rw [if_pos k]; rfl
    · rw [if_neg k]; exact hs
  rw [if_neg k2] at h
  by_cases k3 : req.bRequest = DFU_ABORT
  · rw [if_pos k3] at h
    cases h; rfl
  rw [if_neg k3] at h
  by_cases k4 : req.bRequest = DFU_UPLOAD
  · rw [if_pos k4] at h
    cases h; exact hs
  rw [if_neg k4] at h
  by_cases k5 : req.bRequest = DFU_GETSTATUS
  · rw [if_pos k5] at h
    obtain ⟨hb, n, rfl⟩ := getstatus_case_some s buf len r h
    rw [getstatus_case_eq s buf n hb] at h
    cases h
    exact getstatus_in_use _ hs
  rw [if_neg k5] at h
  by_cases k6 : req.bRequest = DFU_GETSTATE
  · rw [if_pos k6] at h
    unfold getstate_case at h
    simp only [Option.bind_eq_some] at h
    obtain ⟨b0, _, n, _, h⟩ := h
    cases h; exact hs
  rw [if_neg k6] at h
  cases h; exact hs

theorem complete_in_use (s : DfuSession) (hs : s.usbdfu_state.in_use = true) :
    (usbdfu_getstatus_complete s).1.usbdfu_state.in_use = true := by
  unfold usbdfu_getstatus_complete
  split
  · rfl
  · exact hs
  · exact hs

theorem step_in_use (s s' : DfuSession) (ev : Event) (fx : List Effect)
    (hs : s.usbdfu_state.in_use = true) (h : step s ev = some (s', fx)) :
    s'.usbdfu_state.in_use = true := by
  cases ev with
  | control req buf len =>
    simp only [step, Option.map_eq_some'] at h
    obtain ⟨r, hr, he⟩ := h
    have : s' = r.session := (congrArg Prod.fst he).symm
    subst this
    exact control_in_use s req buf len none r hs hr
  | status_complete =>
    simp only [step, Option.some.injEq] at h
    have : s' = (usbdfu_getstatus_complete s).1 := (congrArg Prod.fst h).symm
    subst this
    exact complete_in_use s hs

theorem run_in_use (es : List Event) :
    ∀ s : DfuSession, s.usbdfu_state.in_use = true → (run s es).1.usbdfu_state.in_use = true := by
  induction es with
  | nil => intro s hs; exact hs
  | cons e es ih =>
    intro s hs
    unfold run
    cases h : step s e with
    | none => exact hs
    | some p =>
      obtain ⟨s', fx⟩ := p
      have hs' := step_in_use s s' e fx hs h
      simp only
      split_ifs
      · exact hs'
      · exact ih s' hs'

theorem getstatus_byte_zero (s : DfuSession) (req : usb_setup_data) (buf : List Nat)
    (len : Option Nat) (complete : Option Completion) (r : ControlResult)
    (hreq : class_request DFU_GETSTATUS req)
    (h : usbdfu_control_request s req buf len complete = some r) :
    load8 r.buf 0 = DFU_STATUS_OK := by
  rw [control_getstatus s req buf len complete hreq] at h
  obtain ⟨hb, n, rfl⟩ := getstatus_case_some s buf _ r h
  obtain ⟨b0, b1, b2, b3, b4, b5, rest, rfl⟩ := six_bytes buf hb
  rw [getstatus_case_eq s _ n hb] at h
  cases h
  cases hs : s.usbdfu_state <;> simp [usbdfu_getstatus, load8, DFU_STATUS_OK]

/-- Claim C23 (ERROR is unreachable, the status is always OK): after every
sequence of control requests and status completions from the boot session the
state is one of IDLE, DNLOAD_SYNC, DNBUSY, DNLOAD_IDLE, MANIFEST_SYNC and
MANIFEST, so never ERROR; a class GETSTATUS request is answered there
whenever the response buffer has six bytes and the length pointer is not
null, and every answer carries `DFU_STATUS_OK` (0) in byte 0 and leaves the
state among the six. -/
theorem error_unreachable (es : List Event) :
    ((run boot es).1.usbdfu_state = .STATE_DFU_IDLE ∨
      (run boot es).1.usbdfu_state = .STATE_DFU_DNLOAD_SYNC ∨
      (run boot es).1.usbdfu_state = .STATE_DFU_DNBUSY ∨
      (run boot es).1.usbdfu_state = .STATE_DFU_DNLOAD_IDLE ∨
      (run boot es).1.usbdfu_state = .STATE_DFU_MANIFEST_SYNC ∨
      (run boot es).1.usbdfu_state = .STATE_DFU_MANIFEST) ∧
    (run boot es).1.usbdfu_state ≠ .STATE_DFU_ERROR ∧
    (∀ req buf n complete, class_request DFU_GETSTATUS req → 6 ≤ buf.length →
      ∃ r, usbdfu_control_request (run boot es).1 req buf (some n) complete = some r) ∧
    (∀ req buf len complete r, class_request DFU_GETSTATUS req →
      usbdfu_control_request (run boot es).1 req buf len complete = some r →
      load8 r.buf 0 = DFU_STATUS_OK ∧ DFU_STATUS_OK = 0 ∧
      r.session.usbdfu_state.in_use = true ∧
      r.session.usbdfu_state ≠ .STATE_DFU_ERROR) := by
  have hrun := run_in_use es boot rfl
  refine ⟨?_, ?_, ?_, ?_⟩
  · cases hs : (run boot es).1.usbdfu_state <;> rw [hs] at hrun <;>
      simp [dfu_state.in_use] at hrun ⊢
  · intro he
    rw [he] at hrun
    cases hrun
  · intro req buf n complete hreq hb
    rw [control_getstatus _ req buf _ complete hreq, getstatus_case_eq _ buf n hb]
    exact ⟨_, rfl⟩
  · intro req buf len complete r hreq hr
    have hu := control_in_use _ req buf len complete r hrun hr
    refine ⟨getstatus_byte_zero _ req buf len complete r hreq hr, rfl, hu, ?_⟩
    intro he
    rw [he] at hu
    cases hu

/-- The claim C23 at the download of a block into the protected region: the
gate drops every program call (the trace holds the two unlock and lock pairs
only), the state is DNLOAD_IDLE, and the GETSTATUS poll that follows reports
status OK. -/
theorem error_unreachable_witness :
    (run boot protected_events).2 =
      [Effect.flash_unlock, Effect.flash_lock, Effect.flash_unlock, Effect.flash_lock] ∧
    (run boot protected_events).1.usbdfu_state = .STATE_DFU_DNLOAD_IDLE ∧
    (run boot protected_events).1.usbdfu_state ≠ .STATE_DFU_ERROR ∧
    (∀ r, usbdfu_control_request (run boot protected_events).1 getstatus_request
        [9, 9, 9, 9, 9, 9] (some 6) none = some r →
      load8 r.buf 0 = DFU_STATUS_OK) :=
  ⟨by decide, by decide, (error_unreachable protected_events).2.1,
    fun r hr => ((error_unreachable protected_events).2.2.2 getstatus_request [9, 9, 9, 9, 9, 9]
      (some 6) none r ⟨by decide, rfl⟩ hr).1⟩

/-! ## The value returned by `dump_line` -/

/-- Claim C24 (`dump_line` returns the address + 16) at the line address
0x08000000 with base 0x08000000: the function returns 0x08000000, the address
it was given, and not 0x08000010; called again with the value it returned it
sends the record of offset 0000 a second time. -/
theorem dump_line_returns_its_argument :
    ((dump_line erased_flash 0x08000000 0x08000000).run console_idle).map (fun r => r.1) =
      some 0x08000000 ∧
    (0x08000000 : Nat) ≠ 0x08000000 + 16 ∧
    ((dump_line erased_flash 0x08000000 0x08000000 >>= fun next =>
        dump_line erased_flash next 0x08000000).run console_idle).map (fun r => stream r.2) =
      some (chars ":10000000FFFFFFFFFFFFFFFFFFFFFFFFFFFFFFFF00\r\n" ++
        chars ":10000000FFFFFFFFFFFFFFFFFFFFFFFFFFFFFFFF00\r\n") := by
  refine ⟨by decide, by decide, by decide⟩

end Tg165
